import Mathlib

/-!
# Bounce soft body: element stiffness assembly and mass lumping

A shallow embedding of `src/bounce/softbody/softbody.cpp` and of the inline
accessors of `include/bounce/dynamics/cloth/spring_cloth.h`.

Conventions of the embedding.

* `float32` values are rationals: every claim proved here is a claim about the
  exact-arithmetic reading of the code, not about rounding.
* A C array (`float32*`, `float32 out[16]`, `b3Mat33 K[16]`, the node array) is
  a total function from indices to values; a store `a[i] = v` is
  `Function.update a i v`.  A function that writes through an output pointer
  takes the old contents of the buffer and returns the new contents.  A local
  array declared without an initialiser starts as `uninit` (all zero); the code
  writes every slot of such an array before reading it.
* `for (u32 i = 0; i < n; ++i)` is a left fold over `List.range n`.  The
  counters are `u32`; all sizes here are far below `2^32`, so they are `Nat`.
* `B3_ASSERT` is modelled as failure: a function containing one returns
  `Option`, and `none` is the failed assertion.
* A float division by zero yields an infinity or a NaN, which is no rational.
  The only divisions by a quantity that can vanish are those of `b3Lame`, at
  `nu = -1` and `nu = 1/2`: `b3Lame.checked` is `none` there, and what is proved
  of the stiffness is proved for the other values of `nu`.
-/

namespace Bounce

/-! ## Basic types -/

/-- Modelled from the spec: `b3Vec3` (declared in `vec3.h`, not among the
sources) is a triple of scalars `x`, `y`, `z`. -/
structure b3Vec3 where
  x : ℚ
  y : ℚ
  z : ℚ
  deriving DecidableEq

/-- Modelled from the spec: `b3Vec2` (declared in `vec2.h`, not among the
sources) is a pair of scalars. -/
structure b3Vec2 where
  x : ℚ
  y : ℚ
  deriving DecidableEq

/-- Modelled from the spec: `b3Mat33` (declared in `mat33.h`, not among the
sources) stores its three columns `x`, `y`, `z`; `b3SetK` addresses the entry in
row `r` of column `c` as `K.c.r`. -/
structure b3Mat33 where
  x : b3Vec3
  y : b3Vec3
  z : b3Vec3
  deriving DecidableEq

/-- The zero vector, `b3Vec3::SetZero`. -/
def b3Vec3.zero : b3Vec3 := ⟨0, 0, 0⟩

/-- The zero 2-vector, `b3Vec2::SetZero`. -/
def b3Vec2.zero : b3Vec2 := ⟨0, 0⟩

/-- Component `r` (0, 1, 2 for `x`, `y`, `z`) of a vector. -/
def b3Vec3.comp (v : b3Vec3) (r : Fin 3) : ℚ :=
  match r with
  | 0 => v.x
  | 1 => v.y
  | 2 => v.z

/-- Column `c` of a matrix. -/
def b3Mat33.col (A : b3Mat33) (c : Fin 3) : b3Vec3 :=
  match c with
  | 0 => A.x
  | 1 => A.y
  | 2 => A.z

/-- The entry in row `r` and column `c`: component `r` of column vector `c`. -/
def b3Mat33.entry (A : b3Mat33) (r c : Fin 3) : ℚ := (A.col c).comp r

/-- Modelled from the spec: the transpose of a `b3Mat33` (`b3Transpose` of
`mat33.h`, not among the sources): rows become columns. -/
def b3Mat33.transpose (A : b3Mat33) : b3Mat33 :=
  { x := ⟨A.x.x, A.y.x, A.z.x⟩,
    y := ⟨A.x.y, A.y.y, A.z.y⟩,
    z := ⟨A.x.z, A.y.z, A.z.z⟩ }

/-- Modelled from the spec: the product of a `b3Mat33` and a `b3Vec3`
(`operator*` of `mat33.h`, not among the sources): the combination
`v.x * A.x + v.y * A.y + v.z * A.z` of the columns. -/
def b3Mat33.mulVec (A : b3Mat33) (v : b3Vec3) : b3Vec3 :=
  { x := v.x * A.x.x + v.y * A.y.x + v.z * A.z.x,
    y := v.x * A.x.y + v.y * A.y.y + v.z * A.z.y,
    z := v.x * A.x.z + v.y * A.y.z + v.z * A.z.z }

/-- Sum of two vectors, componentwise. -/
def b3Vec3.add (a b : b3Vec3) : b3Vec3 := ⟨a.x + b.x, a.y + b.y, a.z + b.z⟩

/-- The contents of a local array declared without an initialiser. -/
def uninit : Nat → ℚ := fun _ => 0

/-- A failed `B3_ASSERT` is `none`. -/
def B3_ASSERT (c : Prop) [Decidable c] : Option Unit :=
  if c then some () else none

/-! ## Dense column-major helpers (`softbody.cpp`, lines 33-60) -/

/-- The function `b3Mul(C, A, AM, AN, B, BM, BN)`: `C = A * B` for column-major `A`
(`AM x AN`) and `B` (`BM x BN`); asserts `AN == BM`. -/
def b3Mul (C A : Nat → ℚ) (AM AN : Nat) (B : Nat → ℚ) (BM BN : Nat) :
    Option (Nat → ℚ) := do
  B3_ASSERT (AN = BM)
  pure <| (List.range AM).foldl (fun C i =>
    (List.range BN).foldl (fun C j =>
      let C := Function.update C (i + AM * j) 0
      (List.range AN).foldl (fun C k =>
        Function.update C (i + AM * j)
          (C (i + AM * j) + A (i + AM * k) * B (k + BM * j))) C) C) C

/-- The function `b3Transpose(B, A, AM, AN)`: `B[j + AN * i] = A[i + AM * j]`. -/
def b3Transpose (B A : Nat → ℚ) (AM AN : Nat) : Nat → ℚ :=
  (List.range AM).foldl (fun B i =>
    (List.range AN).foldl (fun B j =>
      Function.update B (j + AN * i) (A (i + AM * j))) B) B

/-! ## The closed-form 4x4 inverse (lines 62-189) -/

/-- The local array `inv` of `b3Inverse4`: sixteen cubic expressions in the
entries of `m`, in the order the source assigns them. -/
def b3Inverse4.inv (m : Nat → ℚ) : Nat → ℚ := fun n =>
  match n with
  | 0 => m 5 * m 10 * m 15 - m 5 * m 11 * m 14 - m 9 * m 6 * m 15 + m 9 * m 7 * m 14 + m 13 * m 6 * m 11 - m 13 * m 7 * m 10
  | 4 => -m 4 * m 10 * m 15 + m 4 * m 11 * m 14 + m 8 * m 6 * m 15 - m 8 * m 7 * m 14 - m 12 * m 6 * m 11 + m 12 * m 7 * m 10
  | 8 => m 4 * m 9 * m 15 - m 4 * m 11 * m 13 - m 8 * m 5 * m 15 + m 8 * m 7 * m 13 + m 12 * m 5 * m 11 - m 12 * m 7 * m 9
  | 12 => -m 4 * m 9 * m 14 + m 4 * m 10 * m 13 + m 8 * m 5 * m 14 - m 8 * m 6 * m 13 - m 12 * m 5 * m 10 + m 12 * m 6 * m 9
  | 1 => -m 1 * m 10 * m 15 + m 1 * m 11 * m 14 + m 9 * m 2 * m 15 - m 9 * m 3 * m 14 - m 13 * m 2 * m 11 + m 13 * m 3 * m 10
  | 5 => m 0 * m 10 * m 15 - m 0 * m 11 * m 14 - m 8 * m 2 * m 15 + m 8 * m 3 * m 14 + m 12 * m 2 * m 11 - m 12 * m 3 * m 10
  | 9 => -m 0 * m 9 * m 15 + m 0 * m 11 * m 13 + m 8 * m 1 * m 15 - m 8 * m 3 * m 13 - m 12 * m 1 * m 11 + m 12 * m 3 * m 9
  | 13 => m 0 * m 9 * m 14 - m 0 * m 10 * m 13 - m 8 * m 1 * m 14 + m 8 * m 2 * m 13 + m 12 * m 1 * m 10 - m 12 * m 2 * m 9
  | 2 => m 1 * m 6 * m 15 - m 1 * m 7 * m 14 - m 5 * m 2 * m 15 + m 5 * m 3 * m 14 + m 13 * m 2 * m 7 - m 13 * m 3 * m 6
  | 6 => -m 0 * m 6 * m 15 + m 0 * m 7 * m 14 + m 4 * m 2 * m 15 - m 4 * m 3 * m 14 - m 12 * m 2 * m 7 + m 12 * m 3 * m 6
  | 10 => m 0 * m 5 * m 15 - m 0 * m 7 * m 13 - m 4 * m 1 * m 15 + m 4 * m 3 * m 13 + m 12 * m 1 * m 7 - m 12 * m 3 * m 5
  | 14 => -m 0 * m 5 * m 14 + m 0 * m 6 * m 13 + m 4 * m 1 * m 14 - m 4 * m 2 * m 13 - m 12 * m 1 * m 6 + m 12 * m 2 * m 5
  | 3 => -m 1 * m 6 * m 11 + m 1 * m 7 * m 10 + m 5 * m 2 * m 11 - m 5 * m 3 * m 10 - m 9 * m 2 * m 7 + m 9 * m 3 * m 6
  | 7 => m 0 * m 6 * m 11 - m 0 * m 7 * m 10 - m 4 * m 2 * m 11 + m 4 * m 3 * m 10 + m 8 * m 2 * m 7 - m 8 * m 3 * m 6
  | 11 => -m 0 * m 5 * m 11 + m 0 * m 7 * m 9 + m 4 * m 1 * m 11 - m 4 * m 3 * m 9 - m 8 * m 1 * m 7 + m 8 * m 3 * m 5
  | 15 => m 0 * m 5 * m 10 - m 0 * m 6 * m 9 - m 4 * m 1 * m 10 + m 4 * m 2 * m 9 + m 8 * m 1 * m 6 - m 8 * m 2 * m 5
  | _ => 0

/-- The local `det` of `b3Inverse4` as first computed (line 178). -/
def b3Inverse4.det (m : Nat → ℚ) : ℚ :=
  let inv := b3Inverse4.inv m
  m 0 * inv 0 + m 1 * inv 4 + m 2 * inv 8 + m 3 * inv 12

/-- The function `b3Inverse4(out, m)`: `det` is replaced by its reciprocal only when it is
non-zero, then `out[i] = det * inv[i]` for the sixteen entries. -/
def b3Inverse4 (out m : Nat → ℚ) : Nat → ℚ :=
  let inv := b3Inverse4.inv m
  let det := b3Inverse4.det m
  let det := if det ≠ 0 then 1 / det else det
  (List.range 16).foldl (fun out i => Function.update out i (det * inv i)) out

/-! ## Material and strain-displacement matrices (lines 191-264) -/

/-- The function `b3Lame(lambda, mu, E, nu)`: the two outputs as a pair `(lambda, mu)`.
The quotients are those of the source where the divisors are not zero, that is
for `nu ≠ -1` and `nu ≠ 1/2`; `b3Lame.checked` records where they are. -/
def b3Lame (E nu : ℚ) : ℚ × ℚ :=
  let lambda := (nu * E) / ((1 + nu) * (1 - 2 * nu))
  let mu := E / (2 * (1 + nu))
  (lambda, mu)

/-- The function `b3Lame` (lines 191-195) with its two divisions checked.  The
source divides by `(1 + nu) * (1 - 2 * nu)` and by `2 * (1 + nu)`; where one of
these is zero the float quotient is an infinity or a NaN, and the result is
`none`: no rational `lambda`, `mu` comes out of the call. -/
def b3Lame.checked (E nu : ℚ) : Option (ℚ × ℚ) :=
  if (1 + nu) * (1 - 2 * nu) = 0 ∨ 2 * (1 + nu) = 0 then none
  else
    let lambda := (nu * E) / ((1 + nu) * (1 - 2 * nu))
    let mu := E / (2 * (1 + nu))
    some (lambda, mu)

/-- The function `b3CreateE(out, lambda, mu)`: copies the 36-entry literal into `out`. -/
def b3CreateE (out : Nat → ℚ) (lambda mu : ℚ) : Nat → ℚ :=
  let E : List ℚ :=
    [ lambda + 2 * mu, lambda,          lambda,          0,  0,  0,
      lambda,          lambda + 2 * mu, lambda,          0,  0,  0,
      lambda,          lambda,          lambda + 2 * mu, 0,  0,  0,
      0,               0,               0,               mu, 0,  0,
      0,               0,               0,               0,  mu, 0,
      0,               0,               0,               0,  0,  mu ]
  (List.range 36).foldl (fun out i => Function.update out i (E.getD i 0)) out

/-- The function `b3CreateB(out, invP)`: copies the 72-entry literal (the 6 x 12 matrix of
the source comment, one column of six per line) into `out`. -/
def b3CreateB (out invP : Nat → ℚ) : Nat → ℚ :=
  let a11 := invP 0
  let a21 := invP 1
  let a31 := invP 2
  let a41 := invP 3
  let a12 := invP 4
  let a22 := invP 5
  let a32 := invP 6
  let a42 := invP 7
  let a13 := invP 8
  let a23 := invP 9
  let a33 := invP 10
  let a43 := invP 11
  let B : List ℚ :=
    [ a11, 0, 0, a12, 0, a13,
      0, a12, 0, a11, a13, 0,
      0, 0, a13, 0, a12, a11,
      a21, 0, 0, a22, 0, a23,
      0, a22, 0, a21, a23, 0,
      0, 0, a23, 0, a22, a21,
      a31, 0, 0, a32, 0, a33,
      0, a32, 0, a31, a33, 0,
      0, 0, a33, 0, a32, a31,
      a41, 0, 0, a42, 0, a43,
      0, a42, 0, a41, a43, 0,
      0, 0, a43, 0, a42, a41 ]
  (List.range 72).foldl (fun out i => Function.update out i (B.getD i 0)) out

/-! ## Packing the 12 x 12 matrix into 3 x 3 blocks (lines 266-543) -/

/-- The function `b3SetK(K, Ke)`: each of the sixteen references `kIJ = K[(I-1) + 4 * (J-1)]`
has its nine scalars assigned from `Ke`; the other slots of `K` are untouched. -/
def b3SetK (K : Nat → b3Mat33) (Ke : Nat → ℚ) : Nat → b3Mat33 :=
  let k11 : b3Mat33 :=
    { x := ⟨Ke (0 + 12 * 0), Ke (1 + 12 * 0), Ke (2 + 12 * 0)⟩,
      y := ⟨Ke (0 + 12 * 1), Ke (1 + 12 * 1), Ke (2 + 12 * 1)⟩,
      z := ⟨Ke (0 + 12 * 2), Ke (1 + 12 * 2), Ke (2 + 12 * 2)⟩ }
  let k12 : b3Mat33 :=
    { x := ⟨Ke (0 + 12 * 3), Ke (1 + 12 * 3), Ke (2 + 12 * 3)⟩,
      y := ⟨Ke (0 + 12 * 4), Ke (1 + 12 * 4), Ke (2 + 12 * 4)⟩,
      z := ⟨Ke (0 + 12 * 5), Ke (1 + 12 * 5), Ke (2 + 12 * 5)⟩ }
  let k13 : b3Mat33 :=
    { x := ⟨Ke (0 + 12 * 6), Ke (1 + 12 * 6), Ke (2 + 12 * 6)⟩,
      y := ⟨Ke (0 + 12 * 7), Ke (1 + 12 * 7), Ke (2 + 12 * 7)⟩,
      z := ⟨Ke (0 + 12 * 8), Ke (1 + 12 * 8), Ke (2 + 12 * 8)⟩ }
  let k14 : b3Mat33 :=
    { x := ⟨Ke (0 + 12 * 9), Ke (1 + 12 * 9), Ke (2 + 12 * 9)⟩,
      y := ⟨Ke (0 + 12 * 10), Ke (1 + 12 * 10), Ke (2 + 12 * 10)⟩,
      z := ⟨Ke (0 + 12 * 11), Ke (1 + 12 * 11), Ke (2 + 12 * 11)⟩ }
  let k21 : b3Mat33 :=
    { x := ⟨Ke (3 + 12 * 0), Ke (4 + 12 * 0), Ke (5 + 12 * 0)⟩,
      y := ⟨Ke (3 + 12 * 1), Ke (4 + 12 * 1), Ke (5 + 12 * 1)⟩,
      z := ⟨Ke (3 + 12 * 2), Ke (4 + 12 * 2), Ke (5 + 12 * 2)⟩ }
  let k22 : b3Mat33 :=
    { x := ⟨Ke (3 + 12 * 3), Ke (4 + 12 * 3), Ke (5 + 12 * 3)⟩,
      y := ⟨Ke (3 + 12 * 4), Ke (4 + 12 * 4), Ke (5 + 12 * 4)⟩,
      z := ⟨Ke (3 + 12 * 5), Ke (4 + 12 * 5), Ke (5 + 12 * 5)⟩ }
  let k23 : b3Mat33 :=
    { x := ⟨Ke (3 + 12 * 6), Ke (4 + 12 * 6), Ke (5 + 12 * 6)⟩,
      y := ⟨Ke (3 + 12 * 7), Ke (4 + 12 * 7), Ke (5 + 12 * 7)⟩,
      z := ⟨Ke (3 + 12 * 8), Ke (4 + 12 * 8), Ke (5 + 12 * 8)⟩ }
  let k24 : b3Mat33 :=
    { x := ⟨Ke (3 + 12 * 9), Ke (4 + 12 * 9), Ke (5 + 12 * 9)⟩,
      y := ⟨Ke (3 + 12 * 10), Ke (4 + 12 * 10), Ke (5 + 12 * 10)⟩,
      z := ⟨Ke (3 + 12 * 11), Ke (4 + 12 * 11), Ke (5 + 12 * 11)⟩ }
  let k31 : b3Mat33 :=
    { x := ⟨Ke (6 + 12 * 0), Ke (7 + 12 * 0), Ke (8 + 12 * 0)⟩,
      y := ⟨Ke (6 + 12 * 1), Ke (7 + 12 * 1), Ke (8 + 12 * 1)⟩,
      z := ⟨Ke (6 + 12 * 2), Ke (7 + 12 * 2), Ke (8 + 12 * 2)⟩ }
  let k32 : b3Mat33 :=
    { x := ⟨Ke (6 + 12 * 3), Ke (7 + 12 * 3), Ke (8 + 12 * 3)⟩,
      y := ⟨Ke (6 + 12 * 4), Ke (7 + 12 * 4), Ke (8 + 12 * 4)⟩,
      z := ⟨Ke (6 + 12 * 5), Ke (7 + 12 * 5), Ke (8 + 12 * 5)⟩ }
  let k33 : b3Mat33 :=
    { x := ⟨Ke (6 + 12 * 6), Ke (7 + 12 * 6), Ke (8 + 12 * 6)⟩,
      y := ⟨Ke (6 + 12 * 7), Ke (7 + 12 * 7), Ke (8 + 12 * 7)⟩,
      z := ⟨Ke (6 + 12 * 8), Ke (7 + 12 * 8), Ke (8 + 12 * 8)⟩ }
  let k34 : b3Mat33 :=
    { x := ⟨Ke (6 + 12 * 9), Ke (7 + 12 * 9), Ke (8 + 12 * 9)⟩,
      y := ⟨Ke (6 + 12 * 10), Ke (7 + 12 * 10), Ke (8 + 12 * 10)⟩,
      z := ⟨Ke (6 + 12 * 11), Ke (7 + 12 * 11), Ke (8 + 12 * 11)⟩ }
  let k41 : b3Mat33 :=
    { x := ⟨Ke (9 + 12 * 0), Ke (10 + 12 * 0), Ke (11 + 12 * 0)⟩,
      y := ⟨Ke (9 + 12 * 1), Ke (10 + 12 * 1), Ke (11 + 12 * 1)⟩,
      z := ⟨Ke (9 + 12 * 2), Ke (10 + 12 * 2), Ke (11 + 12 * 2)⟩ }
  let k42 : b3Mat33 :=
    { x := ⟨Ke (9 + 12 * 3), Ke (10 + 12 * 3), Ke (11 + 12 * 3)⟩,
      y := ⟨Ke (9 + 12 * 4), Ke (10 + 12 * 4), Ke (11 + 12 * 4)⟩,
      z := ⟨Ke (9 + 12 * 5), Ke (10 + 12 * 5), Ke (11 + 12 * 5)⟩ }
  let k43 : b3Mat33 :=
    { x := ⟨Ke (9 + 12 * 6), Ke (10 + 12 * 6), Ke (11 + 12 * 6)⟩,
      y := ⟨Ke (9 + 12 * 7), Ke (10 + 12 * 7), Ke (11 + 12 * 7)⟩,
      z := ⟨Ke (9 + 12 * 8), Ke (10 + 12 * 8), Ke (11 + 12 * 8)⟩ }
  let k44 : b3Mat33 :=
    { x := ⟨Ke (9 + 12 * 9), Ke (10 + 12 * 9), Ke (11 + 12 * 9)⟩,
      y := ⟨Ke (9 + 12 * 10), Ke (10 + 12 * 10), Ke (11 + 12 * 10)⟩,
      z := ⟨Ke (9 + 12 * 11), Ke (10 + 12 * 11), Ke (11 + 12 * 11)⟩ }
  fun n =>
    if n = 0 + 4 * 0 then k11 else
    if n = 0 + 4 * 1 then k12 else
    if n = 0 + 4 * 2 then k13 else
    if n = 0 + 4 * 3 then k14 else
    if n = 1 + 4 * 0 then k21 else
    if n = 1 + 4 * 1 then k22 else
    if n = 1 + 4 * 2 then k23 else
    if n = 1 + 4 * 3 then k24 else
    if n = 2 + 4 * 0 then k31 else
    if n = 2 + 4 * 1 then k32 else
    if n = 2 + 4 * 2 then k33 else
    if n = 2 + 4 * 3 then k34 else
    if n = 3 + 4 * 0 then k41 else
    if n = 3 + 4 * 1 then k42 else
    if n = 3 + 4 * 2 then k43 else
    if n = 3 + 4 * 3 then k44 else
    K n

/-! ## Mesh, nodes, elements, triangles -/

/-- Modelled from the spec: a tetrahedron of the mesh (`softbody_mesh.h`, not
among the sources) is four vertex indices `v1 .. v4`. -/
structure b3SoftBodyMeshTetrahedron where
  v1 : Nat
  v2 : Nat
  v3 : Nat
  v4 : Nat
  deriving DecidableEq

/-- Modelled from the spec: the mesh (`softbody_mesh.h`, not among the sources):
counts and the two read-only arrays. -/
structure b3SoftBodyMesh where
  vertexCount : Nat
  vertices : Nat → b3Vec3
  tetrahedronCount : Nat
  tetrahedrons : Nat → b3SoftBodyMeshTetrahedron

/-- Modelled from the spec: the node type tag (`softbody_node.h`, not among the
sources). -/
inductive b3SoftBodyNodeType where
  | e_staticSoftBodyNode
  | e_dynamicSoftBodyNode
  deriving DecidableEq

/-- Modelled from the spec: the node-against-shape contact record
(`softbody_node.h`, not among the sources), with the fields `UpdateContacts`
writes; the node `n1` and the shape `s2` are held as indices. -/
structure b3NodeBodyContact where
  n1 : Nat
  s2 : Nat
  normal1 : b3Vec3
  localPoint1 : b3Vec3
  localPoint2 : b3Vec3
  t1 : b3Vec3
  t2 : b3Vec3
  normalImpulse : ℚ
  tangentImpulse : b3Vec2
  active : Bool
  deriving DecidableEq

/-- Modelled from the spec: a node (`softbody_node.h`, not among the sources),
with the fields the constructor initialises.  The back pointer `m_body` is left
out; the pointer `m_userData` is `none` when null. -/
structure b3SoftBodyNode where
  m_type : b3SoftBodyNodeType
  m_position : b3Vec3
  m_velocity : b3Vec3
  m_force : b3Vec3
  m_mass : ℚ
  m_invMass : ℚ
  m_radius : ℚ
  m_friction : ℚ
  m_userData : Option Nat
  m_vertex : Nat
  m_bodyContact : b3NodeBodyContact
  deriving DecidableEq

/-- Modelled from the spec: an element (`softbody.h`, not among the sources)
holds `float32 invP[16]` and `b3Mat33 K[16]`. -/
structure b3SoftBodyElement where
  invP : Nat → ℚ
  K : Nat → b3Mat33

/-- Modelled from the spec: a triangle (`softbody.h`, not among the sources):
three node indices and the owning tetrahedron. -/
structure b3SoftBodyTriangle where
  v1 : Nat
  v2 : Nat
  v3 : Nat
  tetrahedron : Nat
  deriving DecidableEq

/-- Modelled from the spec: the construction parameters (`softbody.h`, not among
the sources); `mesh` is a pointer and may be null. -/
structure b3SoftBodyDef where
  mesh : Option b3SoftBodyMesh
  density : ℚ
  E : ℚ
  nu : ℚ

/-- The members of `b3SoftBody` the constructor sets.  `World` is the type of
the rigid-body world the body may be attached to. -/
structure b3SoftBody (World : Type) where
  m_mesh : b3SoftBodyMesh
  m_density : ℚ
  m_E : ℚ
  m_nu : ℚ
  m_gravity : b3Vec3
  m_world : Option World
  m_nodes : Nat → b3SoftBodyNode
  m_elements : Nat → b3SoftBodyElement
  m_triangles : Nat → b3SoftBodyTriangle

/-- The type of `b3Volume` (`geometry.h`, not among the sources): it is a
parameter of everything that calls it. -/
abbrev VolumeFn := b3Vec3 → b3Vec3 → b3Vec3 → b3Vec3 → ℚ

/-! ## Mass lumping (lines 755-799) -/

/-- The method `b3SoftBody::ComputeMass`, on the members it touches: the mesh, the density
and the node array. -/
def b3SoftBody.ComputeMass (b3Volume : VolumeFn) (m_density : ℚ) (m_mesh : b3SoftBodyMesh)
    (m_nodes : Nat → b3SoftBodyNode) : Option (Nat → b3SoftBodyNode) := do
  let m_nodes := (List.range m_mesh.vertexCount).foldl (fun m_nodes i =>
    Function.update m_nodes i { m_nodes i with m_mass := 0, m_invMass := 0 }) m_nodes
  let inv4 : ℚ := 1 / 4
  let rho := m_density
  let m_nodes ← (List.range m_mesh.tetrahedronCount).foldlM (fun m_nodes i => do
    let tetrahedron := m_mesh.tetrahedrons i
    let v1 := m_mesh.vertices tetrahedron.v1
    let v2 := m_mesh.vertices tetrahedron.v2
    let v3 := m_mesh.vertices tetrahedron.v3
    let v4 := m_mesh.vertices tetrahedron.v4
    let volume := b3Volume v1 v2 v3 v4
    B3_ASSERT (volume > 0)
    let mass := rho * volume
    let m_nodes := Function.update m_nodes tetrahedron.v1
      { m_nodes tetrahedron.v1 with m_mass := (m_nodes tetrahedron.v1).m_mass + inv4 * mass }
    let m_nodes := Function.update m_nodes tetrahedron.v2
      { m_nodes tetrahedron.v2 with m_mass := (m_nodes tetrahedron.v2).m_mass + inv4 * mass }
    let m_nodes := Function.update m_nodes tetrahedron.v3
      { m_nodes tetrahedron.v3 with m_mass := (m_nodes tetrahedron.v3).m_mass + inv4 * mass }
    let m_nodes := Function.update m_nodes tetrahedron.v4
      { m_nodes tetrahedron.v4 with m_mass := (m_nodes tetrahedron.v4).m_mass + inv4 * mass }
    pure m_nodes) m_nodes
  (List.range m_mesh.vertexCount).foldlM (fun m_nodes i => do
    B3_ASSERT ((m_nodes i).m_mass > 0)
    pure (Function.update m_nodes i { m_nodes i with m_invMass := 1 / (m_nodes i).m_mass }))
    m_nodes

/-! ## The constructor (lines 545-679) -/

/-- The local array `P` (lines 608-614): one row `[x, y, z, 1]` per rest
position. -/
def b3SoftBody.P (p1 p2 p3 p4 : b3Vec3) : Nat → ℚ := fun n =>
  ([ p1.x, p1.y, p1.z, 1,
     p2.x, p2.y, p2.z, 1,
     p3.x, p3.y, p3.z, 1,
     p4.x, p4.y, p4.z, 1 ] : List ℚ).getD n 0

/-- The local array `Ke` of the element loop once line 638 is done: lines
600-605 and 618-638, given the inverse just stored in `e->invP`. -/
def b3SoftBody.Ke (b3Volume : VolumeFn) (m_E m_nu : ℚ) (invP : Nat → ℚ)
    (p1 p2 p3 p4 : b3Vec3) : Option (Nat → ℚ) := do
  let (lambda, mu) := b3Lame m_E m_nu
  let E := b3CreateE uninit lambda mu
  let B := b3CreateB uninit invP
  let EB ← b3Mul uninit E 6 6 B 6 12
  let BT := b3Transpose uninit B 6 12
  let V := b3Volume p1 p2 p3 p4
  let Ke ← b3Mul uninit BT 12 6 EB 6 12
  let Ke := (List.range 144).foldl (fun Ke i => Function.update Ke i (Ke i * V)) Ke
  pure Ke

/-- The body of the element loop (lines 587-640) for the mesh tetrahedron `mt`
and the element slot `e`. -/
def b3SoftBody.initElement (b3Volume : VolumeFn) (m_E m_nu : ℚ) (m : b3SoftBodyMesh)
    (mt : b3SoftBodyMeshTetrahedron) (e : b3SoftBodyElement) : Option b3SoftBodyElement := do
  let v1 := mt.v1
  let v2 := mt.v2
  let v3 := mt.v3
  let v4 := mt.v4
  let p1 := m.vertices v1
  let p2 := m.vertices v2
  let p3 := m.vertices v3
  let p4 := m.vertices v4
  let P := b3SoftBody.P p1 p2 p3 p4
  let invP := b3Inverse4 e.invP P
  let Ke ← b3SoftBody.Ke b3Volume m_E m_nu invP p1 p2 p3 p4
  pure { invP := invP, K := b3SetK e.K Ke }

/-- The body of the element loop with the divisions of `b3Lame` checked.  When
`b3Lame` has divided by zero, `lambda` is not a number; the first three rows of
`E * B` then add products of it with the literal zeros of `B`, so no entry of
`Ke`, and no entry of the blocks `K`, is a number: the result is `none`. -/
def b3SoftBody.initElement.checked (b3Volume : VolumeFn) (m_E m_nu : ℚ) (m : b3SoftBodyMesh)
    (mt : b3SoftBodyMeshTetrahedron) (e : b3SoftBodyElement) : Option b3SoftBodyElement := do
  let _ ← b3Lame.checked m_E m_nu
  b3SoftBody.initElement b3Volume m_E m_nu m mt e

/-- The triangle loop (lines 645-678). -/
def b3SoftBody.initTriangles (m_mesh : b3SoftBodyMesh)
    (m_triangles : Nat → b3SoftBodyTriangle) : Nat → b3SoftBodyTriangle :=
  (List.range m_mesh.tetrahedronCount).foldl (fun m_triangles i =>
    let mt := m_mesh.tetrahedrons i
    let v1 := mt.v1
    let v2 := mt.v2
    let v3 := mt.v3
    let v4 := mt.v4
    let m_triangles := Function.update m_triangles (4 * i + 0)
      { v1 := v1, v2 := v2, v3 := v3, tetrahedron := i }
    let m_triangles := Function.update m_triangles (4 * i + 1)
      { v1 := v1, v2 := v3, v3 := v4, tetrahedron := i }
    let m_triangles := Function.update m_triangles (4 * i + 2)
      { v1 := v1, v2 := v4, v3 := v2, tetrahedron := i }
    let m_triangles := Function.update m_triangles (4 * i + 3)
      { v1 := v2, v2 := v4, v3 := v3, tetrahedron := i }
    m_triangles) m_triangles

/-- The node loop (lines 562-578): every field but the contact record is set;
of the contact record only `active`. -/
def b3SoftBody.initNodes (m : b3SoftBodyMesh) (m_nodes : Nat → b3SoftBodyNode) :
    Nat → b3SoftBodyNode :=
  (List.range m.vertexCount).foldl (fun m_nodes i =>
    let n := m_nodes i
    Function.update m_nodes i
      { m_type := b3SoftBodyNodeType.e_dynamicSoftBodyNode,
        m_position := m.vertices i,
        m_velocity := b3Vec3.zero,
        m_force := b3Vec3.zero,
        m_mass := 0,
        m_invMass := 0,
        m_radius := 0,
        m_friction := 0,
        m_userData := none,
        m_vertex := i,
        m_bodyContact := { n.m_bodyContact with active := false } }) m_nodes

set_option linter.dupNamespace false in
/-- The constructor `b3SoftBody::b3SoftBody(def)`.  The three `b3Alloc` results are the
arguments `nodeMem`, `elementMem` and `triangleMem`: the contents of the fresh
blocks. -/
def b3SoftBody.b3SoftBody (World : Type) (b3Volume : VolumeFn) (d : b3SoftBodyDef)
    (nodeMem : Nat → b3SoftBodyNode) (elementMem : Nat → b3SoftBodyElement)
    (triangleMem : Nat → b3SoftBodyTriangle) : Option (b3SoftBody World) := do
  B3_ASSERT (d.mesh.isSome)
  B3_ASSERT (d.density > 0)
  let m_mesh ← d.mesh
  let m_density := d.density
  let m_E := d.E
  let m_nu := d.nu
  let m_gravity := b3Vec3.zero
  let m_world : Option World := none
  let m := m_mesh
  let m_nodes := b3SoftBody.initNodes m nodeMem
  let m_nodes ← b3SoftBody.ComputeMass b3Volume m_density m_mesh m_nodes
  let m_elements ← (List.range m.tetrahedronCount).foldlM (fun m_elements ei => do
    let mt := m.tetrahedrons ei
    let e ← b3SoftBody.initElement b3Volume m_E m_nu m mt (m_elements ei)
    pure (Function.update m_elements ei e)) elementMem
  let m_triangles := b3SoftBody.initTriangles m_mesh triangleMem
  pure { m_mesh := m_mesh, m_density := m_density, m_E := m_E, m_nu := m_nu,
         m_gravity := m_gravity, m_world := m_world, m_nodes := m_nodes,
         m_elements := m_elements, m_triangles := m_triangles }

/-! ## Readings of a 16-entry array as a matrix -/

/-- The row-major reading of a 16-entry array as a 4 x 4 matrix. -/
def rowMajor4 (m : Nat → ℚ) : Matrix (Fin 4) (Fin 4) ℚ :=
  Matrix.of fun i j => m (4 * (i : Nat) + (j : Nat))

/-- The column-major reading of a 16-entry array as a 4 x 4 matrix. -/
def colMajor4 (m : Nat → ℚ) : Matrix (Fin 4) (Fin 4) ℚ :=
  Matrix.of fun i j => m ((i : Nat) + 4 * (j : Nat))

/-! ## Vectors of nodal values and a sample tetrahedron -/

/-- The 12-vector `(u1, u2, u3, u4)` of four nodal vectors, three scalars per
node. -/
def nodal12 (u1 u2 u3 u4 : b3Vec3) : Nat → ℚ := fun n =>
  ([ u1.x, u1.y, u1.z,
     u2.x, u2.y, u2.z,
     u3.x, u3.y, u3.z,
     u4.x, u4.y, u4.z ] : List ℚ).getD n 0

/-- The affine displacement field `u(x) = G x + t`. -/
def affineField (G : b3Mat33) (t p : b3Vec3) : b3Vec3 := (G.mulVec p).add t

/-- The engineering strain vector of the displacement gradient `G`:
`(G11, G22, G33, G12 + G21, G23 + G32, G13 + G31)`. -/
def engineeringStrain (G : b3Mat33) : Nat → ℚ := fun n =>
  ([ G.entry 0 0, G.entry 1 1, G.entry 2 2,
     G.entry 0 1 + G.entry 1 0,
     G.entry 1 2 + G.entry 2 1,
     G.entry 0 2 + G.entry 2 0 ] : List ℚ).getD n 0

/-- The signed volume `det (b - a, c - a, d - a) / 6`: a volume function to
instantiate the parameter `b3Volume` with. -/
def signedVolume : VolumeFn := fun a b c d =>
  ((b.x - a.x) * ((c.y - a.y) * (d.z - a.z) - (c.z - a.z) * (d.y - a.y))
    - (b.y - a.y) * ((c.x - a.x) * (d.z - a.z) - (c.z - a.z) * (d.x - a.x))
    + (b.z - a.z) * ((c.x - a.x) * (d.y - a.y) - (c.y - a.y) * (d.x - a.x))) / 6

/-- Sample rest positions: the corner tetrahedron of the unit cube, ordered so
that its signed volume is positive. -/
def sampleP1 : b3Vec3 := ⟨0, 0, 0⟩

/-- Second sample rest position. -/
def sampleP2 : b3Vec3 := ⟨1, 0, 0⟩

/-- Third sample rest position. -/
def sampleP3 : b3Vec3 := ⟨0, 1, 0⟩

/-- Fourth sample rest position. -/
def sampleP4 : b3Vec3 := ⟨0, 0, 1⟩

/-- The homogeneous matrix of the sample tetrahedron. -/
def sampleP : Nat → ℚ := b3SoftBody.P sampleP1 sampleP2 sampleP3 sampleP4

/-- A sample displacement gradient. -/
def sampleG : b3Mat33 := ⟨⟨1, 2, 3⟩, ⟨4, 5, 6⟩, ⟨7, 8, 9⟩⟩

/-- A sample translation. -/
def sampleT : b3Vec3 := ⟨1, -2, 3⟩

/-- The entry the isotropic elasticity matrix has in row `r` and column `c`. -/
def isotropicEntry (lambda mu : ℚ) (r c : Nat) : ℚ :=
  if r = c then (if r < 3 then lambda + 2 * mu else mu)
  else if r < 3 ∧ c < 3 then lambda else 0

/-! ## Vocabulary for the mass-lumping claims -/

/-- Slot `s` (0 .. 3 for `v1 .. v4`) of a tetrahedron. -/
def b3SoftBodyMeshTetrahedron.vertex (t : b3SoftBodyMeshTetrahedron) (s : Fin 4) : Nat :=
  match s with
  | 0 => t.v1
  | 1 => t.v2
  | 2 => t.v3
  | 3 => t.v4

/-- The value `b3Volume(v1, v2, v3, v4)` that `ComputeMass` and the element loop
compute for tetrahedron `i` of the mesh. -/
def b3SoftBodyMesh.tetVolume (b3Volume : VolumeFn) (m : b3SoftBodyMesh) (i : Nat) : ℚ :=
  b3Volume (m.vertices (m.tetrahedrons i).v1) (m.vertices (m.tetrahedrons i).v2)
    (m.vertices (m.tetrahedrons i).v3) (m.vertices (m.tetrahedrons i).v4)

/-- The homogeneous matrix `P` of tetrahedron `i` of the mesh. -/
def b3SoftBodyMesh.tetP (m : b3SoftBodyMesh) (i : Nat) : Nat → ℚ :=
  b3SoftBody.P (m.vertices (m.tetrahedrons i).v1) (m.vertices (m.tetrahedrons i).v2)
    (m.vertices (m.tetrahedrons i).v3) (m.vertices (m.tetrahedrons i).v4)

/-- Every vertex index of every tetrahedron is below `vertexCount`. -/
def b3SoftBodyMesh.ValidIndices (m : b3SoftBodyMesh) : Prop :=
  ∀ i, i < m.tetrahedronCount → ∀ s : Fin 4, (m.tetrahedrons i).vertex s < m.vertexCount

/-- The four stores `n1->m_mass += c; ..; n4->m_mass += c` of one pass of the
tetrahedron loop of `ComputeMass` (lines 781-789), in order. -/
def lumpTetrahedron (t : b3SoftBodyMeshTetrahedron) (c : ℚ) (m_nodes : Nat → b3SoftBodyNode) :
    Nat → b3SoftBodyNode :=
  let m_nodes := Function.update m_nodes t.v1
    { m_nodes t.v1 with m_mass := (m_nodes t.v1).m_mass + c }
  let m_nodes := Function.update m_nodes t.v2
    { m_nodes t.v2 with m_mass := (m_nodes t.v2).m_mass + c }
  let m_nodes := Function.update m_nodes t.v3
    { m_nodes t.v3 with m_mass := (m_nodes t.v3).m_mass + c }
  let m_nodes := Function.update m_nodes t.v4
    { m_nodes t.v4 with m_mass := (m_nodes t.v4).m_mass + c }
  m_nodes

/-- A sample mesh: five vertices, two positively oriented tetrahedra sharing the
face `1 2 3`, of volumes `1/6` and `1/3`. -/
def sampleMesh : b3SoftBodyMesh :=
  { vertexCount := 5,
    vertices := fun n =>
      ([sampleP1, sampleP2, sampleP3, sampleP4, ⟨1, 1, 1⟩] : List b3Vec3).getD n b3Vec3.zero,
    tetrahedronCount := 2,
    tetrahedrons := fun i =>
      ([⟨0, 1, 2, 3⟩, ⟨1, 2, 3, 4⟩] : List b3SoftBodyMeshTetrahedron).getD i ⟨0, 0, 0, 0⟩ }

/-- A sample mesh with one flat tetrahedron: its four vertices lie in the plane
`z = 0`. -/
def flatMesh : b3SoftBodyMesh :=
  { vertexCount := 4,
    vertices := fun n =>
      ([sampleP1, sampleP2, sampleP3, ⟨1, 1, 0⟩] : List b3Vec3).getD n b3Vec3.zero,
    tetrahedronCount := 1,
    tetrahedrons := fun _ => ⟨0, 1, 2, 3⟩ }

/-- Sample contents of a freshly allocated node. -/
def sampleNode : b3SoftBodyNode :=
  { m_type := b3SoftBodyNodeType.e_staticSoftBodyNode,
    m_position := ⟨7, 7, 7⟩, m_velocity := ⟨1, 0, 0⟩, m_force := ⟨0, 1, 0⟩,
    m_mass := -3, m_invMass := 5, m_radius := 2, m_friction := 1,
    m_userData := some 9, m_vertex := 42,
    m_bodyContact :=
      { n1 := 0, s2 := 0, normal1 := ⟨0, 0, 1⟩, localPoint1 := ⟨0, 0, 0⟩,
        localPoint2 := ⟨0, 0, 0⟩, t1 := ⟨1, 0, 0⟩, t2 := ⟨0, 1, 0⟩,
        normalImpulse := 1, tangentImpulse := ⟨0, 0⟩, active := true } }

/-- Sample contents of freshly allocated element memory. -/
def sampleElement : b3SoftBodyElement :=
  { invP := fun _ => 1, K := fun _ => ⟨⟨1, 1, 1⟩, ⟨1, 1, 1⟩, ⟨1, 1, 1⟩⟩ }

/-- Sample contents of freshly allocated triangle memory. -/
def sampleTriangle : b3SoftBodyTriangle := ⟨9, 9, 9, 9⟩

/-- Construction parameters for the sample mesh: density 12, `E = 10`,
`nu = 1/4`. -/
def sampleDef : b3SoftBodyDef := { mesh := some sampleMesh, density := 12, E := 10, nu := 1 / 4 }

/-- Construction parameters for the flat mesh. -/
def flatDef : b3SoftBodyDef := { mesh := some flatMesh, density := 12, E := 10, nu := 1 / 4 }

/-- The sample mesh with a sixth vertex that no tetrahedron names. -/
def looseMesh : b3SoftBodyMesh :=
  { vertexCount := 6,
    vertices := fun n =>
      ([sampleP1, sampleP2, sampleP3, sampleP4, ⟨1, 1, 1⟩, ⟨2, 2, 2⟩] : List b3Vec3).getD n
        b3Vec3.zero,
    tetrahedronCount := 2,
    tetrahedrons := fun i =>
      ([⟨0, 1, 2, 3⟩, ⟨1, 2, 3, 4⟩] : List b3SoftBodyMeshTetrahedron).getD i ⟨0, 0, 0, 0⟩ }

/-! ## Vector helpers used by the stepping code -/

/-- Modelled from the spec: the negation `-v` of a `b3Vec3` (`vec3.h` is not
among the sources). -/
def b3Vec3.neg (v : b3Vec3) : b3Vec3 := ⟨-v.x, -v.y, -v.z⟩

/-- Modelled from the spec: the difference of two vectors (`operator-` of
`vec3.h`, not among the sources), componentwise. -/
def b3Vec3.sub (a b : b3Vec3) : b3Vec3 := ⟨a.x - b.x, a.y - b.y, a.z - b.z⟩

/-- Modelled from the spec: a scalar times a vector (`operator*` of `vec3.h`,
not among the sources), componentwise. -/
def b3Vec3.smul (s : ℚ) (v : b3Vec3) : b3Vec3 := ⟨s * v.x, s * v.y, s * v.z⟩

/-- Modelled from the spec: the dot product `b3Dot` (`vec3.h` is not among the
sources). -/
def b3Dot (a b : b3Vec3) : ℚ := a.x * b.x + a.y * b.y + a.z * b.z

/-- Modelled from the spec: the cross product `b3Cross` (`vec3.h` is not among
the sources). -/
def b3Cross (a b : b3Vec3) : b3Vec3 :=
  ⟨a.y * b.z - a.z * b.y, a.z * b.x - a.x * b.z, a.x * b.y - a.y * b.x⟩

/-! ## The rigid-body world as the soft body reads it -/

/-- Modelled from the spec: a rigid transform (`transform.h` is not among the
sources); the soft body only passes it on to `TestSphere`. -/
structure b3Transform where
  rotation : b3Mat33
  position : b3Vec3
  deriving DecidableEq

/-- Modelled from the spec: the proxy sphere of a node (`sphere.h` is not among
the sources). -/
structure b3Sphere where
  vertex : b3Vec3
  radius : ℚ
  deriving DecidableEq

/-- Modelled from the spec: what `TestSphere` writes when it reports an overlap
(`shape.h` is not among the sources). -/
structure b3TestSphereOutput where
  separation : ℚ
  point : b3Vec3
  normal : b3Vec3
  deriving DecidableEq

/-- Modelled from the spec: a rigid body as `UpdateContacts` reads it
(`body.h` is not among the sources): its identity, its transform and its
intrusive list of shapes, each shape held by its identity. -/
structure b3Body where
  handle : Nat
  m_xf : b3Transform
  m_shapeList : List Nat

/-- Modelled from the spec: the world (`world.h` is not among the sources) is
its intrusive list of bodies, head first. -/
structure b3World where
  m_bodyList : List b3Body

/-- The collaborators `UpdateContacts` calls and whose code is not among the
sources: `b3Shape::TestSphere` (`none` when it returns false),
`b3Shape::GetBody`, `b3Body::GetLocalPoint` and `b3Perp`. -/
structure b3WorldOps where
  TestSphere : Nat → b3Sphere → b3Transform → Option b3TestSphereOutput
  GetBody : Nat → Nat
  GetLocalPoint : Nat → b3Vec3 → b3Vec3
  b3Perp : b3Vec3 → b3Vec3

/-- The four locals `bestShape`, `bestSeparation`, `bestPoint`, `bestNormal` of
`UpdateContacts` (lines 821-824); `bestShape` is `none` for `nullptr`. -/
structure b3BestPenetration where
  bestShape : Option Nat
  bestSeparation : ℚ
  bestPoint : b3Vec3
  bestNormal : b3Vec3

/-! ## Contact refresh (lines 801-888) -/

/-- The search for the deepest penetration of node `n` (lines 816-853).  The
test on `body->GetType()` has an empty body in the source and is left out. -/
def b3SoftBody.findDeepest (ops : b3WorldOps) (m_world : b3World) (n : b3SoftBodyNode) :
    b3BestPenetration :=
  let s1 : b3Sphere := { vertex := n.m_position, radius := n.m_radius }
  m_world.m_bodyList.foldl (fun best body =>
    if n.m_type ≠ b3SoftBodyNodeType.e_dynamicSoftBodyNode then best
    else
      let xf := body.m_xf
      body.m_shapeList.foldl (fun best shape =>
        match ops.TestSphere shape s1 xf with
        | some output =>
          if output.separation < best.bestSeparation then
            { bestShape := some shape, bestSeparation := output.separation,
              bestPoint := output.point, bestNormal := output.normal }
          else best
        | none => best) best)
    { bestShape := none, bestSeparation := 0, bestPoint := ⟨0, 0, 0⟩, bestNormal := ⟨0, 0, 0⟩ }

/-- One pass of the node loop of `UpdateContacts` (lines 814-886) for node `n`
at index `i`: only the contact record of the node is written. -/
def b3SoftBody.updateNodeContact (ops : b3WorldOps) (m_world : b3World) (i : Nat)
    (n : b3SoftBodyNode) : b3SoftBodyNode :=
  let best := b3SoftBody.findDeepest ops m_world n
  match best.bestShape with
  | none => { n with m_bodyContact := { n.m_bodyContact with active := false } }
  | some shape =>
    let body := ops.GetBody shape
    let point := best.bestPoint
    let normal := best.bestNormal.neg
    let c0 := n.m_bodyContact
    let t1 := ops.b3Perp normal
    let c : b3NodeBodyContact :=
      { active := true,
        n1 := i,
        s2 := shape,
        normal1 := normal,
        localPoint1 := b3Vec3.zero,
        localPoint2 := ops.GetLocalPoint body point,
        t1 := t1,
        t2 := b3Cross t1 normal,
        normalImpulse := 0,
        tangentImpulse := b3Vec2.zero }
    let c := if c0.active = true then
        { c with normalImpulse := c0.normalImpulse, tangentImpulse := c0.tangentImpulse }
      else c
    { n with m_bodyContact := c }

/-- The method `b3SoftBody::UpdateContacts`: nothing without a world, else one
pass per node. -/
def b3SoftBody.UpdateContacts (ops : b3WorldOps) (self : Bounce.b3SoftBody b3World) :
    Bounce.b3SoftBody b3World :=
  match self.m_world with
  | none => self
  | some m_world =>
    { self with
      m_nodes := (List.range self.m_mesh.vertexCount).foldl (fun m_nodes i =>
        Function.update m_nodes i
          (b3SoftBody.updateNodeContact ops m_world i (m_nodes i))) self.m_nodes }

/-! ## Solve and Step (lines 890-923) -/

/-- One invocation of the companion solver (`softbody_solver.h` is not among
the sources): the members of `b3SoftBodySolverDef` that `Solve` fills in, but
for the scratch allocator, and the arguments of `solver.Solve`. -/
structure b3SoftBodySolverCall where
  mesh : b3SoftBodyMesh
  nodes : Nat → b3SoftBodyNode
  elements : Nat → b3SoftBodyElement
  dt : ℚ
  gravity : b3Vec3
  velocityIterations : Nat
  positionIterations : Nat

/-- The companion solver as a collaborator: from one invocation to what it
leaves in the node array and the element array it was handed. -/
abbrev SolverFn := b3SoftBodySolverCall → (Nat → b3SoftBodyNode) × (Nat → b3SoftBodyElement)

/-- The method `b3SoftBody::Solve`: returns the body after the solver ran and
the record of the invocation. -/
def b3SoftBody.Solve (solver : SolverFn) (self : Bounce.b3SoftBody b3World) (dt : ℚ)
    (gravity : b3Vec3) (velocityIterations positionIterations : Nat) :
    Bounce.b3SoftBody b3World × b3SoftBodySolverCall :=
  let call : b3SoftBodySolverCall :=
    { mesh := self.m_mesh, nodes := self.m_nodes, elements := self.m_elements,
      dt := dt, gravity := gravity,
      velocityIterations := velocityIterations, positionIterations := positionIterations }
  let written := solver call
  ({ self with m_nodes := written.1, m_elements := written.2 }, call)

/-- The method `b3SoftBody::Step`: returns the body after the step and the
solver invocations made during it, in order. -/
def b3SoftBody.Step (ops : b3WorldOps) (solver : SolverFn) (self : Bounce.b3SoftBody b3World)
    (dt : ℚ) (velocityIterations positionIterations : Nat) :
    Bounce.b3SoftBody b3World × List b3SoftBodySolverCall :=
  let self := b3SoftBody.UpdateContacts ops self
  let solved : Bounce.b3SoftBody b3World × List b3SoftBodySolverCall :=
    if dt > 0 then
      let r := b3SoftBody.Solve solver self dt self.m_gravity velocityIterations
        positionIterations
      (r.1, [r.2])
    else (self, [])
  let self := solved.1
  let self := { self with
    m_nodes := (List.range self.m_mesh.vertexCount).foldl (fun m_nodes i =>
      Function.update m_nodes i { m_nodes i with m_force := b3Vec3.zero }) self.m_nodes }
  (self, solved.2)

/-! ## Ray cast (lines 688-735) -/

/-- Modelled from the spec: the input of `b3RayCast` (`collision.h` is not
among the sources). -/
structure b3RayCastInput where
  p1 : b3Vec3
  p2 : b3Vec3
  maxFraction : ℚ
  deriving DecidableEq

/-- Modelled from the spec: the output of `b3RayCast` (`collision.h` is not
among the sources). -/
structure b3RayCastOutput where
  fraction : ℚ
  normal : b3Vec3
  deriving DecidableEq

/-- Modelled from the spec: the record `RayCastSingle` fills in (`softbody.h`
is not among the sources). -/
structure b3SoftBodyRayCastSingleOutput where
  tetrahedron : Nat
  v1 : Nat
  v2 : Nat
  v3 : Nat
  fraction : ℚ
  normal : b3Vec3
  deriving DecidableEq

/-- The triangle ray cast `b3RayCast(&out, &input, v1, v2, v3)` as a
collaborator; `none` when it returns false. -/
abbrev RayCastFn := b3RayCastInput → b3Vec3 → b3Vec3 → b3Vec3 → Option b3RayCastOutput

/-- The `u32` value `~0`. -/
def u32Max : Nat := 4294967295

/-- The locals `triangle`, `tetrahedron` and `output0` of `RayCastSingle`. -/
structure b3RayCastScan where
  triangle : Nat
  tetrahedron : Nat
  output0 : b3RayCastOutput

/-- The loop of `RayCastSingle` (lines 701-720) over the first `count`
triangles. -/
def b3SoftBody.rayCastScan (b3RayCast : RayCastFn) (self : Bounce.b3SoftBody b3World)
    (input : b3RayCastInput) (count : Nat) (start : b3RayCastScan) : b3RayCastScan :=
  (List.range count).foldl (fun st i =>
    let t := self.m_triangles i
    let v1 := (self.m_nodes t.v1).m_position
    let v2 := (self.m_nodes t.v2).m_position
    let v3 := (self.m_nodes t.v3).m_position
    match b3RayCast input v1 v2 v3 with
    | some subOutput =>
      if subOutput.fraction < st.output0.fraction then
        { triangle := i, tetrahedron := t.tetrahedron,
          output0 := { fraction := subOutput.fraction, normal := subOutput.normal } }
      else st
    | none => st) start

/-- The method `b3SoftBody::RayCastSingle(output, p1, p2)`: the returned flag
and the contents of `*output` afterwards.  The constant `B3_MAX_FLOAT` is not
among the sources and is a parameter; the loop bound `4 * tetrahedronCount` is
computed in `u32`; the normal of the local `output0` starts as zero. -/
def b3SoftBody.RayCastSingle (b3RayCast : RayCastFn) (B3_MAX_FLOAT : ℚ)
    (self : Bounce.b3SoftBody b3World) (output : b3SoftBodyRayCastSingleOutput) (p1 p2 : b3Vec3) :
    Bool × b3SoftBodyRayCastSingleOutput :=
  let input : b3RayCastInput := { p1 := p1, p2 := p2, maxFraction := 1 }
  let start : b3RayCastScan :=
    { triangle := u32Max, tetrahedron := u32Max,
      output0 := { fraction := B3_MAX_FLOAT, normal := ⟨0, 0, 0⟩ } }
  let st := b3SoftBody.rayCastScan b3RayCast self input
    ((4 * self.m_mesh.tetrahedronCount) % 4294967296) start
  if st.tetrahedron ≠ u32Max then
    (true,
      { tetrahedron := st.tetrahedron,
        v1 := (self.m_triangles st.triangle).v1,
        v2 := (self.m_triangles st.triangle).v2,
        v3 := (self.m_triangles st.triangle).v3,
        fraction := st.output0.fraction,
        normal := st.output0.normal })
  else (false, output)

/-! ## Kinetic energy (lines 743-753) -/

/-- The method `b3SoftBody::GetEnergy`. -/
def b3SoftBody.GetEnergy (self : Bounce.b3SoftBody b3World) : ℚ :=
  let E := (List.range self.m_mesh.vertexCount).foldl (fun E i =>
    let n := self.m_nodes i
    E + n.m_mass * b3Dot n.m_velocity n.m_velocity) 0
  1 / 2 * E

/-! ## The mass-spring cloth (`spring_cloth.h`) -/

/-- The enumeration `b3MassType` (lines 101-105). -/
inductive b3MassType where
  | e_staticMass
  | e_dynamicMass
  deriving DecidableEq

/-- The structure `b3MassContact` (lines 108-114). -/
structure b3MassContact where
  n : b3Vec3
  t1 : b3Vec3
  t2 : b3Vec3
  Fn : ℚ
  Ft1 : ℚ
  Ft2 : ℚ
  j : Nat
  lockOnSurface : Bool
  slideOnSurface : Bool
  deriving DecidableEq

/-- The per-mass members of `b3SpringCloth` (lines 194-205) and its gravity and
radius: the state the inline accessors read and write. -/
structure b3SpringCloth where
  m_r : ℚ
  m_gravity : b3Vec3
  m_x : Nat → b3Vec3
  m_v : Nat → b3Vec3
  m_f : Nat → b3Vec3
  m_m : Nat → ℚ
  m_inv_m : Nat → ℚ
  m_y : Nat → b3Vec3
  m_types : Nat → b3MassType
  m_massCount : Nat
  m_contacts : Nat → b3MassContact

/-- The method `b3SpringCloth::SetType(i, type)` (lines 238-257). -/
def b3SpringCloth.SetType (self : b3SpringCloth) (i : Nat) (type : b3MassType) :
    Option b3SpringCloth := do
  B3_ASSERT (i < self.m_massCount)
  if self.m_types i = type then
    pure self
  else
    let self := { self with m_types := Function.update self.m_types i type }
    let self := { self with m_f := Function.update self.m_f i b3Vec3.zero }
    if type = b3MassType.e_staticMass then
      let self := { self with m_v := Function.update self.m_v i b3Vec3.zero }
      let self := { self with m_y := Function.update self.m_y i b3Vec3.zero }
      let self := { self with
        m_contacts := Function.update self.m_contacts i
          { self.m_contacts i with lockOnSurface := false } }
      pure self
    else
      pure self

/-- The method `b3SpringCloth::SetPosition(i, position)` (lines 259-263). -/
def b3SpringCloth.SetPosition (self : b3SpringCloth) (i : Nat) (position : b3Vec3) :
    Option b3SpringCloth := do
  B3_ASSERT (i < self.m_massCount)
  pure { self with
    m_y := Function.update self.m_y i ((self.m_y i).add (position.sub (self.m_x i))) }

/-- The method `b3SpringCloth::GetPosition(i)` (lines 265-269). -/
def b3SpringCloth.GetPosition (self : b3SpringCloth) (i : Nat) : Option b3Vec3 := do
  B3_ASSERT (i < self.m_massCount)
  pure (self.m_x i)

/-- The method `b3SpringCloth::GetKineticEnergy` (lines 283-292). -/
def b3SpringCloth.GetKineticEnergy (self : b3SpringCloth) : ℚ :=
  (List.range self.m_massCount).foldl (fun E i =>
    let P := b3Vec3.smul (self.m_m i) (self.m_v i)
    E + b3Dot P (self.m_v i)) 0

/-! ## Vocabulary for the stepping claims -/

/-- The shapes of the world in the order `UpdateContacts` visits them, each
with the transform of the body it is reached through. -/
def b3World.candidates (w : b3World) : List (Nat × b3Transform) :=
  w.m_bodyList.flatMap fun body => body.m_shapeList.map fun shape => (shape, body.m_xf)

/-- What `TestSphere` reports for a visited shape against the proxy sphere of
node `n`. -/
def b3WorldOps.test (ops : b3WorldOps) (n : b3SoftBodyNode) (c : Nat × b3Transform) :
    Option b3TestSphereOutput :=
  ops.TestSphere c.1 { vertex := n.m_position, radius := n.m_radius } c.2

/-- Some visited shape overlaps the proxy sphere of node `n` with negative
separation. -/
def b3World.Penetrates (ops : b3WorldOps) (w : b3World) (n : b3SoftBodyNode) : Prop :=
  ∃ c, c ∈ w.candidates ∧ ∃ out, ops.test n c = some out ∧ out.separation < 0

/-- What `b3RayCast` reports for triangle `k` of the body at the current node
positions, for the segment `p1 p2`. -/
def b3SoftBody.triangleHit (b3RayCast : RayCastFn) (self : Bounce.b3SoftBody b3World)
    (p1 p2 : b3Vec3) (k : Nat) : Option b3RayCastOutput :=
  b3RayCast { p1 := p1, p2 := p2, maxFraction := 1 }
    (self.m_nodes (self.m_triangles k).v1).m_position
    (self.m_nodes (self.m_triangles k).v2).m_position
    (self.m_nodes (self.m_triangles k).v3).m_position

/-- The slot of the tetrahedron that corner `j` of its `k`-th triangle takes:
the rows are `(v1, v2, v3)`, `(v1, v3, v4)`, `(v1, v4, v2)`, `(v2, v4, v3)`. -/
def triangleSlot (k : Fin 4) (j : Fin 3) : Fin 4 :=
  match k, j with
  | 0, 0 => 0 | 0, 1 => 1 | 0, 2 => 2
  | 1, 0 => 0 | 1, 1 => 2 | 1, 2 => 3
  | 2, 0 => 0 | 2, 1 => 3 | 2, 2 => 1
  | 3, 0 => 1 | 3, 1 => 3 | 3, 2 => 2

/-- Corner `j` (0, 1, 2 for `v1`, `v2`, `v3`) of a triangle. -/
def b3SoftBodyTriangle.corner (t : b3SoftBodyTriangle) (j : Fin 3) : Nat :=
  match j with
  | 0 => t.v1
  | 1 => t.v2
  | 2 => t.v3

/-- The body of the shape loop of `UpdateContacts` (lines 841-851) as a function
of the locals, the shape and what `TestSphere` reported for it. -/
def b3BestPenetration.keep (best : b3BestPenetration) (shape : Nat)
    (r : Option b3TestSphereOutput) : b3BestPenetration :=
  match r with
  | some output =>
    if output.separation < best.bestSeparation then
      { bestShape := some shape, bestSeparation := output.separation,
        bestPoint := output.point, bestNormal := output.normal }
    else best
  | none => best

/-- The locals of the search before the first body is visited (lines
821-824). -/
def b3BestPenetration.start : b3BestPenetration :=
  { bestShape := none, bestSeparation := 0, bestPoint := ⟨0, 0, 0⟩, bestNormal := ⟨0, 0, 0⟩ }

/-- The body of the loop of `RayCastSingle` (lines 703-719) as a function of the
locals, the index, the triangle and what `b3RayCast` reported for it. -/
def b3RayCastScan.keep (st : b3RayCastScan) (i : Nat) (t : b3SoftBodyTriangle)
    (r : Option b3RayCastOutput) : b3RayCastScan :=
  match r with
  | some subOutput =>
    if subOutput.fraction < st.output0.fraction then
      { triangle := i, tetrahedron := t.tetrahedron,
        output0 := { fraction := subOutput.fraction, normal := subOutput.normal } }
    else st
  | none => st

/-! ## Sample data for the stepping claims -/

/-- The identity transform. -/
def sampleXf : b3Transform := ⟨⟨⟨1, 0, 0⟩, ⟨0, 1, 0⟩, ⟨0, 0, 1⟩⟩, ⟨0, 0, 0⟩⟩

/-- A sample world: body 0 with shapes 10 and 11, body 1 with shape 12. -/
def sampleWorld : b3World :=
  { m_bodyList := [⟨0, sampleXf, [10, 11]⟩, ⟨1, sampleXf, [12]⟩] }

/-- Sample collaborators: shape 10 reports separation `-1`, shapes 11 and 12
report `-2`, shape 13 reports `1`, every other shape reports no overlap;
shapes 10 and 11 belong to body 0 and the others to body 1; body 1 is shifted
by one along `x`. -/
def sampleOps : b3WorldOps :=
  { TestSphere := fun shape s _ =>
      if shape = 10 then some ⟨-1, s.vertex, ⟨0, 1, 0⟩⟩
      else if shape = 11 then some ⟨-2, ⟨5, 6, 7⟩, ⟨0, 0, 1⟩⟩
      else if shape = 12 then some ⟨-2, ⟨8, 8, 8⟩, ⟨1, 0, 0⟩⟩
      else if shape = 13 then some ⟨1, ⟨9, 9, 9⟩, ⟨1, 0, 0⟩⟩
      else none,
    GetBody := fun shape => if shape = 10 ∨ shape = 11 then 0 else 1,
    GetLocalPoint := fun body p => if body = 0 then p else ⟨p.x - 1, p.y, p.z⟩,
    b3Perp := fun v => ⟨v.y, -v.x, 0⟩ }

/-- A contact record that is active and carries impulses. -/
def sampleContact : b3NodeBodyContact :=
  { n1 := 0, s2 := 10, normal1 := ⟨0, 1, 0⟩, localPoint1 := ⟨0, 0, 0⟩,
    localPoint2 := ⟨1, 1, 1⟩, t1 := ⟨1, 0, 0⟩, t2 := ⟨0, 0, 1⟩,
    normalImpulse := 3, tangentImpulse := ⟨1, 2⟩, active := true }

/-- A dynamic node at rest with unit mass and an active contact. -/
def restingNode : b3SoftBodyNode :=
  { m_type := b3SoftBodyNodeType.e_dynamicSoftBodyNode,
    m_position := ⟨0, 0, 0⟩, m_velocity := ⟨0, 0, 0⟩, m_force := ⟨0, -10, 0⟩,
    m_mass := 1, m_invMass := 1, m_radius := 1 / 10, m_friction := 1 / 2,
    m_userData := none, m_vertex := 0, m_bodyContact := sampleContact }

/-- A static node of unit mass whose velocity is not zero. -/
def movingStaticNode : b3SoftBodyNode :=
  { restingNode with
    m_type := b3SoftBodyNodeType.e_staticSoftBodyNode, m_velocity := ⟨1, 0, 0⟩ }

/-- A sample body on the sample mesh, attached to the sample world: node `i`
sits at mesh vertex `i`; node 1 is static and moving, the others are dynamic and
at rest; its triangles are those the constructor derives. -/
def sampleBody : Bounce.b3SoftBody b3World :=
  { m_mesh := sampleMesh, m_density := 12, m_E := 10, m_nu := 1 / 4,
    m_gravity := ⟨0, -10, 0⟩, m_world := some sampleWorld,
    m_nodes := fun i =>
      if i = 1 then { movingStaticNode with m_position := sampleMesh.vertices i, m_vertex := i }
      else { restingNode with m_position := sampleMesh.vertices i, m_vertex := i },
    m_elements := fun _ => sampleElement,
    m_triangles := b3SoftBody.initTriangles sampleMesh (fun _ => sampleTriangle) }

/-- A sample solver: it moves every node up by `dt` and leaves a force behind. -/
def sampleSolver : SolverFn := fun call =>
  (fun i => { call.nodes i with
      m_position := ⟨(call.nodes i).m_position.x, (call.nodes i).m_position.y + call.dt,
        (call.nodes i).m_position.z⟩,
      m_force := ⟨1, 1, 1⟩ },
    call.elements)

/-- A sample triangle ray cast: it hits exactly the triangles whose first corner
sits at `sampleP2`, at fraction `1/4` when the second corner sits at
`sampleP4` and `1/2` otherwise, and reports the third corner as normal. -/
def sampleRayCast : RayCastFn := fun _ v1 v2 v3 =>
  if v1 = sampleP2 then some ⟨if v2 = sampleP4 then 1 / 4 else 1 / 2, v3⟩ else none

/-- A sample output record, as the caller might have left it. -/
def sampleRayOutput : b3SoftBodyRayCastSingleOutput := ⟨77, 1, 2, 3, 9, ⟨0, 0, 1⟩⟩

/-- A sample cloth of two masses: mass 0 is dynamic with mass 2 and moving, mass
1 is static. -/
def sampleCloth : b3SpringCloth :=
  { m_r := 1 / 20, m_gravity := ⟨0, -10, 0⟩,
    m_x := fun _ => ⟨0, 0, 0⟩,
    m_v := fun i => if i = 0 then ⟨1, 2, 3⟩ else ⟨0, 0, 0⟩,
    m_f := fun _ => ⟨0, -20, 0⟩,
    m_m := fun _ => 2,
    m_inv_m := fun _ => 1 / 2,
    m_y := fun _ => ⟨0, 0, 0⟩,
    m_types := fun i => if i = 0 then b3MassType.e_dynamicMass else b3MassType.e_staticMass,
    m_massCount := 2,
    m_contacts := fun _ => ⟨⟨0, 1, 0⟩, ⟨1, 0, 0⟩, ⟨0, 0, 1⟩, 0, 0, 0, 0, true, false⟩ }

/-! ## Vocabulary and sample data for the stiffness, surface and cloth claims -/

/-- The zero 3 x 3 matrix. -/
def b3Mat33.zero : b3Mat33 := ⟨b3Vec3.zero, b3Vec3.zero, b3Vec3.zero⟩

/-- Sum of two 3 x 3 matrices, column by column. -/
def b3Mat33.add (A B : b3Mat33) : b3Mat33 := ⟨A.x.add B.x, A.y.add B.y, A.z.add B.z⟩

/-- The quadratic form `uᵀ Ke u` of a 12 x 12 array and a 12-vector. -/
def quadraticForm12 (Ke u : Nat → ℚ) : ℚ :=
  ∑ a in Finset.range 12, ∑ b in Finset.range 12, u a * Ke (a + 12 * b) * u b

/-- The triangle runs from `a` to `b` along one of its three sides, taken in
the cyclic order `v1, v2, v3, v1`. -/
def b3SoftBodyTriangle.HasEdge (t : b3SoftBodyTriangle) (a b : Nat) : Prop :=
  ∃ j : Fin 3, t.corner j = a ∧ t.corner (j + 1) = b

/-- Both `a` and `b` are corners of the triangle. -/
def b3SoftBodyTriangle.HasCorners (t : b3SoftBodyTriangle) (a b : Nat) : Prop :=
  (∃ j : Fin 3, t.corner j = a) ∧ ∃ j : Fin 3, t.corner j = b

/-- A cloth with two masses away from the origin, the first with a pending
translation. -/
def shiftedCloth : b3SpringCloth :=
  { sampleCloth with
    m_x := fun i => if i = 0 then ⟨1, 2, 3⟩ else ⟨4, 5, 6⟩,
    m_y := fun i => if i = 0 then ⟨1, 0, 0⟩ else ⟨0, 0, 0⟩ }

/-- A soft body state with the masses and velocities of a cloth. -/
def clothBody (c : b3SpringCloth) : Bounce.b3SoftBody b3World :=
  { sampleBody with
    m_mesh := { sampleMesh with vertexCount := c.m_massCount },
    m_nodes := fun i => { restingNode with m_mass := c.m_m i, m_velocity := c.m_v i } }

/-- A body on the sample mesh whose static node 1 is at rest and whose dynamic
node 0 moves; the other nodes are dynamic and at rest. -/
def restBody : Bounce.b3SoftBody b3World :=
  { sampleBody with
    m_nodes := fun i =>
      if i = 1 then { restingNode with m_type := b3SoftBodyNodeType.e_staticSoftBodyNode }
      else if i = 0 then { restingNode with m_velocity := ⟨1, 0, 0⟩ }
      else restingNode }

/-! ## Loop lemmas -/

/-- A loop storing `s j` at slot `g j` leaves a slot no `g j` hits unchanged. -/
theorem foldl_store_other {β : Type} (g : Nat → Nat) (s : Nat → β) (n : Nat) (C : Nat → β)
    (x : Nat) (hx : ∀ j, j < n → g j ≠ x) :
    (List.range n).foldl (fun C j => Function.update C (g j) (s j)) C x = C x := by
  induction n with
  | zero => simp
  | succ n ih =>
    rw [List.range_succ, List.foldl_append]
    simp only [List.foldl_cons, List.foldl_nil]
    rw [Function.update_noteq (hx n (Nat.lt_succ_self n)).symm]
    exact ih (fun j hj => hx j (Nat.lt_succ_of_lt hj))

/-- A loop storing `s j` at slot `g j`, with `g` injective on the range, leaves
`s j` in slot `g j`. -/
theorem foldl_store_same {β : Type} (g : Nat → Nat) (s : Nat → β) (n : Nat) (C : Nat → β)
    (hg : ∀ j k, j < n → k < n → g j = g k → j = k) (j : Nat) (hj : j < n) :
    (List.range n).foldl (fun C j => Function.update C (g j) (s j)) C (g j) = s j := by
  induction n with
  | zero => omega
  | succ n ih =>
    rw [List.range_succ, List.foldl_append]
    simp only [List.foldl_cons, List.foldl_nil]
    by_cases hjn : j = n
    · subst hjn
      rw [Function.update_same]
    · have hlt : j < n := by omega
      have hne : g j ≠ g n := fun h => hjn (hg j n hj (Nat.lt_succ_self n) h)
      rw [Function.update_noteq hne]
      exact ih (fun a b ha hb => hg a b (Nat.lt_succ_of_lt ha) (Nat.lt_succ_of_lt hb)) hlt

/-- The copy loop `out[i] = v[i]` for `i < n`. -/
theorem foldl_copy {β : Type} (s : Nat → β) (n : Nat) (C : Nat → β) (x : Nat) :
    (List.range n).foldl (fun C i => Function.update C i (s i)) C x =
      if x < n then s x else C x := by
  split
  · next h => exact foldl_store_same (fun i => i) s n C (fun _ _ _ _ h => h) x h
  · next h => exact foldl_store_other (fun i => i) s n C x (fun j hj (hjx : j = x) => by omega)

/-- Two nested loops storing `s i j` at slot `g i j`, with `g` injective on the
rectangle, leave `s i j` in slot `g i j`. -/
theorem foldl_store_nested {β : Type} (g : Nat → Nat → Nat) (s : Nat → Nat → β) (m n : Nat)
    (C : Nat → β)
    (hg : ∀ i j i2 j2, i < m → j < n → i2 < m → j2 < n → g i j = g i2 j2 → i = i2 ∧ j = j2)
    (i j : Nat) (hi : i < m) (hj : j < n) :
    (List.range m).foldl (fun C i =>
      (List.range n).foldl (fun C j => Function.update C (g i j) (s i j)) C) C (g i j)
      = s i j := by
  induction m with
  | zero => omega
  | succ m ih =>
    rw [List.range_succ, List.foldl_append]
    simp only [List.foldl_cons, List.foldl_nil]
    by_cases him : i = m
    · subst him
      exact foldl_store_same (g i) (s i) n _
        (fun a b ha hb h => (hg i a i b hi ha hi hb h).2) j hj
    · have hlt : i < m := by omega
      rw [foldl_store_other (g m) (s m) n _ (g i j)
        (fun k hk h => him (hg m k i j (Nat.lt_succ_self m) hk hi hj h).1.symm)]
      exact ih (fun a b a2 b2 ha hb ha2 hb2 h =>
        hg a b a2 b2 (Nat.lt_succ_of_lt ha) hb (Nat.lt_succ_of_lt ha2) hb2 h) hlt

/-- The accumulation loop `C[x] += a k` for `k < n` adds the sum of the `a k`
to slot `x`. -/
theorem foldl_accumulate (a : Nat → ℚ) (n : Nat) (C : Nat → ℚ) (x : Nat) :
    (List.range n).foldl (fun C k => Function.update C x (C x + a k)) C
      = Function.update C x (C x + ∑ k in Finset.range n, a k) := by
  induction n with
  | zero => simp
  | succ n ih =>
    rw [List.range_succ, List.foldl_append, ih]
    simp only [List.foldl_cons, List.foldl_nil, Function.update_same, Function.update_idem]
    rw [Finset.sum_range_succ, add_assoc]

/-- Column-major indexing is injective on a rectangle. -/
theorem colMajor_inj (M : Nat) (i j i2 j2 : Nat) (hi : i < M) (hi2 : i2 < M)
    (h : i + M * j = i2 + M * j2) : i = i2 ∧ j = j2 := by
  have h1 : (i + M * j) % M = (i2 + M * j2) % M := by rw [h]
  rw [Nat.add_mul_mod_self_left, Nat.add_mul_mod_self_left, Nat.mod_eq_of_lt hi,
    Nat.mod_eq_of_lt hi2] at h1
  subst h1
  have hM : 0 < M := by omega
  have h2 : M * j = M * j2 := by omega
  exact ⟨rfl, Nat.eq_of_mul_eq_mul_left hM h2⟩

/-- The value `b3Mul` leaves in `C[i + AM * j]`: the dot product of row `i` of
`A` and column `j` of `B`, whatever `C` held before. -/
theorem b3Mul_entry (C A : Nat → ℚ) (AM AN : Nat) (B : Nat → ℚ) (BM BN : Nat) (h : AN = BM) :
    ∃ C2, b3Mul C A AM AN B BM BN = some C2 ∧
      ∀ i j, i < AM → j < BN →
        C2 (i + AM * j) = ∑ k in Finset.range AN, A (i + AM * k) * B (k + BM * j) := by
  subst h
  simp only [b3Mul, B3_ASSERT, if_true, Option.bind_eq_bind, Option.some_bind, Option.pure_def,
    bind_pure_comp, Option.map_eq_map, Option.map_some']
  refine ⟨_, rfl, ?_⟩
  · intro i j hi hj
    simp only [foldl_accumulate, Function.update_same, Function.update_idem, zero_add]
    exact foldl_store_nested (fun i j => i + AM * j)
      (fun i j => ∑ k in Finset.range AN, A (i + AM * k) * B (k + AN * j)) AM BN C
      (fun a b a2 b2 ha _ ha2 _ hab => colMajor_inj AM a b a2 b2 ha ha2 hab) i j hi hj

/-- The value `b3Transpose` leaves in `B[j + AN * i]`. -/
theorem b3Transpose_entry (B A : Nat → ℚ) (AM AN : Nat) (i j : Nat) (hi : i < AM)
    (hj : j < AN) : b3Transpose B A AM AN (j + AN * i) = A (i + AM * j) := by
  exact foldl_store_nested (fun i j => j + AN * i) (fun i j => A (i + AM * j)) AM AN B
    (fun a b a2 b2 _ hb _ hb2 hab => (colMajor_inj AN b a b2 a2 hb hb2 hab).symm) i j hi hj


/-- A loop rewriting slot `i` from its own old value, for `i < n`. -/
theorem foldl_modify {β : Type} (f : Nat → β → β) (n : Nat) (C : Nat → β) (x : Nat) :
    (List.range n).foldl (fun C i => Function.update C i (f i (C i))) C x =
      if x < n then f x (C x) else C x := by
  induction n with
  | zero => simp
  | succ n ih =>
    rw [List.range_succ, List.foldl_append]
    simp only [List.foldl_cons, List.foldl_nil]
    by_cases hx : x = n
    · subst hx
      rw [Function.update_same, ih]
      simp
    · rw [Function.update_noteq hx, ih]
      have h1 : x < n + 1 ↔ x < n := by omega
      simp only [h1]

/-- The element loop's `Ke` as two products and the scaling loop. -/
theorem Ke_unfold (b3Volume : VolumeFn) (m_E m_nu : ℚ) (invP : Nat → ℚ) (p1 p2 p3 p4 : b3Vec3) :
    b3SoftBody.Ke b3Volume m_E m_nu invP p1 p2 p3 p4 =
      (b3Mul uninit (b3CreateE uninit (b3Lame m_E m_nu).1 (b3Lame m_E m_nu).2) 6 6
        (b3CreateB uninit invP) 6 12).bind fun EB =>
      (b3Mul uninit (b3Transpose uninit (b3CreateB uninit invP) 6 12) 12 6 EB 6 12).bind fun Ke =>
      some ((List.range 144).foldl
        (fun Ke i => Function.update Ke i (Ke i * b3Volume p1 p2 p3 p4)) Ke) := rfl

/-- The local `Ke` of the element loop, entry by entry, for any contents of
`invP`: `V` times the `(a, b)` entry of `Bᵀ E B`. -/
theorem Ke_entry (b3Volume : VolumeFn) (m_E m_nu : ℚ) (invP : Nat → ℚ) (p1 p2 p3 p4 : b3Vec3) :
    ∃ Ke, b3SoftBody.Ke b3Volume m_E m_nu invP p1 p2 p3 p4 = some Ke ∧
      ∀ a b, a < 12 → b < 12 →
        Ke (a + 12 * b) = b3Volume p1 p2 p3 p4 *
          ∑ k in Finset.range 6, ∑ l in Finset.range 6,
            b3CreateB uninit invP (k + 6 * a)
              * b3CreateE uninit (b3Lame m_E m_nu).1 (b3Lame m_E m_nu).2 (k + 6 * l)
              * b3CreateB uninit invP (l + 6 * b) := by
  obtain ⟨EB, hEB, hEBv⟩ := b3Mul_entry uninit
    (b3CreateE uninit (b3Lame m_E m_nu).1 (b3Lame m_E m_nu).2) 6 6 (b3CreateB uninit invP) 6 12 rfl
  obtain ⟨Ke0, hKe0, hKe0v⟩ := b3Mul_entry uninit
    (b3Transpose uninit (b3CreateB uninit invP) 6 12) 12 6 EB 6 12 rfl
  refine ⟨(List.range 144).foldl
    (fun Ke i => Function.update Ke i (Ke i * b3Volume p1 p2 p3 p4)) Ke0, ?_, ?_⟩
  · rw [Ke_unfold, hEB, Option.some_bind, hKe0, Option.some_bind]
  · intro a b ha hb
    have hab : a + 12 * b < 144 := by omega
    rw [foldl_modify (fun _ v => v * b3Volume p1 p2 p3 p4) 144 Ke0 (a + 12 * b), if_pos hab,
      hKe0v a b ha hb, mul_comm]
    congr 1
    refine Finset.sum_congr rfl (fun k hk => ?_)
    have hk6 : k < 6 := Finset.mem_range.mp hk
    rw [b3Transpose_entry uninit (b3CreateB uninit invP) 6 12 k a hk6 ha, hEBv k b hk6 hb,
      Finset.mul_sum]
    exact Finset.sum_congr rfl (fun l _ => (mul_assoc _ _ _).symm)

/-! ## The 4 x 4 inverse -/

/-- The determinant of a 4 x 4 matrix, expanded along its first row. -/
theorem det_fin_four (A : Matrix (Fin 4) (Fin 4) ℚ) :
    A.det =
      A 0 0 * (A 1 1 * A 2 2 * A 3 3 - A 1 1 * A 2 3 * A 3 2 - A 1 2 * A 2 1 * A 3 3
        + A 1 2 * A 2 3 * A 3 1 + A 1 3 * A 2 1 * A 3 2 - A 1 3 * A 2 2 * A 3 1)
      - A 0 1 * (A 1 0 * A 2 2 * A 3 3 - A 1 0 * A 2 3 * A 3 2 - A 1 2 * A 2 0 * A 3 3
        + A 1 2 * A 2 3 * A 3 0 + A 1 3 * A 2 0 * A 3 2 - A 1 3 * A 2 2 * A 3 0)
      + A 0 2 * (A 1 0 * A 2 1 * A 3 3 - A 1 0 * A 2 3 * A 3 1 - A 1 1 * A 2 0 * A 3 3
        + A 1 1 * A 2 3 * A 3 0 + A 1 3 * A 2 0 * A 3 1 - A 1 3 * A 2 1 * A 3 0)
      - A 0 3 * (A 1 0 * A 2 1 * A 3 2 - A 1 0 * A 2 2 * A 3 1 - A 1 1 * A 2 0 * A 3 2
        + A 1 1 * A 2 2 * A 3 0 + A 1 2 * A 2 0 * A 3 1 - A 1 2 * A 2 1 * A 3 0) := by
  have s00 : (0 : Fin 4).succAbove (0 : Fin 3) = 1 := by decide
  have s01 : (0 : Fin 4).succAbove (1 : Fin 3) = 2 := by decide
  have s02 : (0 : Fin 4).succAbove (2 : Fin 3) = 3 := by decide
  have s10 : (1 : Fin 4).succAbove (0 : Fin 3) = 0 := by decide
  have s11 : (1 : Fin 4).succAbove (1 : Fin 3) = 2 := by decide
  have s12 : (1 : Fin 4).succAbove (2 : Fin 3) = 3 := by decide
  have s20 : (2 : Fin 4).succAbove (0 : Fin 3) = 0 := by decide
  have s21 : (2 : Fin 4).succAbove (1 : Fin 3) = 1 := by decide
  have s22 : (2 : Fin 4).succAbove (2 : Fin 3) = 3 := by decide
  have s30 : (3 : Fin 4).succAbove (0 : Fin 3) = 0 := by decide
  have s31 : (3 : Fin 4).succAbove (1 : Fin 3) = 1 := by decide
  have s32 : (3 : Fin 4).succAbove (2 : Fin 3) = 2 := by decide
  have e1 : Fin.succ (0 : Fin 3) = (1 : Fin 4) := rfl
  have e2 : Fin.succ (1 : Fin 3) = (2 : Fin 4) := rfl
  have e3 : Fin.succ (2 : Fin 3) = (3 : Fin 4) := rfl
  have v0 : ((0 : Fin 4) : ℕ) = 0 := rfl
  have v1 : ((1 : Fin 4) : ℕ) = 1 := rfl
  have v2 : ((2 : Fin 4) : ℕ) = 2 := rfl
  have v3 : ((3 : Fin 4) : ℕ) = 3 := rfl
  rw [Matrix.det_succ_row_zero]
  simp only [Fin.sum_univ_four, Matrix.det_fin_three, Matrix.submatrix_apply,
    e1, e2, e3, s00, s01, s02, s10, s11, s12, s20, s21, s22, s30, s31, s32, v0, v1, v2, v3]
  norm_num
  ring

theorem rowMajor4_det (m : Nat → ℚ) : (rowMajor4 m).det = b3Inverse4.det m := by
  have v0 : ((0 : Fin 4) : ℕ) = 0 := rfl
  have v1 : ((1 : Fin 4) : ℕ) = 1 := rfl
  have v2 : ((2 : Fin 4) : ℕ) = 2 := rfl
  have v3 : ((3 : Fin 4) : ℕ) = 3 := rfl
  rw [det_fin_four]
  simp only [rowMajor4, Matrix.of_apply, b3Inverse4.det, b3Inverse4.inv, v0, v1, v2, v3]
  norm_num
  ring

/-- Row `i` of the cofactor array against column `j` of the matrix: `det` on
the diagonal, zero off it. -/
theorem inv_dot (m : Nat → ℚ) (i j : Nat) (hi : i < 4) (hj : j < 4) :
    b3Inverse4.inv m (4 * i + 0) * m (4 * 0 + j) + b3Inverse4.inv m (4 * i + 1) * m (4 * 1 + j)
      + b3Inverse4.inv m (4 * i + 2) * m (4 * 2 + j) + b3Inverse4.inv m (4 * i + 3) * m (4 * 3 + j)
      = if i = j then b3Inverse4.det m else 0 := by
  interval_cases i <;> interval_cases j <;>
    simp only [b3Inverse4.inv, b3Inverse4.det, Nat.reduceMul, Nat.reduceAdd, Nat.reduceEqDiff,
      if_true, if_false] <;> ring

/-- The cofactor array of `b3Inverse4` times the matrix is `det` times the
identity (row-major reading). -/
theorem inv_mul_rowMajor4 (m : Nat → ℚ) :
    rowMajor4 (b3Inverse4.inv m) * rowMajor4 m = b3Inverse4.det m • (1 : Matrix (Fin 4) (Fin 4) ℚ) := by
  have v0 : ((0 : Fin 4) : ℕ) = 0 := rfl
  have v1 : ((1 : Fin 4) : ℕ) = 1 := rfl
  have v2 : ((2 : Fin 4) : ℕ) = 2 := rfl
  have v3 : ((3 : Fin 4) : ℕ) = 3 := rfl
  ext i j
  rw [Matrix.mul_apply, Fin.sum_univ_four]
  simp only [rowMajor4, Matrix.of_apply, v0, v1, v2, v3, Matrix.smul_apply, Matrix.one_apply,
    smul_eq_mul, Fin.ext_iff]
  rw [inv_dot m i j i.2 j.2]
  split <;> simp

/-- The output of `b3Inverse4`, slot by slot. -/
theorem b3Inverse4_entry (out m : Nat → ℚ) (x : Nat) :
    b3Inverse4 out m x =
      if x < 16 then (if b3Inverse4.det m ≠ 0 then 1 / b3Inverse4.det m else b3Inverse4.det m)
        * b3Inverse4.inv m x else out x := by
  unfold b3Inverse4
  exact foldl_copy _ 16 out x

/-- In the row-major reading the output is the cofactor array scaled. -/
theorem rowMajor4_b3Inverse4 (out m : Nat → ℚ) :
    rowMajor4 (b3Inverse4 out m) =
      (if b3Inverse4.det m ≠ 0 then 1 / b3Inverse4.det m else b3Inverse4.det m)
        • rowMajor4 (b3Inverse4.inv m) := by
  ext i j
  have h : 4 * (i : Nat) + (j : Nat) < 16 := by omega
  simp only [rowMajor4, Matrix.of_apply, Matrix.smul_apply, smul_eq_mul, b3Inverse4_entry, if_pos h]

/-- The column-major reading is the transpose of the row-major one. -/
theorem colMajor4_eq_transpose (m : Nat → ℚ) : colMajor4 m = (rowMajor4 m).transpose := by
  ext i j
  simp only [colMajor4, rowMajor4, Matrix.of_apply, Matrix.transpose_apply]
  congr 1
  omega

/-- For a regular matrix the output of `b3Inverse4` is a left inverse
(row-major reading). -/
theorem b3Inverse4_mul_rowMajor4 (out m : Nat → ℚ) (h : b3Inverse4.det m ≠ 0) :
    rowMajor4 (b3Inverse4 out m) * rowMajor4 m = 1 := by
  rw [rowMajor4_b3Inverse4, if_pos h, Matrix.smul_mul, inv_mul_rowMajor4, smul_smul,
    one_div, inv_mul_cancel₀ h, one_smul]

/-- The determinant the code computes for the sample tetrahedron. -/
theorem sampleP_det : b3Inverse4.det sampleP = -1 := by
  norm_num [b3Inverse4.det, b3Inverse4.inv, sampleP, b3SoftBody.P, sampleP1, sampleP2, sampleP3, sampleP4]

/-- C3. For a 4 x 4 matrix `m` with non-zero determinant, the `det` computed
inside `b3Inverse4` is the determinant of `m` (under the row-major and under the
column-major reading of the array), and the output is a two-sided inverse of
`m` under either reading. -/
theorem b3Inverse4_inverse (out m : Nat → ℚ) (h : (rowMajor4 m).det ≠ 0) :
    b3Inverse4.det m = (rowMajor4 m).det ∧
    b3Inverse4.det m = (colMajor4 m).det ∧
    rowMajor4 (b3Inverse4 out m) * rowMajor4 m = 1 ∧
    rowMajor4 m * rowMajor4 (b3Inverse4 out m) = 1 ∧
    colMajor4 (b3Inverse4 out m) * colMajor4 m = 1 ∧
    colMajor4 m * colMajor4 (b3Inverse4 out m) = 1 := by
  have hd : b3Inverse4.det m ≠ 0 := by rw [← rowMajor4_det]; exact h
  have hl := b3Inverse4_mul_rowMajor4 out m hd
  have hr : rowMajor4 m * rowMajor4 (b3Inverse4 out m) = 1 := Matrix.mul_eq_one_comm.mp hl
  refine ⟨(rowMajor4_det m).symm, ?_, hl, hr, ?_, ?_⟩
  · rw [colMajor4_eq_transpose, Matrix.det_transpose, rowMajor4_det]
  · rw [colMajor4_eq_transpose, colMajor4_eq_transpose, ← Matrix.transpose_mul, hr,
      Matrix.transpose_one]
  · rw [colMajor4_eq_transpose, colMajor4_eq_transpose, ← Matrix.transpose_mul, hl,
      Matrix.transpose_one]

/-- C3 at the sample tetrahedron's matrix, whose determinant is `-1`. -/
theorem b3Inverse4_inverse_witness :
    (rowMajor4 sampleP).det ≠ 0 ∧
    b3Inverse4.det sampleP = (rowMajor4 sampleP).det ∧
    b3Inverse4.det sampleP = (colMajor4 sampleP).det ∧
    rowMajor4 (b3Inverse4 uninit sampleP) * rowMajor4 sampleP = 1 ∧
    rowMajor4 sampleP * rowMajor4 (b3Inverse4 uninit sampleP) = 1 ∧
    colMajor4 (b3Inverse4 uninit sampleP) * colMajor4 sampleP = 1 ∧
    colMajor4 sampleP * colMajor4 (b3Inverse4 uninit sampleP) = 1 :=
  have h : (rowMajor4 sampleP).det ≠ 0 := by
    rw [rowMajor4_det, sampleP_det]; norm_num
  ⟨h, b3Inverse4_inverse uninit sampleP h⟩

/-! ## The material and strain-displacement matrices -/

/-- The output of `b3CreateE`, slot by slot. -/
theorem b3CreateE_entry (out : Nat → ℚ) (lambda mu : ℚ) (x : Nat) :
    b3CreateE out lambda mu x =
      if x < 36 then
        ([ lambda + 2 * mu, lambda,          lambda,          0,  0,  0,
           lambda,          lambda + 2 * mu, lambda,          0,  0,  0,
           lambda,          lambda,          lambda + 2 * mu, 0,  0,  0,
           0,               0,               0,               mu, 0,  0,
           0,               0,               0,               0,  mu, 0,
           0,               0,               0,               0,  0,  mu ] : List ℚ).getD x 0
      else out x := by
  unfold b3CreateE
  exact foldl_copy _ 36 out x

/-- The output of `b3CreateB`, slot by slot. -/
theorem b3CreateB_entry (out invP : Nat → ℚ) (x : Nat) :
    b3CreateB out invP x =
      if x < 72 then
        ([ invP 0, 0, 0, invP 4, 0, invP 8,
           0, invP 4, 0, invP 0, invP 8, 0,
           0, 0, invP 8, 0, invP 4, invP 0,
           invP 1, 0, 0, invP 5, 0, invP 9,
           0, invP 5, 0, invP 1, invP 9, 0,
           0, 0, invP 9, 0, invP 5, invP 1,
           invP 2, 0, 0, invP 6, 0, invP 10,
           0, invP 6, 0, invP 2, invP 10, 0,
           0, 0, invP 10, 0, invP 6, invP 2,
           invP 3, 0, 0, invP 7, 0, invP 11,
           0, invP 7, 0, invP 3, invP 11, 0,
           0, 0, invP 11, 0, invP 7, invP 3 ] : List ℚ).getD x 0
      else out x := by
  unfold b3CreateB
  exact foldl_copy _ 72 out x

/-- The product `invP * P = 1` of the element loop, entry by entry: row `r` of
the stored inverse against column `c` of `P`. -/
theorem invP_dot (out : Nat → ℚ) (p1 p2 p3 p4 : b3Vec3)
    (h : b3Inverse4.det (b3SoftBody.P p1 p2 p3 p4) ≠ 0) (r c : Nat) (hr : r < 4) (hc : c < 4) :
    b3Inverse4 out (b3SoftBody.P p1 p2 p3 p4) (4 * r + 0) * b3SoftBody.P p1 p2 p3 p4 (4 * 0 + c)
    + b3Inverse4 out (b3SoftBody.P p1 p2 p3 p4) (4 * r + 1) * b3SoftBody.P p1 p2 p3 p4 (4 * 1 + c)
    + b3Inverse4 out (b3SoftBody.P p1 p2 p3 p4) (4 * r + 2) * b3SoftBody.P p1 p2 p3 p4 (4 * 2 + c)
    + b3Inverse4 out (b3SoftBody.P p1 p2 p3 p4) (4 * r + 3) * b3SoftBody.P p1 p2 p3 p4 (4 * 3 + c)
    = if r = c then 1 else 0 := by
  have hm := b3Inverse4_mul_rowMajor4 out (b3SoftBody.P p1 p2 p3 p4) h
  have he := congrFun (congrFun hm ⟨r, hr⟩) ⟨c, hc⟩
  rw [Matrix.mul_apply, Fin.sum_univ_four, Matrix.one_apply] at he
  simpa [rowMajor4, Fin.ext_iff] using he

/-- C4. For a tetrahedron with `det P ≠ 0` and an affine displacement field
`u(x) = G x + t` sampled at the four rest positions, the matrix `B` that
`b3CreateB` builds from `invP = b3Inverse4(P)` maps the 12-vector
`(u1, u2, u3, u4)` to the engineering strain
`(G11, G22, G33, G12 + G21, G23 + G32, G13 + G31)`. -/
theorem b3CreateB_strain (out outB : Nat → ℚ) (p1 p2 p3 p4 : b3Vec3) (G : b3Mat33) (t : b3Vec3)
    (h : (rowMajor4 (b3SoftBody.P p1 p2 p3 p4)).det ≠ 0) (k : Fin 6) :
    ∑ a in Finset.range 12,
      b3CreateB outB (b3Inverse4 out (b3SoftBody.P p1 p2 p3 p4)) (k + 6 * a)
        * nodal12 (affineField G t p1) (affineField G t p2) (affineField G t p3)
            (affineField G t p4) a
      = engineeringStrain G k := by
  have hd : b3Inverse4.det (b3SoftBody.P p1 p2 p3 p4) ≠ 0 := by rw [← rowMajor4_det]; exact h
  have h00 := invP_dot out p1 p2 p3 p4 hd 0 0 (by norm_num) (by norm_num)
  have h01 := invP_dot out p1 p2 p3 p4 hd 0 1 (by norm_num) (by norm_num)
  have h02 := invP_dot out p1 p2 p3 p4 hd 0 2 (by norm_num) (by norm_num)
  have h03 := invP_dot out p1 p2 p3 p4 hd 0 3 (by norm_num) (by norm_num)
  have h10 := invP_dot out p1 p2 p3 p4 hd 1 0 (by norm_num) (by norm_num)
  have h11 := invP_dot out p1 p2 p3 p4 hd 1 1 (by norm_num) (by norm_num)
  have h12 := invP_dot out p1 p2 p3 p4 hd 1 2 (by norm_num) (by norm_num)
  have h13 := invP_dot out p1 p2 p3 p4 hd 1 3 (by norm_num) (by norm_num)
  have h20 := invP_dot out p1 p2 p3 p4 hd 2 0 (by norm_num) (by norm_num)
  have h21 := invP_dot out p1 p2 p3 p4 hd 2 1 (by norm_num) (by norm_num)
  have h22 := invP_dot out p1 p2 p3 p4 hd 2 2 (by norm_num) (by norm_num)
  have h23 := invP_dot out p1 p2 p3 p4 hd 2 3 (by norm_num) (by norm_num)
  generalize b3Inverse4 out (b3SoftBody.P p1 p2 p3 p4) = I at *
  simp [b3SoftBody.P] at h00 h01 h02 h03 h10 h11 h12 h13 h20 h21 h22 h23
  fin_cases k <;>
    simp [Finset.sum_range_succ, b3CreateB_entry, nodal12, affineField, b3Mat33.mulVec,
      b3Vec3.add, engineeringStrain, b3Mat33.entry, b3Mat33.col, b3Vec3.comp]
  · linear_combination G.x.x * h00 + G.y.x * h01 + G.z.x * h02 + t.x * h03
  · linear_combination G.x.y * h10 + G.y.y * h11 + G.z.y * h12 + t.y * h13
  · linear_combination G.x.z * h20 + G.y.z * h21 + G.z.z * h22 + t.z * h23
  · linear_combination G.x.x * h10 + G.y.x * h11 + G.z.x * h12 + t.x * h13
      + G.x.y * h00 + G.y.y * h01 + G.z.y * h02 + t.y * h03
  · linear_combination G.x.y * h20 + G.y.y * h21 + G.z.y * h22 + t.y * h23
      + G.x.z * h10 + G.y.z * h11 + G.z.z * h12 + t.z * h13
  · linear_combination G.x.x * h20 + G.y.x * h21 + G.z.x * h22 + t.x * h23
      + G.x.z * h00 + G.y.z * h01 + G.z.z * h02 + t.z * h03

/-- C4 at the sample tetrahedron, for the sample gradient and translation and
the shear row `k = 3`: the strain is `G12 + G21 = 4 + 2`. -/
theorem b3CreateB_strain_witness :
    (rowMajor4 (b3SoftBody.P sampleP1 sampleP2 sampleP3 sampleP4)).det ≠ 0 ∧
    ∑ a in Finset.range 12,
      b3CreateB uninit (b3Inverse4 uninit (b3SoftBody.P sampleP1 sampleP2 sampleP3 sampleP4))
          (3 + 6 * a)
        * nodal12 (affineField sampleG sampleT sampleP1) (affineField sampleG sampleT sampleP2)
            (affineField sampleG sampleT sampleP3) (affineField sampleG sampleT sampleP4) a
      = engineeringStrain sampleG 3 ∧
    engineeringStrain sampleG 3 = 6 :=
  have h : (rowMajor4 (b3SoftBody.P sampleP1 sampleP2 sampleP3 sampleP4)).det ≠ 0 := by
    rw [rowMajor4_det]
    have := sampleP_det
    unfold sampleP at this
    rw [this]
    norm_num
  ⟨h, b3CreateB_strain uninit uninit sampleP1 sampleP2 sampleP3 sampleP4 sampleG sampleT h 3,
    by norm_num [engineeringStrain, sampleG, b3Mat33.entry, b3Mat33.col, b3Vec3.comp]⟩

/-- C5. For `nu ≠ -1` and `nu ≠ 1/2` the outputs of `b3Lame` are
`lambda = nu E / ((1 + nu)(1 - 2 nu))` and `mu = E / (2 (1 + nu))` with non-zero
denominators, and `b3CreateE` applied to them is the isotropic matrix:
`lambda + 2 mu` on the first three diagonal entries, `lambda` off the diagonal
among the first three, `mu` on the last three diagonal entries, zero elsewhere
(in the column-major and in the row-major reading alike). -/
theorem b3CreateE_isotropic (out : Nat → ℚ) (E nu : ℚ) (h1 : nu ≠ -1) (h2 : nu ≠ 1 / 2)
    (r c : Fin 6) :
    (b3Lame E nu).1 = nu * E / ((1 + nu) * (1 - 2 * nu)) ∧
    (b3Lame E nu).2 = E / (2 * (1 + nu)) ∧
    (b3Lame E nu).1 * ((1 + nu) * (1 - 2 * nu)) = nu * E ∧
    (b3Lame E nu).2 * (2 * (1 + nu)) = E ∧
    b3CreateE out (b3Lame E nu).1 (b3Lame E nu).2 (r + 6 * c)
      = isotropicEntry (b3Lame E nu).1 (b3Lame E nu).2 r c ∧
    b3CreateE out (b3Lame E nu).1 (b3Lame E nu).2 (6 * r + c)
      = isotropicEntry (b3Lame E nu).1 (b3Lame E nu).2 r c := by
  have ha : 1 + nu ≠ 0 := fun h => h1 (by linarith)
  have hb : 1 - 2 * nu ≠ 0 := fun h => h2 (by linarith)
  refine ⟨rfl, rfl, ?_, ?_, ?_, ?_⟩
  · simp only [b3Lame]
    field_simp
  · simp only [b3Lame]
    field_simp
  · generalize (b3Lame E nu).1 = lambda
    generalize (b3Lame E nu).2 = mu
    fin_cases r <;> fin_cases c <;> simp [b3CreateE_entry, isotropicEntry]
  · generalize (b3Lame E nu).1 = lambda
    generalize (b3Lame E nu).2 = mu
    fin_cases r <;> fin_cases c <;> simp [b3CreateE_entry, isotropicEntry]

/-- C5 at `E = 10`, `nu = 1/4`: `lambda = 4`, `mu = 4`, and the `(0, 1)` entry
is `lambda`. -/
theorem b3CreateE_isotropic_witness :
    ((1 / 4 : ℚ) ≠ -1 ∧ (1 / 4 : ℚ) ≠ 1 / 2) ∧
    ((b3Lame 10 (1 / 4)).1 = 1 / 4 * 10 / ((1 + 1 / 4) * (1 - 2 * (1 / 4))) ∧
    (b3Lame 10 (1 / 4)).2 = 10 / (2 * (1 + 1 / 4)) ∧
    (b3Lame 10 (1 / 4)).1 * ((1 + 1 / 4) * (1 - 2 * (1 / 4))) = 1 / 4 * 10 ∧
    (b3Lame 10 (1 / 4)).2 * (2 * (1 + 1 / 4)) = 10 ∧
    b3CreateE uninit (b3Lame 10 (1 / 4)).1 (b3Lame 10 (1 / 4)).2 (0 + 6 * 1)
      = isotropicEntry (b3Lame 10 (1 / 4)).1 (b3Lame 10 (1 / 4)).2 0 1 ∧
    b3CreateE uninit (b3Lame 10 (1 / 4)).1 (b3Lame 10 (1 / 4)).2 (6 * 0 + 1)
      = isotropicEntry (b3Lame 10 (1 / 4)).1 (b3Lame 10 (1 / 4)).2 0 1) ∧
    isotropicEntry (b3Lame 10 (1 / 4)).1 (b3Lame 10 (1 / 4)).2 0 1 = 4 :=
  ⟨⟨by norm_num, by norm_num⟩,
    b3CreateE_isotropic uninit 10 (1 / 4) (by norm_num) (by norm_num) 0 1,
    by norm_num [isotropicEntry, b3Lame]⟩

/-! ## Block packing -/

/-- The blocks `b3SetK` stores, entry by entry. -/
theorem b3SetK_entry (K : Nat → b3Mat33) (Ke : Nat → ℚ) (i j : Fin 4) (r c : Fin 3) :
    (b3SetK K Ke (i + 4 * j)).entry r c = Ke ((3 * i + r) + 12 * (3 * j + c)) := by
  fin_cases i <;> fin_cases j <;> fin_cases r <;> fin_cases c <;> rfl

/-- Two matrices with the same nine entries are equal. -/
theorem b3Mat33_ext_entry (A B : b3Mat33) (h : ∀ r c : Fin 3, A.entry r c = B.entry r c) :
    A = B := by
  obtain ⟨⟨a1, a2, a3⟩, ⟨a4, a5, a6⟩, ⟨a7, a8, a9⟩⟩ := A
  obtain ⟨⟨b1, b2, b3⟩, ⟨b4, b5, b6⟩, ⟨b7, b8, b9⟩⟩ := B
  have h00 := h 0 0
  have h10 := h 1 0
  have h20 := h 2 0
  have h01 := h 0 1
  have h11 := h 1 1
  have h21 := h 2 1
  have h02 := h 0 2
  have h12 := h 1 2
  have h22 := h 2 2
  simp only [b3Mat33.entry, b3Mat33.col, b3Vec3.comp] at h00 h10 h20 h01 h11 h21 h02 h12 h22
  subst h00 h10 h20 h01 h11 h21 h02 h12 h22
  rfl

/-- Transposing swaps the row and column of an entry. -/
theorem b3Mat33_transpose_entry (A : b3Mat33) (r c : Fin 3) :
    A.transpose.entry r c = A.entry c r := by
  fin_cases r <;> fin_cases c <;> rfl

/-- The matrix `b3CreateE` writes is symmetric. -/
theorem b3CreateE_symm (out : Nat → ℚ) (lambda mu : ℚ) (k l : Nat) (hk : k < 6) (hl : l < 6) :
    b3CreateE out lambda mu (k + 6 * l) = b3CreateE out lambda mu (l + 6 * k) := by
  interval_cases k <;> interval_cases l <;> simp [b3CreateE_entry]

/-- The body of the element loop, as a bind over the assembly of `Ke`. -/
theorem initElement_unfold (b3Volume : VolumeFn) (m_E m_nu : ℚ) (m : b3SoftBodyMesh)
    (mt : b3SoftBodyMeshTetrahedron) (e : b3SoftBodyElement) :
    b3SoftBody.initElement b3Volume m_E m_nu m mt e =
      (b3SoftBody.Ke b3Volume m_E m_nu
        (b3Inverse4 e.invP (b3SoftBody.P (m.vertices mt.v1) (m.vertices mt.v2)
          (m.vertices mt.v3) (m.vertices mt.v4)))
        (m.vertices mt.v1) (m.vertices mt.v2) (m.vertices mt.v3) (m.vertices mt.v4)).bind
      fun Ke => some
        { invP := b3Inverse4 e.invP (b3SoftBody.P (m.vertices mt.v1) (m.vertices mt.v2)
            (m.vertices mt.v3) (m.vertices mt.v4)),
          K := b3SetK e.K Ke } := rfl

/-- Away from `nu = -1` and `nu = 1/2` the divisors of `b3Lame` are not zero,
and the checked function returns what `b3Lame` computes. -/
theorem b3Lame_checked_eq (E nu : ℚ) (h1 : nu ≠ -1) (h2 : nu ≠ 1 / 2) :
    b3Lame.checked E nu = some (b3Lame E nu) := by
  have a1 : 1 + nu ≠ 0 := fun h => h1 (by linarith)
  have a2 : 1 - 2 * nu ≠ 0 := fun h => h2 (by linarith)
  have hd : ¬ ((1 + nu) * (1 - 2 * nu) = 0 ∨ 2 * (1 + nu) = 0) := by
    rintro (h | h)
    · exact (mul_ne_zero a1 a2) h
    · exact (mul_ne_zero two_ne_zero a1) h
  unfold b3Lame.checked
  rw [if_neg hd]
  rfl

/-- At `nu = -1` and at `nu = 1/2` the function `b3Lame` divides by zero. -/
theorem b3Lame_checked_none (E nu : ℚ) (h : nu = -1 ∨ nu = 1 / 2) :
    b3Lame.checked E nu = none := by
  have hd : (1 + nu) * (1 - 2 * nu) = 0 ∨ 2 * (1 + nu) = 0 := by
    rcases h with h | h
    · right; rw [h]; norm_num
    · left; rw [h]; norm_num
  unfold b3Lame.checked
  rw [if_pos hd]

/-- Away from `nu = -1` and `nu = 1/2` the checked element loop body is the
element loop body. -/
theorem initElement_checked_eq (b3Volume : VolumeFn) (m_E m_nu : ℚ) (m : b3SoftBodyMesh)
    (mt : b3SoftBodyMeshTetrahedron) (e : b3SoftBodyElement)
    (h1 : m_nu ≠ -1) (h2 : m_nu ≠ 1 / 2) :
    b3SoftBody.initElement.checked b3Volume m_E m_nu m mt e
      = b3SoftBody.initElement b3Volume m_E m_nu m mt e := by
  unfold b3SoftBody.initElement.checked
  rw [b3Lame_checked_eq m_E m_nu h1 h2]
  rfl

/-- At `nu = -1` and at `nu = 1/2` the checked element loop body yields no
element. -/
theorem initElement_checked_none (b3Volume : VolumeFn) (m_E m_nu : ℚ) (m : b3SoftBodyMesh)
    (mt : b3SoftBodyMeshTetrahedron) (e : b3SoftBodyElement) (h : m_nu = -1 ∨ m_nu = 1 / 2) :
    b3SoftBody.initElement.checked b3Volume m_E m_nu m mt e = none := by
  unfold b3SoftBody.initElement.checked
  rw [b3Lame_checked_none m_E m_nu h]
  rfl

/-- The assembled `Ke` is a symmetric 12 x 12 matrix. -/
theorem Ke_symm (b3Volume : VolumeFn) (m_E m_nu : ℚ) (invP : Nat → ℚ) (p1 p2 p3 p4 : b3Vec3)
    (Ke : Nat → ℚ) (hKe : b3SoftBody.Ke b3Volume m_E m_nu invP p1 p2 p3 p4 = some Ke)
    (a b : Nat) (ha : a < 12) (hb : b < 12) : Ke (a + 12 * b) = Ke (b + 12 * a) := by
  obtain ⟨Ke2, h2, hv⟩ := Ke_entry b3Volume m_E m_nu invP p1 p2 p3 p4
  rw [hKe] at h2
  obtain rfl := Option.some.inj h2
  rw [hv a b ha hb, hv b a hb ha]
  congr 1
  rw [Finset.sum_comm]
  refine Finset.sum_congr rfl (fun k hk => Finset.sum_congr rfl (fun l hl => ?_))
  rw [b3CreateE_symm uninit _ _ l k (Finset.mem_range.mp hl) (Finset.mem_range.mp hk)]
  ring

/-- C1. For every tetrahedron of the mesh the element loop succeeds, and the
12 x 12 matrix `Ke` it hands to `b3SetK` is `V * Bᵀ * E * B` in exact
arithmetic: `Ke[a + 12 b] = V * Σ k l, B(k, a) E(k, l) B(l, b)`, with `B` the
output of `b3CreateB`, `E` the output of `b3CreateE`, `V` the value of
`b3Volume`, all arrays read column-major. -/
theorem element_Ke_eq_V_Bt_E_B (b3Volume : VolumeFn) (m_E m_nu : ℚ) (m : b3SoftBodyMesh)
    (mt : b3SoftBodyMeshTetrahedron) (e : b3SoftBodyElement) :
    ∃ Ke : Nat → ℚ,
      b3SoftBody.Ke b3Volume m_E m_nu
        (b3Inverse4 e.invP (b3SoftBody.P (m.vertices mt.v1) (m.vertices mt.v2)
          (m.vertices mt.v3) (m.vertices mt.v4)))
        (m.vertices mt.v1) (m.vertices mt.v2) (m.vertices mt.v3) (m.vertices mt.v4) = some Ke ∧
      b3SoftBody.initElement b3Volume m_E m_nu m mt e = some
        { invP := b3Inverse4 e.invP (b3SoftBody.P (m.vertices mt.v1) (m.vertices mt.v2)
            (m.vertices mt.v3) (m.vertices mt.v4)),
          K := b3SetK e.K Ke } ∧
      ∀ a b : Fin 12,
        Ke (a + 12 * b) =
          b3Volume (m.vertices mt.v1) (m.vertices mt.v2) (m.vertices mt.v3) (m.vertices mt.v4) *
            ∑ k in Finset.range 6, ∑ l in Finset.range 6,
              b3CreateB uninit (b3Inverse4 e.invP (b3SoftBody.P (m.vertices mt.v1)
                  (m.vertices mt.v2) (m.vertices mt.v3) (m.vertices mt.v4))) (k + 6 * a)
                * b3CreateE uninit (b3Lame m_E m_nu).1 (b3Lame m_E m_nu).2 (k + 6 * l)
                * b3CreateB uninit (b3Inverse4 e.invP (b3SoftBody.P (m.vertices mt.v1)
                  (m.vertices mt.v2) (m.vertices mt.v3) (m.vertices mt.v4))) (l + 6 * b) := by
  obtain ⟨Ke, hKe, hv⟩ := Ke_entry b3Volume m_E m_nu
    (b3Inverse4 e.invP (b3SoftBody.P (m.vertices mt.v1) (m.vertices mt.v2)
      (m.vertices mt.v3) (m.vertices mt.v4)))
    (m.vertices mt.v1) (m.vertices mt.v2) (m.vertices mt.v3) (m.vertices mt.v4)
  refine ⟨Ke, hKe, ?_, fun a b => hv a b a.2 b.2⟩
  rw [initElement_unfold, hKe, Option.some_bind]

/-- C2, as amended.  Every element the constructor builds, for any rest
positions, any `E` and volume, and any `nu` other than `-1` and `1/2` (the two
values at which `b3Lame` divides by zero), stores symmetric stiffness: the
element loop body returns an element, with every division defined, and the
transpose of block `K[i + 4 j]` is block `K[j + 4 i]`. -/
theorem element_K_symmetric (b3Volume : VolumeFn) (m_E m_nu : ℚ) (m : b3SoftBodyMesh)
    (mt : b3SoftBodyMeshTetrahedron) (e : b3SoftBodyElement)
    (hnu1 : m_nu ≠ -1) (hnu2 : m_nu ≠ 1 / 2) :
    ∃ e2 : b3SoftBodyElement,
      b3SoftBody.initElement.checked b3Volume m_E m_nu m mt e = some e2 ∧
      b3SoftBody.initElement b3Volume m_E m_nu m mt e = some e2 ∧
      ∀ i j : Fin 4, (e2.K (i + 4 * j)).transpose = e2.K (j + 4 * i) := by
  obtain ⟨Ke, hKe, _⟩ := Ke_entry b3Volume m_E m_nu
    (b3Inverse4 e.invP (b3SoftBody.P (m.vertices mt.v1) (m.vertices mt.v2)
      (m.vertices mt.v3) (m.vertices mt.v4)))
    (m.vertices mt.v1) (m.vertices mt.v2) (m.vertices mt.v3) (m.vertices mt.v4)
  have hinit : b3SoftBody.initElement b3Volume m_E m_nu m mt e = some
      { invP := b3Inverse4 e.invP (b3SoftBody.P (m.vertices mt.v1) (m.vertices mt.v2)
          (m.vertices mt.v3) (m.vertices mt.v4)),
        K := b3SetK e.K Ke } := by
    rw [initElement_unfold, hKe, Option.some_bind]
  refine ⟨_, by rw [initElement_checked_eq _ _ _ _ _ _ hnu1 hnu2]; exact hinit, hinit,
    fun i j => ?_⟩
  apply b3Mat33_ext_entry
  intro r c
  rw [b3Mat33_transpose_entry, b3SetK_entry, b3SetK_entry]
  exact Ke_symm b3Volume m_E m_nu _ _ _ _ _ Ke hKe _ _ (by omega) (by omega)

/-- C2 as amended, on tetrahedron 0 of the sample mesh with `E = 10` and
`nu = 1/4`: the element loop body returns an element with symmetric
stiffness. -/
theorem element_K_symmetric_witness :
    ((1 / 4 : ℚ) ≠ -1 ∧ (1 / 4 : ℚ) ≠ 1 / 2) ∧
    ∃ e2 : b3SoftBodyElement,
      b3SoftBody.initElement.checked signedVolume 10 (1 / 4) sampleMesh
        (sampleMesh.tetrahedrons 0) sampleElement = some e2 ∧
      ∀ i j : Fin 4, (e2.K (i + 4 * j)).transpose = e2.K (j + 4 * i) := by
  have h1 : (1 / 4 : ℚ) ≠ -1 := by norm_num
  have h2 : (1 / 4 : ℚ) ≠ 1 / 2 := by norm_num
  obtain ⟨e2, hc, -, hs⟩ := element_K_symmetric signedVolume 10 (1 / 4) sampleMesh
    (sampleMesh.tetrahedrons 0) sampleElement h1 h2
  exact ⟨⟨h1, h2⟩, e2, hc, hs⟩

/-- C2 as stated, for any `nu`, fails at `nu = 1/2`: on tetrahedron 0 of the
sample mesh with `E = 10`, `b3Lame` divides `nu * E = 5` by
`(1 + nu) * (1 - 2 * nu) = 0`, so the element loop body yields no element with
numeric stiffness, and no equality between its blocks holds. -/
theorem element_K_symmetric_counterexample :
    (1 / 2 : ℚ) * 10 = 5 ∧ (1 + (1 / 2 : ℚ)) * (1 - 2 * (1 / 2)) = 0 ∧
    b3Lame.checked 10 (1 / 2) = none ∧
    b3SoftBody.initElement.checked signedVolume 10 (1 / 2) sampleMesh
      (sampleMesh.tetrahedrons 0) sampleElement = none ∧
    ¬ ∃ e2 : b3SoftBodyElement,
      b3SoftBody.initElement.checked signedVolume 10 (1 / 2) sampleMesh
        (sampleMesh.tetrahedrons 0) sampleElement = some e2 ∧
      ∀ i j : Fin 4, (e2.K (i + 4 * j)).transpose = e2.K (j + 4 * i) := by
  have hnone := initElement_checked_none signedVolume 10 (1 / 2) sampleMesh
    (sampleMesh.tetrahedrons 0) sampleElement (Or.inr rfl)
  refine ⟨by norm_num, by norm_num, b3Lame_checked_none 10 (1 / 2) (Or.inr rfl), hnone, ?_⟩
  rintro ⟨e2, h, -⟩
  rw [hnone] at h
  exact Option.noConfusion h

/-- C6. `b3SetK` repacks `Ke` without loss or permutation: the entry of block
`K[i + 4 j]` in row `r` and column `c` is `Ke[(3 i + r) + 12 (3 j + c)]`; hence
for a 12-vector `u = (u0, u1, u2, u3)` the sum over `j` of `K[i + 4 j] * u_j` is
rows `3 i .. 3 i + 2` of `Ke * u`. -/
theorem b3SetK_repacks (K : Nat → b3Mat33) (Ke : Nat → ℚ) (i : Fin 4) (r : Fin 3) :
    (∀ (j : Fin 4) (c : Fin 3),
      (b3SetK K Ke (i + 4 * j)).entry r c = Ke ((3 * i + r) + 12 * (3 * j + c))) ∧
    ∀ u0 u1 u2 u3 : b3Vec3,
      (((((b3SetK K Ke (i + 4 * 0)).mulVec u0).add ((b3SetK K Ke (i + 4 * 1)).mulVec u1)).add
        ((b3SetK K Ke (i + 4 * 2)).mulVec u2)).add ((b3SetK K Ke (i + 4 * 3)).mulVec u3)).comp r
      = ∑ a in Finset.range 12, Ke ((3 * i + r) + 12 * a) * nodal12 u0 u1 u2 u3 a := by
  refine ⟨fun j c => b3SetK_entry K Ke i j r c, fun u0 u1 u2 u3 => ?_⟩
  fin_cases i <;> fin_cases r <;>
    simp [Finset.sum_range_succ, nodal12, b3SetK, b3Mat33.mulVec, b3Vec3.add, b3Vec3.comp] <;>
    ring

/-! ## Mass lumping -/

/-- The method `ComputeMass` as its three loops in sequence. -/
theorem ComputeMass_unfold (b3Volume : VolumeFn) (rho : ℚ) (m : b3SoftBodyMesh)
    (ns : Nat → b3SoftBodyNode) :
    b3SoftBody.ComputeMass b3Volume rho m ns =
      ((List.range m.tetrahedronCount).foldlM (fun C i =>
          (B3_ASSERT (m.tetVolume b3Volume i > 0)).bind fun _ =>
            some (lumpTetrahedron (m.tetrahedrons i) (1 / 4 * (rho * m.tetVolume b3Volume i)) C))
        ((List.range m.vertexCount).foldl (fun C i =>
          Function.update C i { C i with m_mass := 0, m_invMass := 0 }) ns)).bind fun ns2 =>
      (List.range m.vertexCount).foldlM (fun C i =>
          (B3_ASSERT ((C i).m_mass > 0)).bind fun _ =>
            some (Function.update C i { C i with m_invMass := 1 / (C i).m_mass })) ns2 := rfl

/-- An assertion that holds lets the rest of the block run. -/
theorem B3_ASSERT_bind_pos {β : Type} (c : Prop) [Decidable c] (h : c) (k : Unit → Option β) :
    (B3_ASSERT c).bind k = k () := by
  simp [B3_ASSERT, h]

/-- An assertion that fails ends the block. -/
theorem B3_ASSERT_bind_neg {β : Type} (c : Prop) [Decidable c] (h : ¬ c) (k : Unit → Option β) :
    (B3_ASSERT c).bind k = none := by
  simp [B3_ASSERT, h]

/-- A loop whose assertions all hold runs like the loop without them. -/
theorem foldlM_assert_ok {β : Type} (Q : β → Nat → Prop) [∀ C i, Decidable (Q C i)]
    (g : β → Nat → β) (n : Nat) (C : β)
    (h : ∀ i, i < n → Q ((List.range i).foldl g C) i) :
    (List.range n).foldlM (fun C i => (B3_ASSERT (Q C i)).bind fun _ => some (g C i)) C
      = some ((List.range n).foldl g C) := by
  induction n with
  | zero => rfl
  | succ n ih =>
    rw [List.range_succ, List.foldlM_append, ih (fun i hi => h i (Nat.lt_succ_of_lt hi))]
    simp only [List.foldlM_cons, List.foldlM_nil, Option.bind_eq_bind, Option.some_bind,
      List.foldl_append, List.foldl_cons, List.foldl_nil]
    rw [B3_ASSERT_bind_pos _ (h n (Nat.lt_succ_self n))]
    rfl

/-- A loop with a failing assertion fails, and a loop that completes passed
every assertion. -/
theorem foldlM_assert_some {β : Type} (Q : β → Nat → Prop) [∀ C i, Decidable (Q C i)]
    (g : β → Nat → β) (n : Nat) (C C2 : β)
    (h : (List.range n).foldlM (fun C i => (B3_ASSERT (Q C i)).bind fun _ => some (g C i)) C
      = some C2) :
    (∀ i, i < n → Q ((List.range i).foldl g C) i) ∧ C2 = (List.range n).foldl g C := by
  induction n generalizing C2 with
  | zero =>
    simp only [List.range_zero, List.foldlM_nil, List.foldl_nil] at h ⊢
    exact ⟨fun i hi => absurd hi (Nat.not_lt_zero i), (Option.some.inj h).symm⟩
  | succ n ih =>
    rw [List.range_succ, List.foldlM_append] at h
    cases hpre : (List.range n).foldlM
        (fun C i => (B3_ASSERT (Q C i)).bind fun _ => some (g C i)) C with
    | none => rw [hpre] at h; simp at h
    | some C1 =>
      obtain ⟨hall, hC1⟩ := ih C1 hpre
      rw [hpre] at h
      simp only [List.foldlM_cons, List.foldlM_nil, Option.bind_eq_bind, Option.some_bind] at h
      by_cases hq : Q C1 n
      · rw [B3_ASSERT_bind_pos _ hq] at h
        simp only [Option.some_bind, Option.pure_def, Option.some.injEq] at h
        refine ⟨fun i hi => ?_, ?_⟩
        · by_cases hin : i = n
          · subst hin; rw [← hC1]; exact hq
          · exact hall i (by omega)
        · rw [List.range_succ, List.foldl_append, ← hC1, ← h]
          rfl
      · rw [B3_ASSERT_bind_neg _ hq] at h
        simp at h

/-- One store `n->m_mass += c` seen from node `x`. -/
theorem addMass_mass (ns : Nat → b3SoftBodyNode) (v : Nat) (c : ℚ) (x : Nat) :
    (Function.update ns v { ns v with m_mass := (ns v).m_mass + c } x).m_mass
      = (ns x).m_mass + if v = x then c else 0 := by
  by_cases h : v = x
  · subst h
    simp
  · rw [Function.update_noteq (Ne.symm h)]
    simp [h]

/-- One pass of the tetrahedron loop adds `c` to a node's mass once per slot
that names the node. -/
theorem lumpTetrahedron_mass (t : b3SoftBodyMeshTetrahedron) (c : ℚ)
    (ns : Nat → b3SoftBodyNode) (x : Nat) :
    (lumpTetrahedron t c ns x).m_mass
      = (ns x).m_mass + ∑ s : Fin 4, if t.vertex s = x then c else 0 := by
  simp only [lumpTetrahedron, Fin.sum_univ_four, b3SoftBodyMeshTetrahedron.vertex]
  rw [addMass_mass, addMass_mass, addMass_mass, addMass_mass]
  ring

/-- The tetrahedron loop without its assertions: the mass a node has gained
after `T` passes. -/
theorem lumpLoop_mass (tet : Nat → b3SoftBodyMeshTetrahedron) (c : Nat → ℚ) (T : Nat)
    (ns : Nat → b3SoftBodyNode) (x : Nat) :
    ((List.range T).foldl (fun C i => lumpTetrahedron (tet i) (c i) C) ns x).m_mass
      = (ns x).m_mass
        + ∑ i in Finset.range T, ∑ s : Fin 4, if (tet i).vertex s = x then c i else 0 := by
  induction T with
  | zero => simp
  | succ T ih =>
    rw [List.range_succ, List.foldl_append]
    simp only [List.foldl_cons, List.foldl_nil]
    rw [lumpTetrahedron_mass, ih, Finset.sum_range_succ, add_assoc]

/-- The mass the code accumulates in node `x`: a quarter of `rho * volume` per
slot naming `x`, summed in loop order. -/
theorem lumped_eq (rho : ℚ) (tet : Nat → b3SoftBodyMeshTetrahedron) (vol : Nat → ℚ) (T x : Nat) :
    ∑ i in Finset.range T, ∑ s : Fin 4, (if (tet i).vertex s = x then 1 / 4 * (rho * vol i) else 0)
      = rho / 4 * ∑ i in Finset.range T, ∑ s : Fin 4, if (tet i).vertex s = x then vol i else 0 := by
  rw [Finset.mul_sum]
  refine Finset.sum_congr rfl (fun i _ => ?_)
  rw [Finset.mul_sum]
  refine Finset.sum_congr rfl (fun s _ => ?_)
  split <;> ring

/-- What `ComputeMass` returns when it returns: every volume assertion held, and
each node below `vertexCount` has the lumped mass, which is positive, and its
reciprocal as inverse mass. -/
theorem ComputeMass_some (b3Volume : VolumeFn) (rho : ℚ) (m : b3SoftBodyMesh)
    (ns ns2 : Nat → b3SoftBodyNode) (h : b3SoftBody.ComputeMass b3Volume rho m ns = some ns2) :
    (∀ i, i < m.tetrahedronCount → 0 < m.tetVolume b3Volume i) ∧
    ∀ x, x < m.vertexCount →
      (ns2 x).m_mass = rho / 4 * ∑ i in Finset.range m.tetrahedronCount, ∑ s : Fin 4,
        (if (m.tetrahedrons i).vertex s = x then m.tetVolume b3Volume i else 0) ∧
      0 < (ns2 x).m_mass ∧ (ns2 x).m_invMass = 1 / (ns2 x).m_mass := by
  rw [ComputeMass_unfold] at h
  cases h2 : (List.range m.tetrahedronCount).foldlM (fun C i =>
          (B3_ASSERT (m.tetVolume b3Volume i > 0)).bind fun _ =>
            some (lumpTetrahedron (m.tetrahedrons i) (1 / 4 * (rho * m.tetVolume b3Volume i)) C))
        ((List.range m.vertexCount).foldl (fun C i =>
          Function.update C i { C i with m_mass := 0, m_invMass := 0 }) ns) with
  | none => rw [h2] at h; simp at h
  | some ns1 =>
    rw [h2, Option.some_bind] at h
    obtain ⟨hvol, hns1⟩ := foldlM_assert_some
      (fun (_ : Nat → b3SoftBodyNode) i => m.tetVolume b3Volume i > 0)
      (fun C i => lumpTetrahedron (m.tetrahedrons i) (1 / 4 * (rho * m.tetVolume b3Volume i)) C)
      _ _ _ h2
    obtain ⟨hpos, hns2⟩ := foldlM_assert_some
      (fun (C : Nat → b3SoftBodyNode) i => (C i).m_mass > 0)
      (fun C i => Function.update C i { C i with m_invMass := 1 / (C i).m_mass }) _ _ _ h
    refine ⟨hvol, fun x hx => ?_⟩
    have hpre : ∀ k, (List.range k).foldl
        (fun C i => Function.update C i { C i with m_invMass := 1 / (C i).m_mass }) ns1 x
        = if x < k then { ns1 x with m_invMass := 1 / (ns1 x).m_mass } else ns1 x :=
      fun k => foldl_modify (fun _ n => { n with m_invMass := 1 / n.m_mass }) k ns1 x
    have hx2 : ns2 x = { ns1 x with m_invMass := 1 / (ns1 x).m_mass } := by
      rw [hns2, hpre, if_pos hx]
    have hm1 : (ns1 x).m_mass = rho / 4 * ∑ i in Finset.range m.tetrahedronCount, ∑ s : Fin 4,
        (if (m.tetrahedrons i).vertex s = x then m.tetVolume b3Volume i else 0) := by
      rw [hns1, lumpLoop_mass m.tetrahedrons (fun i => 1 / 4 * (rho * m.tetVolume b3Volume i)),
        foldl_modify (fun _ n => { n with m_mass := 0, m_invMass := 0 }) m.vertexCount ns x,
        if_pos hx, lumped_eq]
      simp
    have hp := hpos x hx
    rw [hpre, if_neg (Nat.lt_irrefl x)] at hp
    rw [hx2]
    exact ⟨hm1, hp, rfl⟩

/-- The first loop of `ComputeMass` seen from node `y`. -/
theorem zeroLoop_apply (C : Nat → b3SoftBodyNode) (k y : Nat) :
    (List.range k).foldl (fun C i =>
        Function.update C i { C i with m_mass := 0, m_invMass := 0 }) C y
      = if y < k then { C y with m_mass := 0, m_invMass := 0 } else C y :=
  foldl_modify (fun _ n => { n with m_mass := 0, m_invMass := 0 }) k C y

/-- The last loop of `ComputeMass`, without its assertions, seen from node
`y`. -/
theorem invertLoop_apply (C : Nat → b3SoftBodyNode) (k y : Nat) :
    (List.range k).foldl (fun C i =>
        Function.update C i { C i with m_invMass := 1 / (C i).m_mass }) C y
      = if y < k then { C y with m_invMass := 1 / (C y).m_mass } else C y :=
  foldl_modify (fun _ n => { n with m_invMass := 1 / n.m_mass }) k C y

/-- When every volume is positive and every lumped mass is positive,
`ComputeMass` returns. -/
theorem ComputeMass_returns (b3Volume : VolumeFn) (rho : ℚ) (m : b3SoftBodyMesh)
    (ns : Nat → b3SoftBodyNode)
    (hvol : ∀ i, i < m.tetrahedronCount → 0 < m.tetVolume b3Volume i)
    (hmass : ∀ x, x < m.vertexCount →
      0 < rho / 4 * ∑ i in Finset.range m.tetrahedronCount, ∑ s : Fin 4,
        (if (m.tetrahedrons i).vertex s = x then m.tetVolume b3Volume i else 0)) :
    ∃ ns2, b3SoftBody.ComputeMass b3Volume rho m ns = some ns2 := by
  rw [ComputeMass_unfold]
  rw [foldlM_assert_ok (fun (_ : Nat → b3SoftBodyNode) i => m.tetVolume b3Volume i > 0)
    (fun C i => lumpTetrahedron (m.tetrahedrons i) (1 / 4 * (rho * m.tetVolume b3Volume i)) C)
    m.tetrahedronCount _ hvol, Option.some_bind]
  refine ⟨_, foldlM_assert_ok (fun (C : Nat → b3SoftBodyNode) i => (C i).m_mass > 0)
    (fun C i => Function.update C i { C i with m_invMass := 1 / (C i).m_mass })
    m.vertexCount _ (fun x hx => ?_)⟩
  show 0 < _
  rw [invertLoop_apply, if_neg (Nat.lt_irrefl x),
    lumpLoop_mass m.tetrahedrons (fun i => 1 / 4 * (rho * m.tetVolume b3Volume i)),
    zeroLoop_apply, if_pos hx, lumped_eq]
  simpa using hmass x hx

/-- Summed over the nodes, the slots of a valid tetrahedron are each counted
once. -/
theorem sum_slots_valid (m : b3SoftBodyMesh) (hvalid : m.ValidIndices) (vol : Nat → ℚ) :
    ∑ x in Finset.range m.vertexCount, ∑ i in Finset.range m.tetrahedronCount, ∑ s : Fin 4,
        (if (m.tetrahedrons i).vertex s = x then vol i else 0)
      = ∑ i in Finset.range m.tetrahedronCount, 4 * vol i := by
  rw [Finset.sum_comm]
  refine Finset.sum_congr rfl (fun i hi => ?_)
  rw [Finset.sum_comm]
  have h1 : ∀ s : Fin 4, ∑ x in Finset.range m.vertexCount,
      (if (m.tetrahedrons i).vertex s = x then vol i else 0) = vol i := by
    intro s
    rw [Finset.sum_ite_eq]
    simp [hvalid i (Finset.mem_range.mp hi) s]
  simp [h1]

/-! ## The constructor -/

/-- The constructor as a chain of its assertions and loops. -/
theorem ctor_unfold (World : Type) (b3Volume : VolumeFn) (d : b3SoftBodyDef)
    (nodeMem : Nat → b3SoftBodyNode) (elementMem : Nat → b3SoftBodyElement)
    (triangleMem : Nat → b3SoftBodyTriangle) :
    b3SoftBody.b3SoftBody World b3Volume d nodeMem elementMem triangleMem =
      (B3_ASSERT (d.mesh.isSome)).bind fun _ =>
      (B3_ASSERT (d.density > 0)).bind fun _ =>
      d.mesh.bind fun m =>
      (b3SoftBody.ComputeMass b3Volume d.density m (b3SoftBody.initNodes m nodeMem)).bind
        fun ns =>
      ((List.range m.tetrahedronCount).foldlM (fun els ei =>
          (b3SoftBody.initElement b3Volume d.E d.nu m (m.tetrahedrons ei) (els ei)).bind
            fun e => some (Function.update els ei e)) elementMem).bind fun els =>
      some { m_mesh := m, m_density := d.density, m_E := d.E, m_nu := d.nu,
             m_gravity := b3Vec3.zero, m_world := none, m_nodes := ns,
             m_elements := els,
             m_triangles := b3SoftBody.initTriangles m triangleMem } := rfl

/-- A loop whose body never fails does not fail. -/
theorem foldlM_total {β : Type} (F : β → Nat → Option β) (hF : ∀ C i, ∃ C2, F C i = some C2)
    (n : Nat) (C : β) : ∃ C2, (List.range n).foldlM F C = some C2 := by
  induction n with
  | zero => exact ⟨C, rfl⟩
  | succ n ih =>
    obtain ⟨C1, h1⟩ := ih
    obtain ⟨C2, h2⟩ := hF C1 n
    refine ⟨C2, ?_⟩
    rw [List.range_succ, List.foldlM_append, h1]
    simp only [List.foldlM_cons, List.foldlM_nil, Option.bind_eq_bind, Option.some_bind, h2]
    rfl

/-- The element loop of the constructor never fails. -/
theorem elementLoop_total (b3Volume : VolumeFn) (m_E m_nu : ℚ) (m : b3SoftBodyMesh)
    (elementMem : Nat → b3SoftBodyElement) :
    ∃ els, (List.range m.tetrahedronCount).foldlM (fun els ei =>
      (b3SoftBody.initElement b3Volume m_E m_nu m (m.tetrahedrons ei) (els ei)).bind
        fun e => some (Function.update els ei e)) elementMem = some els := by
  apply foldlM_total
  intro C i
  obtain ⟨Ke, hKe, _⟩ := Ke_entry b3Volume m_E m_nu
    (b3Inverse4 (C i).invP (b3SoftBody.P (m.vertices (m.tetrahedrons i).v1)
      (m.vertices (m.tetrahedrons i).v2) (m.vertices (m.tetrahedrons i).v3)
      (m.vertices (m.tetrahedrons i).v4)))
    (m.vertices (m.tetrahedrons i).v1) (m.vertices (m.tetrahedrons i).v2)
    (m.vertices (m.tetrahedrons i).v3) (m.vertices (m.tetrahedrons i).v4)
  exact ⟨_, by rw [initElement_unfold, hKe, Option.some_bind, Option.some_bind]⟩

/-- A constructed body carries the mesh of its parameters and the nodes
`ComputeMass` returned. -/
theorem ctor_some (World : Type) (b3Volume : VolumeFn) (d : b3SoftBodyDef)
    (nodeMem : Nat → b3SoftBodyNode) (elementMem : Nat → b3SoftBodyElement)
    (triangleMem : Nat → b3SoftBodyTriangle) (body : b3SoftBody World)
    (h : b3SoftBody.b3SoftBody World b3Volume d nodeMem elementMem triangleMem = some body) :
    d.mesh = some body.m_mesh ∧ 0 < d.density ∧
    b3SoftBody.ComputeMass b3Volume d.density body.m_mesh
      (b3SoftBody.initNodes body.m_mesh nodeMem) = some body.m_nodes := by
  rw [ctor_unfold] at h
  by_cases h1 : d.mesh.isSome
  · rw [B3_ASSERT_bind_pos _ h1] at h
    by_cases h2 : d.density > 0
    · rw [B3_ASSERT_bind_pos _ h2] at h
      cases hm : d.mesh with
      | none => rw [hm] at h; simp at h
      | some m =>
        rw [hm, Option.some_bind] at h
        cases hc : b3SoftBody.ComputeMass b3Volume d.density m (b3SoftBody.initNodes m nodeMem) with
        | none => rw [hc] at h; simp at h
        | some ns =>
          rw [hc, Option.some_bind] at h
          obtain ⟨els, hels⟩ := elementLoop_total b3Volume d.E d.nu m elementMem
          rw [hels, Option.some_bind] at h
          obtain rfl := Option.some.inj h
          exact ⟨rfl, h2, hc⟩
    · rw [B3_ASSERT_bind_neg _ h2] at h; simp at h
  · rw [B3_ASSERT_bind_neg _ h1] at h; simp at h

/-- The constructor returns a body once its two assertions hold and
`ComputeMass` returns. -/
theorem ctor_returns (World : Type) (b3Volume : VolumeFn) (d : b3SoftBodyDef)
    (nodeMem : Nat → b3SoftBodyNode) (elementMem : Nat → b3SoftBodyElement)
    (triangleMem : Nat → b3SoftBodyTriangle) (m : b3SoftBodyMesh) (hm : d.mesh = some m)
    (hd : 0 < d.density) (ns : Nat → b3SoftBodyNode)
    (hc : b3SoftBody.ComputeMass b3Volume d.density m (b3SoftBody.initNodes m nodeMem) = some ns) :
    ∃ body, b3SoftBody.b3SoftBody World b3Volume d nodeMem elementMem triangleMem = some body := by
  obtain ⟨els, hels⟩ := elementLoop_total b3Volume d.E d.nu m elementMem
  exact ⟨_, by
    rw [ctor_unfold, B3_ASSERT_bind_pos _ (by rw [hm]; rfl), B3_ASSERT_bind_pos _ hd, hm,
      Option.some_bind, hc, Option.some_bind, hels, Option.some_bind]⟩

/-- The constructor fails when `ComputeMass` fails. -/
theorem ctor_none_of_ComputeMass (World : Type) (b3Volume : VolumeFn) (d : b3SoftBodyDef)
    (nodeMem : Nat → b3SoftBodyNode) (elementMem : Nat → b3SoftBodyElement)
    (triangleMem : Nat → b3SoftBodyTriangle) (m : b3SoftBodyMesh) (hm : d.mesh = some m)
    (hc : b3SoftBody.ComputeMass b3Volume d.density m (b3SoftBody.initNodes m nodeMem) = none) :
    b3SoftBody.b3SoftBody World b3Volume d nodeMem elementMem triangleMem = none := by
  cases h : b3SoftBody.b3SoftBody World b3Volume d nodeMem elementMem triangleMem with
  | none => rfl
  | some body =>
    obtain ⟨h1, _, h3⟩ := ctor_some World b3Volume d nodeMem elementMem triangleMem body h
    rw [hm] at h1
    obtain rfl := Option.some.inj h1
    rw [hc] at h3
    simp at h3

/-- The two tetrahedra of the sample mesh have volumes `1/6` and `1/3`. -/
theorem sampleMesh_tetVolume :
    sampleMesh.tetVolume signedVolume 0 = 1 / 6 ∧ sampleMesh.tetVolume signedVolume 1 = 1 / 3 := by
  constructor <;>
    norm_num [b3SoftBodyMesh.tetVolume, sampleMesh, signedVolume, sampleP1, sampleP2, sampleP3,
      sampleP4]

/-- The method `ComputeMass` returns on the sample mesh with density 12. -/
theorem sampleMesh_ComputeMass (ns : Nat → b3SoftBodyNode) :
    ∃ ns2, b3SoftBody.ComputeMass signedVolume 12 sampleMesh ns = some ns2 := by
  apply ComputeMass_returns
  · intro i hi
    have hi2 : i < 2 := hi
    interval_cases i
    · rw [sampleMesh_tetVolume.1]; norm_num
    · rw [sampleMesh_tetVolume.2]; norm_num
  · intro x hx
    have hx5 : x < 5 := hx
    have hT : sampleMesh.tetrahedronCount = 2 := rfl
    rw [hT]
    simp only [Finset.sum_range_succ, Finset.sum_range_zero, Fin.sum_univ_four,
      sampleMesh_tetVolume.1, sampleMesh_tetVolume.2]
    interval_cases x <;>
      norm_num [sampleMesh, b3SoftBodyMeshTetrahedron.vertex]

/-- C7. `ComputeMass` lumps mass equally: when it returns, each node's mass is
`density / 4` times the sum, over every tetrahedron and each of its four slots
that names the node, of the tetrahedron's volume; and for a mesh with valid
indices the nodal masses sum to the sum over the tetrahedra of
`density * volume`. -/
theorem ComputeMass_lumps_equally (b3Volume : VolumeFn) (rho : ℚ) (m : b3SoftBodyMesh)
    (ns ns2 : Nat → b3SoftBodyNode)
    (h : b3SoftBody.ComputeMass b3Volume rho m ns = some ns2) :
    (∀ x, x < m.vertexCount →
      (ns2 x).m_mass = rho / 4 * ∑ i in Finset.range m.tetrahedronCount, ∑ s : Fin 4,
        (if (m.tetrahedrons i).vertex s = x then m.tetVolume b3Volume i else 0)) ∧
    (m.ValidIndices →
      ∑ x in Finset.range m.vertexCount, (ns2 x).m_mass
        = ∑ i in Finset.range m.tetrahedronCount, rho * m.tetVolume b3Volume i) := by
  obtain ⟨_, hx⟩ := ComputeMass_some b3Volume rho m ns ns2 h
  refine ⟨fun x hlt => (hx x hlt).1, fun hvalid => ?_⟩
  rw [Finset.sum_congr rfl (fun x hxr => (hx x (Finset.mem_range.mp hxr)).1), ← Finset.mul_sum,
    sum_slots_valid m hvalid, Finset.mul_sum]
  refine Finset.sum_congr rfl (fun i _ => ?_)
  ring

/-- C7 on the sample mesh with density 12: `ComputeMass` returns, node 0 (in one
tetrahedron of volume `1/6`) gets mass `1/2`, node 1 (in both) gets `3/2`, and
the five masses sum to `12 * (1/6 + 1/3) = 6`. -/
theorem ComputeMass_lumps_equally_witness :
    ∃ ns2, b3SoftBody.ComputeMass signedVolume 12 sampleMesh (fun _ => sampleNode) = some ns2 ∧
      ((∀ x, x < sampleMesh.vertexCount →
        (ns2 x).m_mass = 12 / 4 * ∑ i in Finset.range sampleMesh.tetrahedronCount, ∑ s : Fin 4,
          (if (sampleMesh.tetrahedrons i).vertex s = x
            then sampleMesh.tetVolume signedVolume i else 0)) ∧
      (sampleMesh.ValidIndices →
        ∑ x in Finset.range sampleMesh.vertexCount, (ns2 x).m_mass
          = ∑ i in Finset.range sampleMesh.tetrahedronCount,
              12 * sampleMesh.tetVolume signedVolume i)) ∧
      sampleMesh.ValidIndices ∧
      ∑ i in Finset.range sampleMesh.tetrahedronCount,
        12 * sampleMesh.tetVolume signedVolume i = 6 ∧
      (ns2 0).m_mass = 1 / 2 ∧ (ns2 1).m_mass = 3 / 2 := by
  obtain ⟨ns2, h⟩ := sampleMesh_ComputeMass (fun _ => sampleNode)
  have hT : sampleMesh.tetrahedronCount = 2 := rfl
  have key := ComputeMass_lumps_equally signedVolume 12 sampleMesh _ ns2 h
  have h0 := key.1 0 (by decide)
  have h1 := key.1 1 (by decide)
  rw [hT] at h0 h1
  simp only [Finset.sum_range_succ, Finset.sum_range_zero, Fin.sum_univ_four,
    sampleMesh_tetVolume.1, sampleMesh_tetVolume.2] at h0 h1
  norm_num [sampleMesh, b3SoftBodyMeshTetrahedron.vertex] at h0 h1
  refine ⟨ns2, h, ComputeMass_lumps_equally signedVolume 12 sampleMesh _ ns2 h, ?_, ?_, h0, h1⟩
  · intro i hi s
    have hi2 : i < 2 := hi
    interval_cases i <;> fin_cases s <;> decide
  · rw [hT]
    simp only [Finset.sum_range_succ, Finset.sum_range_zero, sampleMesh_tetVolume.1,
      sampleMesh_tetVolume.2]
    norm_num

/-- C8. Whenever the constructor completes, every node below `vertexCount` has
positive mass and its inverse mass is the reciprocal of its mass, so their
product is one. -/
theorem ctor_mass_positive (World : Type) (b3Volume : VolumeFn) (d : b3SoftBodyDef)
    (nodeMem : Nat → b3SoftBodyNode) (elementMem : Nat → b3SoftBodyElement)
    (triangleMem : Nat → b3SoftBodyTriangle) (body : b3SoftBody World)
    (h : b3SoftBody.b3SoftBody World b3Volume d nodeMem elementMem triangleMem = some body)
    (i : Nat) (hi : i < body.m_mesh.vertexCount) :
    0 < (body.m_nodes i).m_mass ∧
    (body.m_nodes i).m_invMass = 1 / (body.m_nodes i).m_mass ∧
    (body.m_nodes i).m_mass * (body.m_nodes i).m_invMass = 1 := by
  obtain ⟨_, _, hc⟩ := ctor_some World b3Volume d nodeMem elementMem triangleMem body h
  obtain ⟨_, hx⟩ := ComputeMass_some b3Volume d.density body.m_mesh _ _ hc
  obtain ⟨_, hpos, hinv⟩ := hx i hi
  refine ⟨hpos, hinv, ?_⟩
  rw [hinv, mul_one_div, div_self (ne_of_gt hpos)]

/-- The constructor returns on the sample parameters. -/
theorem sampleDef_ctor (World : Type) (nodeMem : Nat → b3SoftBodyNode)
    (elementMem : Nat → b3SoftBodyElement) (triangleMem : Nat → b3SoftBodyTriangle) :
    ∃ body, b3SoftBody.b3SoftBody World signedVolume sampleDef nodeMem elementMem triangleMem
      = some body := by
  obtain ⟨ns, hns⟩ := sampleMesh_ComputeMass (b3SoftBody.initNodes sampleMesh nodeMem)
  exact ctor_returns World signedVolume sampleDef nodeMem elementMem triangleMem sampleMesh rfl
    (by norm_num [sampleDef]) ns hns

/-- C8 on the sample parameters: the constructor returns a body, and its node 4
has positive mass with the reciprocal as inverse mass. -/
theorem ctor_mass_positive_witness :
    ∃ body : b3SoftBody Unit,
      b3SoftBody.b3SoftBody Unit signedVolume sampleDef (fun _ => sampleNode)
        (fun _ => sampleElement) (fun _ => sampleTriangle) = some body ∧
      4 < body.m_mesh.vertexCount ∧
      (0 < (body.m_nodes 4).m_mass ∧
      (body.m_nodes 4).m_invMass = 1 / (body.m_nodes 4).m_mass ∧
      (body.m_nodes 4).m_mass * (body.m_nodes 4).m_invMass = 1) := by
  obtain ⟨body, h⟩ := sampleDef_ctor Unit (fun _ => sampleNode) (fun _ => sampleElement)
    (fun _ => sampleTriangle)
  have hm := (ctor_some Unit signedVolume sampleDef _ _ _ body h).1
  have hm2 : body.m_mesh = sampleMesh := (Option.some.inj hm).symm
  have hlt : 4 < body.m_mesh.vertexCount := by rw [hm2]; decide
  exact ⟨body, h, hlt, ctor_mass_positive Unit signedVolume sampleDef _ _ _ body h 4 hlt⟩

/-- C9. For positive density, `ComputeMass` completes without a failed
assertion exactly when every tetrahedron has positive `b3Volume` and every mesh
vertex is named by a slot of some tetrahedron; and when it completes every
computed nodal mass is positive (a non-positive one fails the assertion of the
last loop).  The index-validity hypothesis of the claim is carried but not
needed. -/
theorem ComputeMass_completes_iff (b3Volume : VolumeFn) (rho : ℚ) (m : b3SoftBodyMesh)
    (ns : Nat → b3SoftBodyNode) (hrho : 0 < rho) (_hvalid : m.ValidIndices) :
    ((∃ ns2, b3SoftBody.ComputeMass b3Volume rho m ns = some ns2) ↔
      (∀ i, i < m.tetrahedronCount → 0 < m.tetVolume b3Volume i) ∧
      (∀ v, v < m.vertexCount →
        ∃ i, i < m.tetrahedronCount ∧ ∃ s : Fin 4, (m.tetrahedrons i).vertex s = v)) ∧
    (∀ ns2, b3SoftBody.ComputeMass b3Volume rho m ns = some ns2 →
      ∀ v, v < m.vertexCount → 0 < (ns2 v).m_mass) := by
  refine ⟨⟨?_, ?_⟩, fun ns2 h v hv => ((ComputeMass_some b3Volume rho m ns ns2 h).2 v hv).2.1⟩
  · rintro ⟨ns2, h⟩
    obtain ⟨hvol, hx⟩ := ComputeMass_some b3Volume rho m ns ns2 h
    refine ⟨hvol, fun v hv => ?_⟩
    obtain ⟨hm, hpos, _⟩ := hx v hv
    by_contra hno
    have hzero : ∑ i in Finset.range m.tetrahedronCount, ∑ s : Fin 4,
        (if (m.tetrahedrons i).vertex s = v then m.tetVolume b3Volume i else 0) = 0 := by
      refine Finset.sum_eq_zero (fun i hi => Finset.sum_eq_zero (fun s _ => ?_))
      rw [if_neg]
      intro hs
      exact hno ⟨i, Finset.mem_range.mp hi, s, hs⟩
    rw [hm, hzero, mul_zero] at hpos
    exact lt_irrefl _ hpos
  · rintro ⟨hvol, href⟩
    apply ComputeMass_returns b3Volume rho m ns hvol
    intro x hx
    obtain ⟨i, hi, s, hs⟩ := href x hx
    apply mul_pos (by linarith)
    have hnn : ∀ j, j ∈ Finset.range m.tetrahedronCount → ∀ t : Fin 4, t ∈ Finset.univ →
        0 ≤ (if (m.tetrahedrons j).vertex t = x then m.tetVolume b3Volume j else 0) := by
      intro j hj t _
      split
      · exact le_of_lt (hvol j (Finset.mem_range.mp hj))
      · exact le_refl 0
    calc (0 : ℚ) < m.tetVolume b3Volume i := hvol i hi
      _ = (if (m.tetrahedrons i).vertex s = x then m.tetVolume b3Volume i else 0) := by
          rw [if_pos hs]
      _ ≤ ∑ t : Fin 4, (if (m.tetrahedrons i).vertex t = x then m.tetVolume b3Volume i else 0) :=
          Finset.single_le_sum (f := fun t : Fin 4 =>
            if (m.tetrahedrons i).vertex t = x then m.tetVolume b3Volume i else 0)
            (fun t ht => hnn i (Finset.mem_range.mpr hi) t ht) (Finset.mem_univ s)
      _ ≤ ∑ j in Finset.range m.tetrahedronCount, ∑ t : Fin 4,
            (if (m.tetrahedrons j).vertex t = x then m.tetVolume b3Volume j else 0) :=
          Finset.single_le_sum (f := fun j => ∑ t : Fin 4,
            (if (m.tetrahedrons j).vertex t = x then m.tetVolume b3Volume j else 0))
            (fun j hj => Finset.sum_nonneg (fun t ht => hnn j hj t ht)) (Finset.mem_range.mpr hi)

/-- The indices of the sample mesh are valid. -/
theorem sampleMesh_valid : sampleMesh.ValidIndices := by
  intro i hi s
  have hi2 : i < 2 := hi
  interval_cases i <;> fin_cases s <;> decide

/-- The indices of the mesh with a loose vertex are valid. -/
theorem looseMesh_valid : looseMesh.ValidIndices := by
  intro i hi s
  have hi2 : i < 2 := hi
  interval_cases i <;> fin_cases s <;> decide

/-- No slot of the two tetrahedra of `looseMesh` names vertex 5. -/
theorem looseMesh_unreferenced :
    ¬ ∃ i, i < looseMesh.tetrahedronCount ∧ ∃ s : Fin 4, (looseMesh.tetrahedrons i).vertex s = 5 := by
  rintro ⟨i, hi, s, hs⟩
  have hi2 : i < 2 := hi
  interval_cases i <;> fin_cases s <;> revert hs <;> decide

/-- C9 on the sample mesh with density 12, where `ComputeMass` completes, and
on the same mesh with a sixth, unreferenced vertex, where it fails although no
tetrahedron is degenerate. -/
theorem ComputeMass_completes_iff_witness :
    ((0 : ℚ) < 12 ∧ sampleMesh.ValidIndices) ∧
    (((∃ ns2, b3SoftBody.ComputeMass signedVolume 12 sampleMesh (fun _ => sampleNode) = some ns2) ↔
      (∀ i, i < sampleMesh.tetrahedronCount → 0 < sampleMesh.tetVolume signedVolume i) ∧
      (∀ v, v < sampleMesh.vertexCount →
        ∃ i, i < sampleMesh.tetrahedronCount ∧
          ∃ s : Fin 4, (sampleMesh.tetrahedrons i).vertex s = v)) ∧
    (∀ ns2, b3SoftBody.ComputeMass signedVolume 12 sampleMesh (fun _ => sampleNode) = some ns2 →
      ∀ v, v < sampleMesh.vertexCount → 0 < (ns2 v).m_mass)) ∧
    (∃ ns2, b3SoftBody.ComputeMass signedVolume 12 sampleMesh (fun _ => sampleNode) = some ns2) ∧
    b3SoftBody.ComputeMass signedVolume 12 looseMesh (fun _ => sampleNode) = none :=
  ⟨⟨by norm_num, sampleMesh_valid⟩,
    ComputeMass_completes_iff signedVolume 12 sampleMesh (fun _ => sampleNode) (by norm_num)
      sampleMesh_valid,
    sampleMesh_ComputeMass _,
    by
      cases h : b3SoftBody.ComputeMass signedVolume 12 looseMesh (fun _ => sampleNode) with
      | none => rfl
      | some ns2 =>
        exact absurd (((ComputeMass_completes_iff signedVolume 12 looseMesh
          (fun _ => sampleNode) (by norm_num) looseMesh_valid).1.mp ⟨ns2, h⟩).2 5 (by decide))
          looseMesh_unreferenced⟩

/-- The determinant of the homogeneous matrix `P` is minus six times the signed
volume. -/
theorem det_P_eq_signedVolume (p1 p2 p3 p4 : b3Vec3) :
    (rowMajor4 (b3SoftBody.P p1 p2 p3 p4)).det = -6 * signedVolume p1 p2 p3 p4 := by
  rw [rowMajor4_det]
  simp only [b3Inverse4.det, b3Inverse4.inv, b3SoftBody.P, signedVolume]
  norm_num
  ring

/-- C10. A mesh with a tetrahedron whose homogeneous matrix `P` has determinant
zero is fatal at construction, for any `b3Volume` that vanishes when
`det P = 0`: `ComputeMass` fails on it, and the constructor, which runs
`ComputeMass` before the element loop, returns no body, so no stiffness is
assembled from the tetrahedron. -/
theorem ctor_fails_on_degenerate (World : Type) (b3Volume : VolumeFn) (d : b3SoftBodyDef)
    (nodeMem : Nat → b3SoftBodyNode) (elementMem : Nat → b3SoftBodyElement)
    (triangleMem : Nat → b3SoftBodyTriangle) (m : b3SoftBodyMesh) (hm : d.mesh = some m)
    (hvol : ∀ p1 p2 p3 p4, (rowMajor4 (b3SoftBody.P p1 p2 p3 p4)).det = 0 →
      b3Volume p1 p2 p3 p4 = 0)
    (i : Nat) (hi : i < m.tetrahedronCount) (hdeg : (rowMajor4 (m.tetP i)).det = 0) :
    b3SoftBody.ComputeMass b3Volume d.density m (b3SoftBody.initNodes m nodeMem) = none ∧
    b3SoftBody.b3SoftBody World b3Volume d nodeMem elementMem triangleMem = none := by
  have hc : b3SoftBody.ComputeMass b3Volume d.density m (b3SoftBody.initNodes m nodeMem)
      = none := by
    cases h : b3SoftBody.ComputeMass b3Volume d.density m (b3SoftBody.initNodes m nodeMem) with
    | none => rfl
    | some ns2 =>
      have hpos := (ComputeMass_some b3Volume d.density m _ ns2 h).1 i hi
      have hz : m.tetVolume b3Volume i = 0 := hvol _ _ _ _ hdeg
      rw [hz] at hpos
      exact absurd hpos (lt_irrefl 0)
  exact ⟨hc, ctor_none_of_ComputeMass World b3Volume d nodeMem elementMem triangleMem m hm hc⟩

/-- C10 on the flat mesh, with the signed volume for `b3Volume`: the matrix of
its only tetrahedron is singular and the constructor returns no body. -/
theorem ctor_fails_on_degenerate_witness :
    (flatDef.mesh = some flatMesh ∧
      (∀ p1 p2 p3 p4, (rowMajor4 (b3SoftBody.P p1 p2 p3 p4)).det = 0 →
        signedVolume p1 p2 p3 p4 = 0) ∧
      0 < flatMesh.tetrahedronCount ∧ (rowMajor4 (flatMesh.tetP 0)).det = 0) ∧
    b3SoftBody.ComputeMass signedVolume flatDef.density flatMesh
      (b3SoftBody.initNodes flatMesh (fun _ => sampleNode)) = none ∧
    b3SoftBody.b3SoftBody Unit signedVolume flatDef (fun _ => sampleNode)
      (fun _ => sampleElement) (fun _ => sampleTriangle) = none :=
  have hvol : ∀ p1 p2 p3 p4, (rowMajor4 (b3SoftBody.P p1 p2 p3 p4)).det = 0 →
      signedVolume p1 p2 p3 p4 = 0 := by
    intro p1 p2 p3 p4 h
    rw [det_P_eq_signedVolume] at h
    linarith
  have hdeg : (rowMajor4 (flatMesh.tetP 0)).det = 0 := by
    unfold b3SoftBodyMesh.tetP
    rw [det_P_eq_signedVolume]
    norm_num [flatMesh, signedVolume, sampleP1, sampleP2, sampleP3]
  ⟨⟨rfl, hvol, by decide, hdeg⟩,
    ctor_fails_on_degenerate Unit signedVolume flatDef (fun _ => sampleNode)
      (fun _ => sampleElement) (fun _ => sampleTriangle) flatMesh rfl hvol 0 (by decide) hdeg⟩

/-! ## Contact refresh -/

/-- Without a world `UpdateContacts` returns the body as it was. -/
theorem UpdateContacts_none (ops : b3WorldOps) (self : Bounce.b3SoftBody b3World)
    (h : self.m_world = none) : b3SoftBody.UpdateContacts ops self = self := by
  unfold b3SoftBody.UpdateContacts
  rw [h]

/-- With a world, `UpdateContacts` rewrites the node array one node at a time. -/
theorem UpdateContacts_some (ops : b3WorldOps) (self : Bounce.b3SoftBody b3World) (w : b3World)
    (h : self.m_world = some w) :
    b3SoftBody.UpdateContacts ops self =
      { self with
        m_nodes := (List.range self.m_mesh.vertexCount).foldl (fun m_nodes i =>
          Function.update m_nodes i
            (b3SoftBody.updateNodeContact ops w i (m_nodes i))) self.m_nodes } := by
  unfold b3SoftBody.UpdateContacts
  rw [h]

/-- The node `UpdateContacts` leaves at index `i` when a world is attached. -/
theorem UpdateContacts_node (ops : b3WorldOps) (self : Bounce.b3SoftBody b3World) (w : b3World)
    (h : self.m_world = some w) (i : Nat) :
    (b3SoftBody.UpdateContacts ops self).m_nodes i =
      if i < self.m_mesh.vertexCount then b3SoftBody.updateNodeContact ops w i (self.m_nodes i)
      else self.m_nodes i := by
  rw [UpdateContacts_some ops self w h]
  exact foldl_modify (fun i n => b3SoftBody.updateNodeContact ops w i n) _ _ i

/-- One pass of the node loop when no shape was kept: the contact is switched
off. -/
theorem updateNodeContact_none (ops : b3WorldOps) (w : b3World) (i : Nat) (n : b3SoftBodyNode)
    (h : (b3SoftBody.findDeepest ops w n).bestShape = none) :
    b3SoftBody.updateNodeContact ops w i n =
      { n with m_bodyContact := { n.m_bodyContact with active := false } } := by
  simp only [b3SoftBody.updateNodeContact, h]

/-- One pass of the node loop when a shape was kept: the contact is rebuilt
from the kept shape, point and normal, and the old impulses are copied when the
old contact was active. -/
theorem updateNodeContact_some (ops : b3WorldOps) (w : b3World) (i : Nat) (n : b3SoftBodyNode)
    (shape : Nat) (h : (b3SoftBody.findDeepest ops w n).bestShape = some shape) :
    b3SoftBody.updateNodeContact ops w i n =
      { n with m_bodyContact :=
        { active := true,
          n1 := i,
          s2 := shape,
          normal1 := (b3SoftBody.findDeepest ops w n).bestNormal.neg,
          localPoint1 := b3Vec3.zero,
          localPoint2 := ops.GetLocalPoint (ops.GetBody shape)
            (b3SoftBody.findDeepest ops w n).bestPoint,
          t1 := ops.b3Perp (b3SoftBody.findDeepest ops w n).bestNormal.neg,
          t2 := b3Cross (ops.b3Perp (b3SoftBody.findDeepest ops w n).bestNormal.neg)
            (b3SoftBody.findDeepest ops w n).bestNormal.neg,
          normalImpulse := if n.m_bodyContact.active = true then n.m_bodyContact.normalImpulse
            else 0,
          tangentImpulse := if n.m_bodyContact.active = true
            then n.m_bodyContact.tangentImpulse else b3Vec2.zero } } := by
  simp only [b3SoftBody.updateNodeContact, h]
  split <;> rfl

/-- One pass of the node loop writes only the contact record. -/
theorem updateNodeContact_frame (ops : b3WorldOps) (w : b3World) (i : Nat) (n : b3SoftBodyNode) :
    (b3SoftBody.updateNodeContact ops w i n).m_type = n.m_type ∧
    (b3SoftBody.updateNodeContact ops w i n).m_position = n.m_position ∧
    (b3SoftBody.updateNodeContact ops w i n).m_velocity = n.m_velocity ∧
    (b3SoftBody.updateNodeContact ops w i n).m_force = n.m_force ∧
    (b3SoftBody.updateNodeContact ops w i n).m_mass = n.m_mass ∧
    (b3SoftBody.updateNodeContact ops w i n).m_invMass = n.m_invMass ∧
    (b3SoftBody.updateNodeContact ops w i n).m_radius = n.m_radius ∧
    (b3SoftBody.updateNodeContact ops w i n).m_friction = n.m_friction ∧
    (b3SoftBody.updateNodeContact ops w i n).m_userData = n.m_userData ∧
    (b3SoftBody.updateNodeContact ops w i n).m_vertex = n.m_vertex := by
  cases h : (b3SoftBody.findDeepest ops w n).bestShape with
  | none =>
    rw [updateNodeContact_none ops w i n h]
    exact ⟨rfl, rfl, rfl, rfl, rfl, rfl, rfl, rfl, rfl, rfl⟩
  | some shape =>
    rw [updateNodeContact_some ops w i n shape h]
    exact ⟨rfl, rfl, rfl, rfl, rfl, rfl, rfl, rfl, rfl, rfl⟩

/-- The method `UpdateContacts` leaves every member but the node array as it
was. -/
theorem UpdateContacts_members (ops : b3WorldOps) (self : Bounce.b3SoftBody b3World) :
    (b3SoftBody.UpdateContacts ops self).m_mesh = self.m_mesh ∧
    (b3SoftBody.UpdateContacts ops self).m_density = self.m_density ∧
    (b3SoftBody.UpdateContacts ops self).m_E = self.m_E ∧
    (b3SoftBody.UpdateContacts ops self).m_nu = self.m_nu ∧
    (b3SoftBody.UpdateContacts ops self).m_gravity = self.m_gravity ∧
    (b3SoftBody.UpdateContacts ops self).m_world = self.m_world ∧
    (b3SoftBody.UpdateContacts ops self).m_elements = self.m_elements ∧
    (b3SoftBody.UpdateContacts ops self).m_triangles = self.m_triangles := by
  cases h : self.m_world with
  | none =>
    rw [UpdateContacts_none ops self h]
    exact ⟨rfl, rfl, rfl, rfl, rfl, h, rfl, rfl⟩
  | some w =>
    rw [UpdateContacts_some ops self w h]
    exact ⟨rfl, rfl, rfl, rfl, rfl, h, rfl, rfl⟩

/-- The method `UpdateContacts` writes no field of a node but its contact
record. -/
theorem UpdateContacts_frame (ops : b3WorldOps) (self : Bounce.b3SoftBody b3World) (i : Nat) :
    ((b3SoftBody.UpdateContacts ops self).m_nodes i).m_type = (self.m_nodes i).m_type ∧
    ((b3SoftBody.UpdateContacts ops self).m_nodes i).m_position = (self.m_nodes i).m_position ∧
    ((b3SoftBody.UpdateContacts ops self).m_nodes i).m_velocity = (self.m_nodes i).m_velocity ∧
    ((b3SoftBody.UpdateContacts ops self).m_nodes i).m_force = (self.m_nodes i).m_force ∧
    ((b3SoftBody.UpdateContacts ops self).m_nodes i).m_mass = (self.m_nodes i).m_mass ∧
    ((b3SoftBody.UpdateContacts ops self).m_nodes i).m_invMass = (self.m_nodes i).m_invMass ∧
    ((b3SoftBody.UpdateContacts ops self).m_nodes i).m_radius = (self.m_nodes i).m_radius ∧
    ((b3SoftBody.UpdateContacts ops self).m_nodes i).m_friction = (self.m_nodes i).m_friction ∧
    ((b3SoftBody.UpdateContacts ops self).m_nodes i).m_userData = (self.m_nodes i).m_userData ∧
    ((b3SoftBody.UpdateContacts ops self).m_nodes i).m_vertex = (self.m_nodes i).m_vertex := by
  cases h : self.m_world with
  | none =>
    rw [UpdateContacts_none ops self h]
    exact ⟨rfl, rfl, rfl, rfl, rfl, rfl, rfl, rfl, rfl, rfl⟩
  | some w =>
    rw [UpdateContacts_node ops self w h i]
    split
    · exact updateNodeContact_frame ops w i (self.m_nodes i)
    · exact ⟨rfl, rfl, rfl, rfl, rfl, rfl, rfl, rfl, rfl, rfl⟩

/-! ## Step -/

/-- The force-clearing loop of `Step` seen from node `i`. -/
theorem clearForces_apply (C : Nat → b3SoftBodyNode) (k i : Nat) :
    (List.range k).foldl (fun m_nodes i =>
        Function.update m_nodes i { m_nodes i with m_force := b3Vec3.zero }) C i
      = if i < k then { C i with m_force := b3Vec3.zero } else C i :=
  foldl_modify (fun _ n => { n with m_force := b3Vec3.zero }) k C i

/-- For `dt ≤ 0`, `Step` is the contact refresh followed by the force-clearing
loop, with no solver invocation. -/
theorem Step_of_nonpos (ops : b3WorldOps) (solver : SolverFn) (self : Bounce.b3SoftBody b3World)
    (dt : ℚ) (vi pi : Nat) (h : dt ≤ 0) :
    b3SoftBody.Step ops solver self dt vi pi =
      ({ b3SoftBody.UpdateContacts ops self with
          m_nodes := (List.range (b3SoftBody.UpdateContacts ops self).m_mesh.vertexCount).foldl
            (fun m_nodes i =>
              Function.update m_nodes i { m_nodes i with m_force := b3Vec3.zero })
            (b3SoftBody.UpdateContacts ops self).m_nodes }, []) := by
  have hn : ¬ dt > 0 := not_lt.mpr h
  simp only [b3SoftBody.Step, if_neg hn]

/-- For `dt > 0`, `Step` is the contact refresh, one solver invocation on the
refreshed body, and the force-clearing loop on what the solver left. -/
theorem Step_of_pos (ops : b3WorldOps) (solver : SolverFn) (self : Bounce.b3SoftBody b3World)
    (dt : ℚ) (vi pi : Nat) (h : 0 < dt) :
    b3SoftBody.Step ops solver self dt vi pi =
      ({ b3SoftBody.UpdateContacts ops self with
          m_nodes := (List.range (b3SoftBody.UpdateContacts ops self).m_mesh.vertexCount).foldl
            (fun m_nodes i =>
              Function.update m_nodes i { m_nodes i with m_force := b3Vec3.zero })
            (solver
              { mesh := (b3SoftBody.UpdateContacts ops self).m_mesh,
                nodes := (b3SoftBody.UpdateContacts ops self).m_nodes,
                elements := (b3SoftBody.UpdateContacts ops self).m_elements,
                dt := dt, gravity := (b3SoftBody.UpdateContacts ops self).m_gravity,
                velocityIterations := vi, positionIterations := pi }).1,
          m_elements := (solver
              { mesh := (b3SoftBody.UpdateContacts ops self).m_mesh,
                nodes := (b3SoftBody.UpdateContacts ops self).m_nodes,
                elements := (b3SoftBody.UpdateContacts ops self).m_elements,
                dt := dt, gravity := (b3SoftBody.UpdateContacts ops self).m_gravity,
                velocityIterations := vi, positionIterations := pi }).2 },
        [{ mesh := (b3SoftBody.UpdateContacts ops self).m_mesh,
           nodes := (b3SoftBody.UpdateContacts ops self).m_nodes,
           elements := (b3SoftBody.UpdateContacts ops self).m_elements,
           dt := dt, gravity := (b3SoftBody.UpdateContacts ops self).m_gravity,
           velocityIterations := vi, positionIterations := pi }]) := by
  have hp : dt > 0 := h
  simp only [b3SoftBody.Step, b3SoftBody.Solve, if_pos hp]

/-- C11. For `dt ≤ 0` and any iteration counts `Step` makes no solver
invocation, and every node keeps its type, position, velocity, mass and inverse
mass (and its radius, friction, user data and vertex index); the mesh, the
material constants, the gravity, the world, the elements and the triangles are
unchanged too.  Only contact records and forces can differ, and without a world
the contact records are unchanged as well. -/
theorem Step_nonpositive_dt (ops : b3WorldOps) (solver : SolverFn)
    (self : Bounce.b3SoftBody b3World) (dt : ℚ) (vi pi : Nat) (h : dt ≤ 0) :
    (b3SoftBody.Step ops solver self dt vi pi).2 = [] ∧
    (∀ i,
      ((b3SoftBody.Step ops solver self dt vi pi).1.m_nodes i).m_type = (self.m_nodes i).m_type ∧
      ((b3SoftBody.Step ops solver self dt vi pi).1.m_nodes i).m_position
        = (self.m_nodes i).m_position ∧
      ((b3SoftBody.Step ops solver self dt vi pi).1.m_nodes i).m_velocity
        = (self.m_nodes i).m_velocity ∧
      ((b3SoftBody.Step ops solver self dt vi pi).1.m_nodes i).m_mass = (self.m_nodes i).m_mass ∧
      ((b3SoftBody.Step ops solver self dt vi pi).1.m_nodes i).m_invMass
        = (self.m_nodes i).m_invMass ∧
      ((b3SoftBody.Step ops solver self dt vi pi).1.m_nodes i).m_radius
        = (self.m_nodes i).m_radius ∧
      ((b3SoftBody.Step ops solver self dt vi pi).1.m_nodes i).m_friction
        = (self.m_nodes i).m_friction ∧
      ((b3SoftBody.Step ops solver self dt vi pi).1.m_nodes i).m_userData
        = (self.m_nodes i).m_userData ∧
      ((b3SoftBody.Step ops solver self dt vi pi).1.m_nodes i).m_vertex
        = (self.m_nodes i).m_vertex) ∧
    ((b3SoftBody.Step ops solver self dt vi pi).1.m_mesh = self.m_mesh ∧
      (b3SoftBody.Step ops solver self dt vi pi).1.m_density = self.m_density ∧
      (b3SoftBody.Step ops solver self dt vi pi).1.m_E = self.m_E ∧
      (b3SoftBody.Step ops solver self dt vi pi).1.m_nu = self.m_nu ∧
      (b3SoftBody.Step ops solver self dt vi pi).1.m_gravity = self.m_gravity ∧
      (b3SoftBody.Step ops solver self dt vi pi).1.m_world = self.m_world ∧
      (b3SoftBody.Step ops solver self dt vi pi).1.m_elements = self.m_elements ∧
      (b3SoftBody.Step ops solver self dt vi pi).1.m_triangles = self.m_triangles) ∧
    (self.m_world = none → ∀ i,
      ((b3SoftBody.Step ops solver self dt vi pi).1.m_nodes i).m_bodyContact
        = (self.m_nodes i).m_bodyContact) := by
  rw [Step_of_nonpos ops solver self dt vi pi h]
  refine ⟨rfl, fun i => ?_, UpdateContacts_members ops self, fun hw i => ?_⟩
  · dsimp only
    rw [clearForces_apply]
    obtain ⟨h1, h2, h3, _, h5, h6, h7, h8, h9, h10⟩ := UpdateContacts_frame ops self i
    split
    · exact ⟨h1, h2, h3, h5, h6, h7, h8, h9, h10⟩
    · exact ⟨h1, h2, h3, h5, h6, h7, h8, h9, h10⟩
  · dsimp only
    rw [clearForces_apply, UpdateContacts_none ops self hw]
    split <;> rfl

/-- C11 on the sample body with `dt = 0`: no solver invocation, and node 2 keeps
its position while its force is cleared. -/
theorem Step_nonpositive_dt_witness :
    ((0 : ℚ) ≤ 0) ∧
    (b3SoftBody.Step sampleOps sampleSolver sampleBody 0 8 2).2 = [] ∧
    ((b3SoftBody.Step sampleOps sampleSolver sampleBody 0 8 2).1.m_nodes 2).m_position
      = (sampleBody.m_nodes 2).m_position ∧
    ((b3SoftBody.Step sampleOps sampleSolver sampleBody 0 8 2).1.m_nodes 2).m_velocity
      = (sampleBody.m_nodes 2).m_velocity :=
  have key := Step_nonpositive_dt sampleOps sampleSolver sampleBody 0 8 2 (le_refl 0)
  ⟨le_refl 0, key.1, (key.2.1 2).2.1, (key.2.1 2).2.2.1⟩

/-- C12. `Step` runs refresh contacts, solve, clear forces in that order: for
`dt > 0` the solver is invoked exactly once, on the mesh, the elements and the
node array as `UpdateContacts` left it, with the body's gravity and the given
iteration counts, and the step ends with the node array the solver wrote, forces
cleared, and the element array the solver wrote; and for every `dt` and any
solver, after `Step` the force of every node below `vertexCount` is zero. -/
theorem Step_order (ops : b3WorldOps) (solver : SolverFn) (self : Bounce.b3SoftBody b3World)
    (dt : ℚ) (vi pi : Nat) :
    (0 < dt →
      (b3SoftBody.Step ops solver self dt vi pi).2 =
        [{ mesh := self.m_mesh,
           nodes := (b3SoftBody.UpdateContacts ops self).m_nodes,
           elements := self.m_elements,
           dt := dt, gravity := self.m_gravity,
           velocityIterations := vi, positionIterations := pi }] ∧
      (∀ i, (b3SoftBody.Step ops solver self dt vi pi).1.m_nodes i =
        if i < self.m_mesh.vertexCount then
          { (solver
              { mesh := self.m_mesh,
                nodes := (b3SoftBody.UpdateContacts ops self).m_nodes,
                elements := self.m_elements,
                dt := dt, gravity := self.m_gravity,
                velocityIterations := vi, positionIterations := pi }).1 i with
            m_force := b3Vec3.zero }
        else
          (solver
            { mesh := self.m_mesh,
              nodes := (b3SoftBody.UpdateContacts ops self).m_nodes,
              elements := self.m_elements,
              dt := dt, gravity := self.m_gravity,
              velocityIterations := vi, positionIterations := pi }).1 i) ∧
      (b3SoftBody.Step ops solver self dt vi pi).1.m_elements =
        (solver
          { mesh := self.m_mesh,
            nodes := (b3SoftBody.UpdateContacts ops self).m_nodes,
            elements := self.m_elements,
            dt := dt, gravity := self.m_gravity,
            velocityIterations := vi, positionIterations := pi }).2) ∧
    (∀ i, i < self.m_mesh.vertexCount →
      ((b3SoftBody.Step ops solver self dt vi pi).1.m_nodes i).m_force = b3Vec3.zero) := by
  obtain ⟨hmesh, _, _, _, hgrav, _, hel, _⟩ := UpdateContacts_members ops self
  have hpos : 0 < dt →
      b3SoftBody.Step ops solver self dt vi pi =
        ({ b3SoftBody.UpdateContacts ops self with
            m_nodes := (List.range self.m_mesh.vertexCount).foldl
              (fun m_nodes i =>
                Function.update m_nodes i { m_nodes i with m_force := b3Vec3.zero })
              (solver
                { mesh := self.m_mesh,
                  nodes := (b3SoftBody.UpdateContacts ops self).m_nodes,
                  elements := self.m_elements,
                  dt := dt, gravity := self.m_gravity,
                  velocityIterations := vi, positionIterations := pi }).1,
            m_elements := (solver
                { mesh := self.m_mesh,
                  nodes := (b3SoftBody.UpdateContacts ops self).m_nodes,
                  elements := self.m_elements,
                  dt := dt, gravity := self.m_gravity,
                  velocityIterations := vi, positionIterations := pi }).2 },
          [{ mesh := self.m_mesh,
             nodes := (b3SoftBody.UpdateContacts ops self).m_nodes,
             elements := self.m_elements,
             dt := dt, gravity := self.m_gravity,
             velocityIterations := vi, positionIterations := pi }]) := by
    intro h
    rw [Step_of_pos ops solver self dt vi pi h, hmesh, hgrav, hel]
  refine ⟨fun h => ?_, fun i hi => ?_⟩
  · rw [hpos h]
    refine ⟨rfl, fun i => ?_, rfl⟩
    dsimp only
    rw [clearForces_apply]
  · by_cases h : 0 < dt
    · rw [hpos h]
      dsimp only
      rw [clearForces_apply, if_pos hi]
    · rw [Step_of_nonpos ops solver self dt vi pi (not_lt.mp h), hmesh]
      dsimp only
      rw [clearForces_apply, if_pos hi]

/-- C12 on the sample body with `dt = 1`: one solver invocation, made on the
refreshed node array (node 1, static, has its contact switched off in it), and
the force the sample solver leaves in node 0 is cleared. -/
theorem Step_order_witness :
    ((0 : ℚ) < 1) ∧
    (b3SoftBody.Step sampleOps sampleSolver sampleBody 1 8 2).2 =
      [{ mesh := sampleBody.m_mesh,
         nodes := (b3SoftBody.UpdateContacts sampleOps sampleBody).m_nodes,
         elements := sampleBody.m_elements,
         dt := 1, gravity := sampleBody.m_gravity,
         velocityIterations := 8, positionIterations := 2 }] ∧
    ((b3SoftBody.Step sampleOps sampleSolver sampleBody 1 8 2).1.m_nodes 0).m_force
      = b3Vec3.zero :=
  have key := Step_order sampleOps sampleSolver sampleBody 1 8 2
  ⟨by norm_num, (key.1 (by norm_num)).1, key.2 0 (by decide)⟩

/-- C16. Without a world `UpdateContacts` is a no-op: it returns the body
unchanged, so every node and every field of its contact record is as before;
and a body fresh from the constructor has no world. -/
theorem UpdateContacts_no_world (ops : b3WorldOps) (self : Bounce.b3SoftBody b3World)
    (h : self.m_world = none) :
    b3SoftBody.UpdateContacts ops self = self ∧
    (∀ i, (b3SoftBody.UpdateContacts ops self).m_nodes i = self.m_nodes i) ∧
    (∀ i, ((b3SoftBody.UpdateContacts ops self).m_nodes i).m_bodyContact
      = (self.m_nodes i).m_bodyContact) := by
  rw [UpdateContacts_none ops self h]
  exact ⟨rfl, fun _ => rfl, fun _ => rfl⟩

/-- A body the constructor returns has no world attached. -/
theorem ctor_no_world (World : Type) (b3Volume : VolumeFn) (d : b3SoftBodyDef)
    (nodeMem : Nat → b3SoftBodyNode) (elementMem : Nat → b3SoftBodyElement)
    (triangleMem : Nat → b3SoftBodyTriangle) (body : Bounce.b3SoftBody World)
    (h : b3SoftBody.b3SoftBody World b3Volume d nodeMem elementMem triangleMem = some body) :
    body.m_world = none ∧
    body.m_triangles = b3SoftBody.initTriangles body.m_mesh triangleMem := by
  rw [ctor_unfold] at h
  by_cases h1 : d.mesh.isSome
  · rw [B3_ASSERT_bind_pos _ h1] at h
    by_cases h2 : d.density > 0
    · rw [B3_ASSERT_bind_pos _ h2] at h
      cases hm : d.mesh with
      | none => rw [hm] at h; simp at h
      | some m =>
        rw [hm, Option.some_bind] at h
        cases hc : b3SoftBody.ComputeMass b3Volume d.density m (b3SoftBody.initNodes m nodeMem) with
        | none => rw [hc] at h; simp at h
        | some ns =>
          rw [hc, Option.some_bind] at h
          obtain ⟨els, hels⟩ := elementLoop_total b3Volume d.E d.nu m elementMem
          rw [hels, Option.some_bind] at h
          obtain rfl := Option.some.inj h
          exact ⟨rfl, rfl⟩
    · rw [B3_ASSERT_bind_neg _ h2] at h; simp at h
  · rw [B3_ASSERT_bind_neg _ h1] at h; simp at h

/-- C16 on a body fresh from the constructor on the sample parameters: it has no
world, and `UpdateContacts` returns it unchanged. -/
theorem UpdateContacts_no_world_witness :
    ∃ body : Bounce.b3SoftBody b3World,
      b3SoftBody.b3SoftBody b3World signedVolume sampleDef (fun _ => sampleNode)
        (fun _ => sampleElement) (fun _ => sampleTriangle) = some body ∧
      body.m_world = none ∧
      (b3SoftBody.UpdateContacts sampleOps body = body ∧
      (∀ i, (b3SoftBody.UpdateContacts sampleOps body).m_nodes i = body.m_nodes i) ∧
      (∀ i, ((b3SoftBody.UpdateContacts sampleOps body).m_nodes i).m_bodyContact
        = (body.m_nodes i).m_bodyContact)) := by
  obtain ⟨body, h⟩ := sampleDef_ctor b3World (fun _ => sampleNode) (fun _ => sampleElement)
    (fun _ => sampleTriangle)
  have hw := (ctor_no_world b3World signedVolume sampleDef _ _ _ body h).1
  exact ⟨body, h, hw, UpdateContacts_no_world sampleOps body hw⟩

/-! ## The search for the deepest penetration -/

/-- The body and shape loops visit the candidates in order. -/
theorem bodies_foldl_eq (ops : b3WorldOps) (n : b3SoftBodyNode) (bodies : List b3Body)
    (acc : b3BestPenetration) :
    bodies.foldl (fun best body =>
        body.m_shapeList.foldl (fun best shape =>
          best.keep shape
            (ops.TestSphere shape { vertex := n.m_position, radius := n.m_radius } body.m_xf))
          best) acc
      = (bodies.flatMap fun body => body.m_shapeList.map fun shape => (shape, body.m_xf)).foldl
          (fun best c => best.keep c.1 (ops.test n c)) acc := by
  induction bodies generalizing acc with
  | nil => rfl
  | cons b bs ih =>
    rw [List.foldl_cons, ih, List.flatMap_cons, List.foldl_append, List.foldl_map]
    rfl

/-- A node that is not dynamic keeps no shape. -/
theorem findDeepest_static (ops : b3WorldOps) (w : b3World) (n : b3SoftBodyNode)
    (h : n.m_type ≠ b3SoftBodyNodeType.e_dynamicSoftBodyNode) :
    b3SoftBody.findDeepest ops w n = b3BestPenetration.start := by
  unfold b3SoftBody.findDeepest
  simp only [if_pos h]
  generalize w.m_bodyList = bodies
  induction bodies with
  | nil => rfl
  | cons b bs ih => rw [List.foldl_cons]; exact ih

/-- For a dynamic node the search is a scan of the candidates in order. -/
theorem findDeepest_dynamic (ops : b3WorldOps) (w : b3World) (n : b3SoftBodyNode)
    (h : n.m_type = b3SoftBodyNodeType.e_dynamicSoftBodyNode) :
    b3SoftBody.findDeepest ops w n =
      w.candidates.foldl (fun best c => best.keep c.1 (ops.test n c))
        b3BestPenetration.start := by
  unfold b3SoftBody.findDeepest b3World.candidates
  have hn : ¬ n.m_type ≠ b3SoftBodyNodeType.e_dynamicSoftBodyNode := fun hne => hne h
  simp only [if_neg hn]
  exact bodies_foldl_eq ops n w.m_bodyList _

/-- What a scan of the candidates keeps: nothing, when no report has negative
separation; otherwise the first candidate, in visiting order, whose reported
separation is the least of all. -/
theorem keep_scan (ops : b3WorldOps) (n : b3SoftBodyNode) (L : List (Nat × b3Transform)) :
    (L.foldl (fun best c => best.keep c.1 (ops.test n c)) b3BestPenetration.start
        = b3BestPenetration.start ∧
      ∀ c, c ∈ L → ∀ out, ops.test n c = some out → 0 ≤ out.separation) ∨
    ∃ pre c post out,
      L = pre ++ c :: post ∧ ops.test n c = some out ∧ out.separation < 0 ∧
      L.foldl (fun best c => best.keep c.1 (ops.test n c)) b3BestPenetration.start
        = { bestShape := some c.1, bestSeparation := out.separation,
            bestPoint := out.point, bestNormal := out.normal } ∧
      (∀ d, d ∈ pre → ∀ o, ops.test n d = some o → out.separation < o.separation) ∧
      (∀ d, d ∈ post → ∀ o, ops.test n d = some o → out.separation ≤ o.separation) := by
  induction L using List.reverseRecOn with
  | nil =>
    left
    exact ⟨rfl, fun c hc => absurd hc (List.not_mem_nil c)⟩
  | append_singleton L a ih =>
    rw [List.foldl_append, List.foldl_cons, List.foldl_nil]
    rcases ih with ⟨hst, hall⟩ | ⟨pre, c, post, out, hL, hc, hneg, hst, hpre, hpost⟩
    · rw [hst]
      cases ha : ops.test n a with
      | none =>
        left
        refine ⟨rfl, fun d hd o ho => ?_⟩
        rcases List.mem_append.mp hd with hd | hd
        · exact hall d hd o ho
        · rw [List.mem_singleton.mp hd, ha] at ho
          exact absurd ho (by simp)
      | some oa =>
        by_cases hlt : oa.separation < 0
        · right
          refine ⟨L, a, [], oa, rfl, ha, hlt, ?_, fun d hd o ho => ?_,
            fun d hd => absurd hd (List.not_mem_nil d)⟩
          · simp only [b3BestPenetration.keep, b3BestPenetration.start, if_pos hlt]
          · exact lt_of_lt_of_le hlt (hall d hd o ho)
        · left
          refine ⟨?_, fun d hd o ho => ?_⟩
          · simp only [b3BestPenetration.keep, b3BestPenetration.start, if_neg hlt]
          · rcases List.mem_append.mp hd with hd | hd
            · exact hall d hd o ho
            · rw [List.mem_singleton.mp hd, ha] at ho
              obtain rfl := Option.some.inj ho
              exact not_lt.mp hlt
    · right
      rw [hst]
      cases ha : ops.test n a with
      | none =>
        refine ⟨pre, c, post ++ [a], out, by rw [hL, List.append_assoc, List.cons_append], hc,
          hneg, rfl, hpre, fun d hd o ho => ?_⟩
        rcases List.mem_append.mp hd with hd | hd
        · exact hpost d hd o ho
        · rw [List.mem_singleton.mp hd, ha] at ho
          exact absurd ho (by simp)
      | some oa =>
        by_cases hlt : oa.separation < out.separation
        · refine ⟨L, a, [], oa, rfl, ha, lt_trans hlt hneg, ?_, fun d hd o ho => ?_,
            fun d hd => absurd hd (List.not_mem_nil d)⟩
          · simp only [b3BestPenetration.keep, if_pos hlt]
          · rw [hL] at hd
            rcases List.mem_append.mp hd with hd | hd
            · exact lt_trans hlt (hpre d hd o ho)
            · rcases List.mem_cons.mp hd with hd | hd
              · rw [hd, hc] at ho
                obtain rfl := Option.some.inj ho
                exact hlt
              · exact lt_of_lt_of_le hlt (hpost d hd o ho)
        · refine ⟨pre, c, post ++ [a], out, by rw [hL, List.append_assoc, List.cons_append],
            hc, hneg, ?_, hpre, fun d hd o ho => ?_⟩
          · simp only [b3BestPenetration.keep, if_neg hlt]
          · rcases List.mem_append.mp hd with hd | hd
            · exact hpost d hd o ho
            · rw [List.mem_singleton.mp hd, ha] at ho
              obtain rfl := Option.some.inj ho
              exact not_lt.mp hlt

/-- The search for a dynamic node: either nothing penetrates and no shape is
kept, or the kept shape is the first candidate of least reported separation,
which is negative. -/
theorem findDeepest_spec (ops : b3WorldOps) (w : b3World) (n : b3SoftBodyNode)
    (hdyn : n.m_type = b3SoftBodyNodeType.e_dynamicSoftBodyNode) :
    (¬ w.Penetrates ops n ∧ (b3SoftBody.findDeepest ops w n).bestShape = none) ∨
    (w.Penetrates ops n ∧ ∃ pre c post out,
      w.candidates = pre ++ c :: post ∧ ops.test n c = some out ∧ out.separation < 0 ∧
      b3SoftBody.findDeepest ops w n
        = { bestShape := some c.1, bestSeparation := out.separation,
            bestPoint := out.point, bestNormal := out.normal } ∧
      (∀ d, d ∈ pre → ∀ o, ops.test n d = some o → out.separation < o.separation) ∧
      (∀ d, d ∈ post → ∀ o, ops.test n d = some o → out.separation ≤ o.separation)) := by
  rw [findDeepest_dynamic ops w n hdyn]
  rcases keep_scan ops n w.candidates with ⟨hst, hall⟩ | ⟨pre, c, post, out, hL, hc, hneg, hst, h1, h2⟩
  · left
    refine ⟨?_, by rw [hst]; rfl⟩
    rintro ⟨c, hc, out, ho, hneg⟩
    exact absurd hneg (not_lt.mpr (hall c hc out ho))
  · right
    refine ⟨⟨c, ?_, out, hc, hneg⟩, pre, c, post, out, hL, hc, hneg, hst, h1, h2⟩
    rw [hL]
    exact List.mem_append_right pre (List.mem_cons_self c post)

/-- C13. With a world attached, `UpdateContacts` keeps for a dynamic node the
single deepest penetration: when some visited shape reports negative
separation, the rebuilt contact is active and refers to the first shape, in
body and shape traversal order, whose reported separation is the least of all
(it is negative), with `normal1` the negated reported normal, `localPoint1`
zero and `localPoint2` the image of the reported point in the frame of the
shape's body; when no shape reports negative separation no contact is
produced. -/
theorem UpdateContacts_deepest (ops : b3WorldOps) (self : Bounce.b3SoftBody b3World)
    (w : b3World) (hw : self.m_world = some w) (i : Nat) (hi : i < self.m_mesh.vertexCount)
    (hdyn : (self.m_nodes i).m_type = b3SoftBodyNodeType.e_dynamicSoftBodyNode) :
    (w.Penetrates ops (self.m_nodes i) →
      ∃ pre c post out,
        w.candidates = pre ++ c :: post ∧
        ops.test (self.m_nodes i) c = some out ∧ out.separation < 0 ∧
        (∀ d, d ∈ pre → ∀ o, ops.test (self.m_nodes i) d = some o →
          out.separation < o.separation) ∧
        (∀ d, d ∈ post → ∀ o, ops.test (self.m_nodes i) d = some o →
          out.separation ≤ o.separation) ∧
        ((b3SoftBody.UpdateContacts ops self).m_nodes i).m_bodyContact.active = true ∧
        ((b3SoftBody.UpdateContacts ops self).m_nodes i).m_bodyContact.s2 = c.1 ∧
        ((b3SoftBody.UpdateContacts ops self).m_nodes i).m_bodyContact.normal1
          = out.normal.neg ∧
        ((b3SoftBody.UpdateContacts ops self).m_nodes i).m_bodyContact.localPoint1
          = b3Vec3.zero ∧
        ((b3SoftBody.UpdateContacts ops self).m_nodes i).m_bodyContact.localPoint2
          = ops.GetLocalPoint (ops.GetBody c.1) out.point ∧
        ((b3SoftBody.UpdateContacts ops self).m_nodes i).m_bodyContact.n1 = i) ∧
    (¬ w.Penetrates ops (self.m_nodes i) →
      ((b3SoftBody.UpdateContacts ops self).m_nodes i).m_bodyContact.active = false) := by
  rw [UpdateContacts_node ops self w hw i, if_pos hi]
  rcases findDeepest_spec ops w (self.m_nodes i) hdyn with
    ⟨hno, hnone⟩ | ⟨hpen, pre, c, post, out, hL, hc, hneg, hbest, h1, h2⟩
  · refine ⟨fun h => absurd h hno, fun _ => ?_⟩
    rw [updateNodeContact_none ops w i _ hnone]
  · refine ⟨fun _ => ⟨pre, c, post, out, hL, hc, hneg, h1, h2, ?_⟩, fun h => absurd hpen h⟩
    have hshape : (b3SoftBody.findDeepest ops w (self.m_nodes i)).bestShape = some c.1 := by
      rw [hbest]
    rw [updateNodeContact_some ops w i _ c.1 hshape, hbest]
    exact ⟨rfl, rfl, rfl, rfl, rfl, rfl⟩

/-- C14. With a world attached, after `UpdateContacts` the contact of a node
below `vertexCount` is active exactly when the node is dynamic and some visited
shape reports negative separation against its proxy sphere; so a dynamic node
nothing penetrates has its contact switched off, and so has every static
node. -/
theorem UpdateContacts_active_iff (ops : b3WorldOps) (self : Bounce.b3SoftBody b3World)
    (w : b3World) (hw : self.m_world = some w) (i : Nat) (hi : i < self.m_mesh.vertexCount) :
    (((b3SoftBody.UpdateContacts ops self).m_nodes i).m_bodyContact.active = true ↔
      (self.m_nodes i).m_type = b3SoftBodyNodeType.e_dynamicSoftBodyNode ∧
        w.Penetrates ops (self.m_nodes i)) ∧
    ((self.m_nodes i).m_type = b3SoftBodyNodeType.e_dynamicSoftBodyNode →
      ¬ w.Penetrates ops (self.m_nodes i) →
      ((b3SoftBody.UpdateContacts ops self).m_nodes i).m_bodyContact.active = false) ∧
    ((self.m_nodes i).m_type = b3SoftBodyNodeType.e_staticSoftBodyNode →
      ((b3SoftBody.UpdateContacts ops self).m_nodes i).m_bodyContact.active = false) := by
  have key : ((b3SoftBody.UpdateContacts ops self).m_nodes i).m_bodyContact.active = true ↔
      (self.m_nodes i).m_type = b3SoftBodyNodeType.e_dynamicSoftBodyNode ∧
        w.Penetrates ops (self.m_nodes i) := by
    rw [UpdateContacts_node ops self w hw i, if_pos hi]
    by_cases hdyn : (self.m_nodes i).m_type = b3SoftBodyNodeType.e_dynamicSoftBodyNode
    · rcases findDeepest_spec ops w (self.m_nodes i) hdyn with
        ⟨hno, hnone⟩ | ⟨hpen, pre, c, post, out, hL, hc, hneg, hbest, h1, h2⟩
      · rw [updateNodeContact_none ops w i _ hnone]
        exact ⟨fun h => absurd h (by simp), fun h => absurd h.2 hno⟩
      · have hshape : (b3SoftBody.findDeepest ops w (self.m_nodes i)).bestShape = some c.1 := by
          rw [hbest]
        rw [updateNodeContact_some ops w i _ c.1 hshape]
        exact ⟨fun _ => ⟨hdyn, hpen⟩, fun _ => rfl⟩
    · have hnone : (b3SoftBody.findDeepest ops w (self.m_nodes i)).bestShape = none := by
        rw [findDeepest_static ops w _ hdyn]; rfl
      rw [updateNodeContact_none ops w i _ hnone]
      exact ⟨fun h => absurd h (by simp), fun h => absurd h.1 hdyn⟩
  refine ⟨key, fun hdyn hno => ?_, fun hst => ?_⟩
  · cases hact : ((b3SoftBody.UpdateContacts ops self).m_nodes i).m_bodyContact.active with
    | false => rfl
    | true => exact absurd (key.mp hact).2 hno
  · cases hact : ((b3SoftBody.UpdateContacts ops self).m_nodes i).m_bodyContact.active with
    | false => rfl
    | true =>
      have := (key.mp hact).1
      rw [hst] at this
      exact absurd this (by decide)

/-- C15. Warm start: when `UpdateContacts` rebuilds the contact of a dynamic
node for which a penetrating shape is found, the normal and tangent impulses
after the refresh are those before it if the contact was active, and zero if it
was not. -/
theorem UpdateContacts_warm_start (ops : b3WorldOps) (self : Bounce.b3SoftBody b3World)
    (w : b3World) (hw : self.m_world = some w) (i : Nat) (hi : i < self.m_mesh.vertexCount)
    (hdyn : (self.m_nodes i).m_type = b3SoftBodyNodeType.e_dynamicSoftBodyNode)
    (hpen : w.Penetrates ops (self.m_nodes i)) :
    ((self.m_nodes i).m_bodyContact.active = true →
      ((b3SoftBody.UpdateContacts ops self).m_nodes i).m_bodyContact.normalImpulse
        = (self.m_nodes i).m_bodyContact.normalImpulse ∧
      ((b3SoftBody.UpdateContacts ops self).m_nodes i).m_bodyContact.tangentImpulse
        = (self.m_nodes i).m_bodyContact.tangentImpulse) ∧
    ((self.m_nodes i).m_bodyContact.active = false →
      ((b3SoftBody.UpdateContacts ops self).m_nodes i).m_bodyContact.normalImpulse = 0 ∧
      ((b3SoftBody.UpdateContacts ops self).m_nodes i).m_bodyContact.tangentImpulse
        = b3Vec2.zero) := by
  rw [UpdateContacts_node ops self w hw i, if_pos hi]
  rcases findDeepest_spec ops w (self.m_nodes i) hdyn with
    ⟨hno, _⟩ | ⟨_, pre, c, post, out, hL, hc, hneg, hbest, h1, h2⟩
  · exact absurd hpen hno
  · have hshape : (b3SoftBody.findDeepest ops w (self.m_nodes i)).bestShape = some c.1 := by
      rw [hbest]
    rw [updateNodeContact_some ops w i _ c.1 hshape]
    refine ⟨fun ha => ?_, fun ha => ?_⟩
    · simp only [ha, if_true, and_self]
    · simp only [ha, Bool.false_eq_true, if_false, and_self]

/-- In the sample world shape 10 penetrates the proxy sphere of every node. -/
theorem sampleWorld_penetrates (n : b3SoftBodyNode) : sampleWorld.Penetrates sampleOps n :=
  ⟨(10, sampleXf), by simp [b3World.candidates, sampleWorld],
    ⟨-1, n.m_position, ⟨0, 1, 0⟩⟩, by simp [b3WorldOps.test, sampleOps], by norm_num⟩

/-- Node 0 of the sample body is dynamic. -/
theorem sampleBody_node0_dynamic :
    (sampleBody.m_nodes 0).m_type = b3SoftBodyNodeType.e_dynamicSoftBodyNode := rfl

/-- Node 1 of the sample body is static. -/
theorem sampleBody_node1_static :
    (sampleBody.m_nodes 1).m_type = b3SoftBodyNodeType.e_staticSoftBodyNode := rfl

/-- C13 on node 0 of the sample body: shapes 10, 11, 12 report separations
`-1`, `-2`, `-2`, and the contact refers to shape 11, the first of the two
deepest. -/
theorem UpdateContacts_deepest_witness :
    (sampleBody.m_world = some sampleWorld ∧ 0 < sampleBody.m_mesh.vertexCount ∧
      (sampleBody.m_nodes 0).m_type = b3SoftBodyNodeType.e_dynamicSoftBodyNode ∧
      sampleWorld.Penetrates sampleOps (sampleBody.m_nodes 0)) ∧
    (∃ pre c post out,
        sampleWorld.candidates = pre ++ c :: post ∧
        sampleOps.test (sampleBody.m_nodes 0) c = some out ∧ out.separation < 0 ∧
        (∀ d, d ∈ pre → ∀ o, sampleOps.test (sampleBody.m_nodes 0) d = some o →
          out.separation < o.separation) ∧
        (∀ d, d ∈ post → ∀ o, sampleOps.test (sampleBody.m_nodes 0) d = some o →
          out.separation ≤ o.separation) ∧
        ((b3SoftBody.UpdateContacts sampleOps sampleBody).m_nodes 0).m_bodyContact.active
          = true ∧
        ((b3SoftBody.UpdateContacts sampleOps sampleBody).m_nodes 0).m_bodyContact.s2 = c.1 ∧
        ((b3SoftBody.UpdateContacts sampleOps sampleBody).m_nodes 0).m_bodyContact.normal1
          = out.normal.neg ∧
        ((b3SoftBody.UpdateContacts sampleOps sampleBody).m_nodes 0).m_bodyContact.localPoint1
          = b3Vec3.zero ∧
        ((b3SoftBody.UpdateContacts sampleOps sampleBody).m_nodes 0).m_bodyContact.localPoint2
          = sampleOps.GetLocalPoint (sampleOps.GetBody c.1) out.point ∧
        ((b3SoftBody.UpdateContacts sampleOps sampleBody).m_nodes 0).m_bodyContact.n1 = 0) ∧
    ((b3SoftBody.UpdateContacts sampleOps sampleBody).m_nodes 0).m_bodyContact.s2 = 11 ∧
    ((b3SoftBody.UpdateContacts sampleOps sampleBody).m_nodes 0).m_bodyContact.normal1
      = ⟨0, 0, -1⟩ :=
  ⟨⟨rfl, by decide, sampleBody_node0_dynamic, sampleWorld_penetrates _⟩,
    (UpdateContacts_deepest sampleOps sampleBody sampleWorld rfl 0 (by decide)
      sampleBody_node0_dynamic).1 (sampleWorld_penetrates _),
    by decide!, by decide!⟩

/-- C14 on the sample body: node 0, dynamic and penetrated, ends with an active
contact; node 1, static, ends with its contact switched off although it was
active before. -/
theorem UpdateContacts_active_iff_witness :
    (sampleBody.m_world = some sampleWorld ∧ 1 < sampleBody.m_mesh.vertexCount) ∧
    ((b3SoftBody.UpdateContacts sampleOps sampleBody).m_nodes 0).m_bodyContact.active = true ∧
    (sampleBody.m_nodes 1).m_bodyContact.active = true ∧
    ((b3SoftBody.UpdateContacts sampleOps sampleBody).m_nodes 1).m_bodyContact.active = false :=
  ⟨⟨rfl, by decide⟩,
    (UpdateContacts_active_iff sampleOps sampleBody sampleWorld rfl 0 (by decide)).1.mpr
      ⟨sampleBody_node0_dynamic, sampleWorld_penetrates _⟩,
    rfl,
    (UpdateContacts_active_iff sampleOps sampleBody sampleWorld rfl 1 (by decide)).2.2
      sampleBody_node1_static⟩

/-- C15 on node 0 of the sample body, whose contact is active with normal
impulse 3 and tangent impulse `(1, 2)` before the refresh: both survive it. -/
theorem UpdateContacts_warm_start_witness :
    (sampleBody.m_world = some sampleWorld ∧ 0 < sampleBody.m_mesh.vertexCount ∧
      (sampleBody.m_nodes 0).m_type = b3SoftBodyNodeType.e_dynamicSoftBodyNode ∧
      sampleWorld.Penetrates sampleOps (sampleBody.m_nodes 0) ∧
      (sampleBody.m_nodes 0).m_bodyContact.active = true) ∧
    ((b3SoftBody.UpdateContacts sampleOps sampleBody).m_nodes 0).m_bodyContact.normalImpulse
      = 3 ∧
    ((b3SoftBody.UpdateContacts sampleOps sampleBody).m_nodes 0).m_bodyContact.tangentImpulse
      = ⟨1, 2⟩ :=
  ⟨⟨rfl, by decide, sampleBody_node0_dynamic, sampleWorld_penetrates _, rfl⟩,
    (UpdateContacts_warm_start sampleOps sampleBody sampleWorld rfl 0 (by decide)
      sampleBody_node0_dynamic (sampleWorld_penetrates _)).1 rfl⟩

/-! ## Ray cast -/

/-- One more pass of the loop of `RayCastSingle`. -/
theorem rayCastScan_succ (b3RayCast : RayCastFn) (self : Bounce.b3SoftBody b3World)
    (p1 p2 : b3Vec3) (n : Nat) (start : b3RayCastScan) :
    b3SoftBody.rayCastScan b3RayCast self { p1 := p1, p2 := p2, maxFraction := 1 } (n + 1) start
      = (b3SoftBody.rayCastScan b3RayCast self { p1 := p1, p2 := p2, maxFraction := 1 } n
          start).keep n (self.m_triangles n) (b3SoftBody.triangleHit b3RayCast self p1 p2 n) := by
  unfold b3SoftBody.rayCastScan
  rw [List.range_succ, List.foldl_append]
  rfl

/-- What the loop of `RayCastSingle` holds after `n` triangles, when every hit
fraction is below the starting fraction `M`: its starting locals if no triangle
was hit, and otherwise the first triangle of least hit fraction. -/
theorem rayCastScan_spec (b3RayCast : RayCastFn) (self : Bounce.b3SoftBody b3World)
    (p1 p2 : b3Vec3) (M : ℚ) (n : Nat)
    (hfrac : ∀ k, k < n → ∀ o, b3SoftBody.triangleHit b3RayCast self p1 p2 k = some o →
      o.fraction < M) :
    (b3SoftBody.rayCastScan b3RayCast self { p1 := p1, p2 := p2, maxFraction := 1 } n
        { triangle := u32Max, tetrahedron := u32Max,
          output0 := { fraction := M, normal := ⟨0, 0, 0⟩ } }
      = { triangle := u32Max, tetrahedron := u32Max,
          output0 := { fraction := M, normal := ⟨0, 0, 0⟩ } } ∧
      ∀ k, k < n → b3SoftBody.triangleHit b3RayCast self p1 p2 k = none) ∨
    ∃ k o, k < n ∧ b3SoftBody.triangleHit b3RayCast self p1 p2 k = some o ∧
      b3SoftBody.rayCastScan b3RayCast self { p1 := p1, p2 := p2, maxFraction := 1 } n
        { triangle := u32Max, tetrahedron := u32Max,
          output0 := { fraction := M, normal := ⟨0, 0, 0⟩ } }
      = { triangle := k, tetrahedron := (self.m_triangles k).tetrahedron,
          output0 := { fraction := o.fraction, normal := o.normal } } ∧
      (∀ j, j < n → ∀ o2, b3SoftBody.triangleHit b3RayCast self p1 p2 j = some o2 →
        o.fraction ≤ o2.fraction) ∧
      (∀ j, j < k → ∀ o2, b3SoftBody.triangleHit b3RayCast self p1 p2 j = some o2 →
        o.fraction < o2.fraction) := by
  induction n with
  | zero =>
    left
    exact ⟨rfl, fun k hk => absurd hk (Nat.not_lt_zero k)⟩
  | succ n ih =>
    rw [rayCastScan_succ]
    have hfrac2 : ∀ k, k < n → ∀ o, b3SoftBody.triangleHit b3RayCast self p1 p2 k = some o →
        o.fraction < M := fun k hk => hfrac k (Nat.lt_succ_of_lt hk)
    rcases ih hfrac2 with ⟨hst, hall⟩ | ⟨k, o, hk, hhit, hst, hmin, hfirst⟩
    · rw [hst]
      cases hn : b3SoftBody.triangleHit b3RayCast self p1 p2 n with
      | none =>
        left
        refine ⟨rfl, fun j hj => ?_⟩
        by_cases hjn : j = n
        · rw [hjn]; exact hn
        · exact hall j (by omega)
      | some oa =>
        right
        have hlt : oa.fraction < M := hfrac n (Nat.lt_succ_self n) oa hn
        refine ⟨n, oa, Nat.lt_succ_self n, hn, ?_, fun j hj o2 ho2 => ?_, fun j hj o2 ho2 => ?_⟩
        · simp only [b3RayCastScan.keep, if_pos hlt]
        · by_cases hjn : j = n
          · rw [hjn, hn] at ho2
            obtain rfl := Option.some.inj ho2
            exact le_refl _
          · rw [hall j (by omega)] at ho2
            exact absurd ho2 (by simp)
        · rw [hall j hj] at ho2
          exact absurd ho2 (by simp)
    · right
      rw [hst]
      cases hn : b3SoftBody.triangleHit b3RayCast self p1 p2 n with
      | none =>
        refine ⟨k, o, Nat.lt_succ_of_lt hk, hhit, rfl, fun j hj o2 ho2 => ?_, hfirst⟩
        by_cases hjn : j = n
        · rw [hjn, hn] at ho2
          exact absurd ho2 (by simp)
        · exact hmin j (by omega) o2 ho2
      | some oa =>
        by_cases hlt : oa.fraction < o.fraction
        · refine ⟨n, oa, Nat.lt_succ_self n, hn, ?_, fun j hj o2 ho2 => ?_,
            fun j hj o2 ho2 => ?_⟩
          · simp only [b3RayCastScan.keep, if_pos hlt]
          · by_cases hjn : j = n
            · rw [hjn, hn] at ho2
              obtain rfl := Option.some.inj ho2
              exact le_refl _
            · exact le_of_lt (lt_of_lt_of_le hlt (hmin j (by omega) o2 ho2))
          · exact lt_of_lt_of_le hlt (hmin j hj o2 ho2)
        · refine ⟨k, o, Nat.lt_succ_of_lt hk, hhit, ?_, fun j hj o2 ho2 => ?_, hfirst⟩
          · simp only [b3RayCastScan.keep, if_neg hlt]
          · by_cases hjn : j = n
            · rw [hjn, hn] at ho2
              obtain rfl := Option.some.inj ho2
              exact not_lt.mp hlt
            · exact hmin j (by omega) o2 ho2

/-- C17. `RayCastSingle` returns the nearest hit or no hit.  For a body whose
`4 * tetrahedronCount` fits in `u32` and whose triangles name tetrahedra of the
mesh (as the constructor builds them), a `b3RayCast` whose hit fractions are at
most 1 and a `B3_MAX_FLOAT` above 1: the flag is true exactly when `b3RayCast`
hits one of the `4 * tetrahedronCount` triangles at the current node
positions; when true the output holds the least hit fraction and the
tetrahedron, corners and normal of the lowest-index triangle attaining it; when
false the output record is the one passed in. -/
theorem RayCastSingle_nearest (b3RayCast : RayCastFn) (B3_MAX_FLOAT : ℚ)
    (self : Bounce.b3SoftBody b3World) (output : b3SoftBodyRayCastSingleOutput) (p1 p2 : b3Vec3)
    (hcount : 4 * self.m_mesh.tetrahedronCount < 4294967296)
    (htri : ∀ k, k < 4 * self.m_mesh.tetrahedronCount →
      (self.m_triangles k).tetrahedron < self.m_mesh.tetrahedronCount)
    (hfrac : ∀ k, k < 4 * self.m_mesh.tetrahedronCount → ∀ o,
      b3SoftBody.triangleHit b3RayCast self p1 p2 k = some o → o.fraction ≤ 1)
    (hmax : 1 < B3_MAX_FLOAT) :
    ((b3SoftBody.RayCastSingle b3RayCast B3_MAX_FLOAT self output p1 p2).1 = true ↔
      ∃ k, k < 4 * self.m_mesh.tetrahedronCount ∧
        ∃ o, b3SoftBody.triangleHit b3RayCast self p1 p2 k = some o) ∧
    ((b3SoftBody.RayCastSingle b3RayCast B3_MAX_FLOAT self output p1 p2).1 = true →
      ∃ k o, k < 4 * self.m_mesh.tetrahedronCount ∧
        b3SoftBody.triangleHit b3RayCast self p1 p2 k = some o ∧
        (∀ j, j < 4 * self.m_mesh.tetrahedronCount → ∀ o2,
          b3SoftBody.triangleHit b3RayCast self p1 p2 j = some o2 → o.fraction ≤ o2.fraction) ∧
        (∀ j, j < k → ∀ o2,
          b3SoftBody.triangleHit b3RayCast self p1 p2 j = some o2 → o.fraction < o2.fraction) ∧
        (b3SoftBody.RayCastSingle b3RayCast B3_MAX_FLOAT self output p1 p2).2 =
          { tetrahedron := (self.m_triangles k).tetrahedron,
            v1 := (self.m_triangles k).v1,
            v2 := (self.m_triangles k).v2,
            v3 := (self.m_triangles k).v3,
            fraction := o.fraction,
            normal := o.normal }) ∧
    ((b3SoftBody.RayCastSingle b3RayCast B3_MAX_FLOAT self output p1 p2).1 = false →
      (b3SoftBody.RayCastSingle b3RayCast B3_MAX_FLOAT self output p1 p2).2 = output) := by
  have hmod : (4 * self.m_mesh.tetrahedronCount) % 4294967296 = 4 * self.m_mesh.tetrahedronCount :=
    Nat.mod_eq_of_lt hcount
  have hfrac2 : ∀ k, k < 4 * self.m_mesh.tetrahedronCount → ∀ o,
      b3SoftBody.triangleHit b3RayCast self p1 p2 k = some o → o.fraction < B3_MAX_FLOAT :=
    fun k hk o ho => lt_of_le_of_lt (hfrac k hk o ho) hmax
  unfold b3SoftBody.RayCastSingle
  simp only [hmod]
  rcases rayCastScan_spec b3RayCast self p1 p2 B3_MAX_FLOAT (4 * self.m_mesh.tetrahedronCount)
    hfrac2 with ⟨hst, hall⟩ | ⟨k, o, hk, hhit, hst, hmin, hfirst⟩
  · rw [hst]
    simp only [ne_eq, not_true_eq_false, if_false]
    refine ⟨⟨fun h => absurd h (by simp), ?_⟩, fun h => absurd h (by simp), fun _ => trivial⟩
    rintro ⟨k, hk, o, ho⟩
    rw [hall k hk] at ho
    exact absurd ho (by simp)
  · rw [hst]
    have hne : (self.m_triangles k).tetrahedron ≠ u32Max := by
      have := htri k hk
      unfold u32Max
      omega
    simp only [ne_eq, hne, not_false_eq_true, if_true]
    exact ⟨⟨fun _ => ⟨k, hk, o, hhit⟩, fun _ => trivial⟩,
      fun _ => ⟨k, o, hk, hhit, hmin, hfirst, rfl⟩, fun h => absurd h (by simp)⟩

/-! ## The triangle list -/

/-- One more pass of the triangle loop: four stores at `4 T .. 4 T + 3`. -/
theorem initTriangles_succ (tets : Nat → b3SoftBodyMeshTetrahedron) (verts : Nat → b3Vec3)
    (N T : Nat) (mem : Nat → b3SoftBodyTriangle) :
    b3SoftBody.initTriangles ⟨N, verts, T + 1, tets⟩ mem =
      Function.update (Function.update (Function.update (Function.update
        (b3SoftBody.initTriangles ⟨N, verts, T, tets⟩ mem)
        (4 * T + 0) ⟨(tets T).v1, (tets T).v2, (tets T).v3, T⟩)
        (4 * T + 1) ⟨(tets T).v1, (tets T).v3, (tets T).v4, T⟩)
        (4 * T + 2) ⟨(tets T).v1, (tets T).v4, (tets T).v2, T⟩)
        (4 * T + 3) ⟨(tets T).v2, (tets T).v4, (tets T).v3, T⟩ := by
  unfold b3SoftBody.initTriangles
  simp only [List.range_succ, List.foldl_append, List.foldl_cons, List.foldl_nil]

/-- The triangle loop leaves the slots from `4 * tetrahedronCount` on as they
were. -/
theorem initTriangles_beyond (tets : Nat → b3SoftBodyMeshTetrahedron) (verts : Nat → b3Vec3)
    (N T : Nat) (mem : Nat → b3SoftBodyTriangle) (x : Nat) (hx : 4 * T ≤ x) :
    b3SoftBody.initTriangles ⟨N, verts, T, tets⟩ mem x = mem x := by
  induction T with
  | zero => rfl
  | succ T ih =>
    rw [initTriangles_succ, Function.update_noteq (by omega), Function.update_noteq (by omega),
      Function.update_noteq (by omega), Function.update_noteq (by omega)]
    exact ih (by omega)

/-- The four triangles the loop derives from tetrahedron `i`. -/
theorem initTriangles_apply (tets : Nat → b3SoftBodyMeshTetrahedron) (verts : Nat → b3Vec3)
    (N T : Nat) (mem : Nat → b3SoftBodyTriangle) (i : Nat) (hi : i < T) :
    b3SoftBody.initTriangles ⟨N, verts, T, tets⟩ mem (4 * i + 0)
      = ⟨(tets i).v1, (tets i).v2, (tets i).v3, i⟩ ∧
    b3SoftBody.initTriangles ⟨N, verts, T, tets⟩ mem (4 * i + 1)
      = ⟨(tets i).v1, (tets i).v3, (tets i).v4, i⟩ ∧
    b3SoftBody.initTriangles ⟨N, verts, T, tets⟩ mem (4 * i + 2)
      = ⟨(tets i).v1, (tets i).v4, (tets i).v2, i⟩ ∧
    b3SoftBody.initTriangles ⟨N, verts, T, tets⟩ mem (4 * i + 3)
      = ⟨(tets i).v2, (tets i).v4, (tets i).v3, i⟩ := by
  induction T with
  | zero => omega
  | succ T ih =>
    rw [initTriangles_succ]
    by_cases hiT : i = T
    · subst hiT
      refine ⟨?_, ?_, ?_, ?_⟩
      · rw [Function.update_noteq (by omega), Function.update_noteq (by omega),
          Function.update_noteq (by omega), Function.update_same]
      · rw [Function.update_noteq (by omega), Function.update_noteq (by omega),
          Function.update_same]
      · rw [Function.update_noteq (by omega), Function.update_same]
      · rw [Function.update_same]
    · have hlt : i < T := by omega
      obtain ⟨h0, h1, h2, h3⟩ := ih hlt
      refine ⟨?_, ?_, ?_, ?_⟩
      · rw [Function.update_noteq (by omega), Function.update_noteq (by omega),
          Function.update_noteq (by omega), Function.update_noteq (by omega)]
        exact h0
      · rw [Function.update_noteq (by omega), Function.update_noteq (by omega),
          Function.update_noteq (by omega), Function.update_noteq (by omega)]
        exact h1
      · rw [Function.update_noteq (by omega), Function.update_noteq (by omega),
          Function.update_noteq (by omega), Function.update_noteq (by omega)]
        exact h2
      · rw [Function.update_noteq (by omega), Function.update_noteq (by omega),
          Function.update_noteq (by omega), Function.update_noteq (by omega)]
        exact h3

/-- Every triangle the loop derives names a tetrahedron of the mesh. -/
theorem initTriangles_tetrahedron (m : b3SoftBodyMesh) (mem : Nat → b3SoftBodyTriangle)
    (k : Nat) (hk : k < 4 * m.tetrahedronCount) :
    (b3SoftBody.initTriangles m mem k).tetrahedron = k / 4 ∧
    (b3SoftBody.initTriangles m mem k).tetrahedron < m.tetrahedronCount := by
  have hi : k / 4 < m.tetrahedronCount := by omega
  obtain ⟨h0, h1, h2, h3⟩ := initTriangles_apply m.tetrahedrons m.vertices m.vertexCount
    m.tetrahedronCount mem (k / 4) hi
  have hk4 : k = 4 * (k / 4) + k % 4 := by omega
  have hr : k % 4 < 4 := Nat.mod_lt k (by norm_num)
  have aux : ∀ r, r < 4 →
      (b3SoftBody.initTriangles m mem (4 * (k / 4) + r)).tetrahedron = k / 4 := by
    intro r hr4
    interval_cases r
    · exact congrArg b3SoftBodyTriangle.tetrahedron h0
    · exact congrArg b3SoftBodyTriangle.tetrahedron h1
    · exact congrArg b3SoftBodyTriangle.tetrahedron h2
    · exact congrArg b3SoftBodyTriangle.tetrahedron h3
  have key : (b3SoftBody.initTriangles m mem k).tetrahedron = k / 4 := by
    have h := aux (k % 4) hr
    rwa [← hk4] at h
  exact ⟨key, by rw [key]; exact hi⟩

/-- Each triangle takes three different slots, and each slot is left out by
exactly one of the four triangles. -/
theorem triangleSlot_facts :
    (∀ k : Fin 4, Function.Injective (triangleSlot k)) ∧
    (∀ s : Fin 4, ∃! k : Fin 4, ∀ j : Fin 3, triangleSlot k j ≠ s) := by
  refine ⟨?_, ?_⟩
  · intro k a b
    revert k a b
    decide
  · intro s
    fin_cases s
    · exact ⟨3, by decide, by decide⟩
    · exact ⟨1, by decide, by decide⟩
    · exact ⟨2, by decide, by decide⟩
    · exact ⟨0, by decide, by decide⟩

/-- C19. The constructor derives exactly four triangles per tetrahedron: for
tetrahedron `i` with vertices `(v1, v2, v3, v4)`, triangles `4 i .. 4 i + 3` are
`(v1, v2, v3)`, `(v1, v3, v4)`, `(v1, v4, v2)`, `(v2, v4, v3)`, each owned by
tetrahedron `i`; each triangle takes three different slots of the tetrahedron,
and each slot is left out by exactly one of the four (so, when the four vertex
indices are distinct, each vertex is omitted by exactly one triangle). -/
theorem ctor_triangles (World : Type) (b3Volume : VolumeFn) (d : b3SoftBodyDef)
    (nodeMem : Nat → b3SoftBodyNode) (elementMem : Nat → b3SoftBodyElement)
    (triangleMem : Nat → b3SoftBodyTriangle) (body : Bounce.b3SoftBody World)
    (h : b3SoftBody.b3SoftBody World b3Volume d nodeMem elementMem triangleMem = some body)
    (i : Nat) (hi : i < body.m_mesh.tetrahedronCount) :
    body.m_triangles (4 * i + 0) =
      ⟨(body.m_mesh.tetrahedrons i).v1, (body.m_mesh.tetrahedrons i).v2,
        (body.m_mesh.tetrahedrons i).v3, i⟩ ∧
    body.m_triangles (4 * i + 1) =
      ⟨(body.m_mesh.tetrahedrons i).v1, (body.m_mesh.tetrahedrons i).v3,
        (body.m_mesh.tetrahedrons i).v4, i⟩ ∧
    body.m_triangles (4 * i + 2) =
      ⟨(body.m_mesh.tetrahedrons i).v1, (body.m_mesh.tetrahedrons i).v4,
        (body.m_mesh.tetrahedrons i).v2, i⟩ ∧
    body.m_triangles (4 * i + 3) =
      ⟨(body.m_mesh.tetrahedrons i).v2, (body.m_mesh.tetrahedrons i).v4,
        (body.m_mesh.tetrahedrons i).v3, i⟩ ∧
    (∀ (k : Fin 4) (j : Fin 3),
      (body.m_triangles (4 * i + k)).corner j
        = (body.m_mesh.tetrahedrons i).vertex (triangleSlot k j)) ∧
    (∀ k : Fin 4, Function.Injective (triangleSlot k)) ∧
    (∀ s : Fin 4, ∃! k : Fin 4, ∀ j : Fin 3, triangleSlot k j ≠ s) ∧
    (Function.Injective (body.m_mesh.tetrahedrons i).vertex →
      ∀ s : Fin 4, ∃! k : Fin 4, ∀ j : Fin 3,
        (body.m_triangles (4 * i + k)).corner j ≠ (body.m_mesh.tetrahedrons i).vertex s) := by
  have htri := (ctor_no_world World b3Volume d nodeMem elementMem triangleMem body h).2
  obtain ⟨h0, h1, h2, h3⟩ := initTriangles_apply body.m_mesh.tetrahedrons body.m_mesh.vertices
    body.m_mesh.vertexCount body.m_mesh.tetrahedronCount triangleMem i hi
  have e0 : body.m_triangles (4 * i + 0) =
      ⟨(body.m_mesh.tetrahedrons i).v1, (body.m_mesh.tetrahedrons i).v2,
        (body.m_mesh.tetrahedrons i).v3, i⟩ := by rw [htri]; exact h0
  have e1 : body.m_triangles (4 * i + 1) =
      ⟨(body.m_mesh.tetrahedrons i).v1, (body.m_mesh.tetrahedrons i).v3,
        (body.m_mesh.tetrahedrons i).v4, i⟩ := by rw [htri]; exact h1
  have e2 : body.m_triangles (4 * i + 2) =
      ⟨(body.m_mesh.tetrahedrons i).v1, (body.m_mesh.tetrahedrons i).v4,
        (body.m_mesh.tetrahedrons i).v2, i⟩ := by rw [htri]; exact h2
  have e3 : body.m_triangles (4 * i + 3) =
      ⟨(body.m_mesh.tetrahedrons i).v2, (body.m_mesh.tetrahedrons i).v4,
        (body.m_mesh.tetrahedrons i).v3, i⟩ := by rw [htri]; exact h3
  have hcorner : ∀ (k : Fin 4) (j : Fin 3),
      (body.m_triangles (4 * i + k)).corner j
        = (body.m_mesh.tetrahedrons i).vertex (triangleSlot k j) := by
    intro k j
    fin_cases k
    · show (body.m_triangles (4 * i + 0)).corner j = _
      rw [e0]; fin_cases j <;> rfl
    · show (body.m_triangles (4 * i + 1)).corner j = _
      rw [e1]; fin_cases j <;> rfl
    · show (body.m_triangles (4 * i + 2)).corner j = _
      rw [e2]; fin_cases j <;> rfl
    · show (body.m_triangles (4 * i + 3)).corner j = _
      rw [e3]; fin_cases j <;> rfl
  refine ⟨e0, e1, e2, e3, hcorner, triangleSlot_facts.1, triangleSlot_facts.2, fun hinj s => ?_⟩
  obtain ⟨k, hk, huniq⟩ := triangleSlot_facts.2 s
  refine ⟨k, fun j => ?_, fun k2 hk2 => huniq k2 (fun j => ?_)⟩
  · rw [hcorner]
    exact fun he => hk j (hinj he)
  · intro he
    have := hk2 j
    rw [hcorner, he] at this
    exact this rfl

/-- C19 on the body the constructor returns for the sample parameters: the four
triangles of tetrahedron 1, whose vertices are `(1, 2, 3, 4)`. -/
theorem ctor_triangles_witness :
    ∃ body : Bounce.b3SoftBody b3World,
      b3SoftBody.b3SoftBody b3World signedVolume sampleDef (fun _ => sampleNode)
        (fun _ => sampleElement) (fun _ => sampleTriangle) = some body ∧
      1 < body.m_mesh.tetrahedronCount ∧
      body.m_triangles 4 = ⟨1, 2, 3, 1⟩ ∧ body.m_triangles 5 = ⟨1, 3, 4, 1⟩ ∧
      body.m_triangles 6 = ⟨1, 4, 2, 1⟩ ∧ body.m_triangles 7 = ⟨2, 4, 3, 1⟩ := by
  obtain ⟨body, h⟩ := sampleDef_ctor b3World (fun _ => sampleNode) (fun _ => sampleElement)
    (fun _ => sampleTriangle)
  have hm := (ctor_some b3World signedVolume sampleDef _ _ _ body h).1
  have hm2 : body.m_mesh = sampleMesh := (Option.some.inj hm).symm
  have hlt : 1 < body.m_mesh.tetrahedronCount := by rw [hm2]; decide
  have key := ctor_triangles b3World signedVolume sampleDef _ _ _ body h 1 hlt
  rw [hm2] at key
  exact ⟨body, h, hlt, key.1, key.2.1, key.2.2.1, key.2.2.2.1⟩

/-- The hit fractions of the sample ray cast are at most 1. -/
theorem sampleRayCast_le_one (input : b3RayCastInput) (v1 v2 v3 : b3Vec3) (o : b3RayCastOutput)
    (h : sampleRayCast input v1 v2 v3 = some o) : o.fraction ≤ 1 := by
  unfold sampleRayCast at h
  split at h
  · obtain rfl := Option.some.inj h
    dsimp only
    split <;> norm_num
  · exact absurd h (by simp)

/-- C17 on the sample body with the sample ray cast, which hits triangles 3 to
6 at fractions `1/4`, `1/2`, `1/4`, `1/2`: the flag is true and the output is
triangle 3 of tetrahedron 0, corners `(1, 3, 2)`, at fraction `1/4`. -/
theorem RayCastSingle_nearest_witness :
    (4 * sampleBody.m_mesh.tetrahedronCount < 4294967296 ∧
      (∀ k, k < 4 * sampleBody.m_mesh.tetrahedronCount →
        (sampleBody.m_triangles k).tetrahedron < sampleBody.m_mesh.tetrahedronCount) ∧
      (∀ k, k < 4 * sampleBody.m_mesh.tetrahedronCount → ∀ o,
        b3SoftBody.triangleHit sampleRayCast sampleBody ⟨0, 0, 0⟩ ⟨1, 1, 1⟩ k = some o →
          o.fraction ≤ 1) ∧
      (1 : ℚ) < 1000) ∧
    (b3SoftBody.RayCastSingle sampleRayCast 1000 sampleBody sampleRayOutput ⟨0, 0, 0⟩
      ⟨1, 1, 1⟩).1 = true ∧
    (∃ k o, k < 4 * sampleBody.m_mesh.tetrahedronCount ∧
      b3SoftBody.triangleHit sampleRayCast sampleBody ⟨0, 0, 0⟩ ⟨1, 1, 1⟩ k = some o ∧
      (∀ j, j < 4 * sampleBody.m_mesh.tetrahedronCount → ∀ o2,
        b3SoftBody.triangleHit sampleRayCast sampleBody ⟨0, 0, 0⟩ ⟨1, 1, 1⟩ j = some o2 →
          o.fraction ≤ o2.fraction) ∧
      (∀ j, j < k → ∀ o2,
        b3SoftBody.triangleHit sampleRayCast sampleBody ⟨0, 0, 0⟩ ⟨1, 1, 1⟩ j = some o2 →
          o.fraction < o2.fraction) ∧
      (b3SoftBody.RayCastSingle sampleRayCast 1000 sampleBody sampleRayOutput ⟨0, 0, 0⟩
        ⟨1, 1, 1⟩).2 =
        { tetrahedron := (sampleBody.m_triangles k).tetrahedron,
          v1 := (sampleBody.m_triangles k).v1,
          v2 := (sampleBody.m_triangles k).v2,
          v3 := (sampleBody.m_triangles k).v3,
          fraction := o.fraction,
          normal := o.normal }) ∧
    (b3SoftBody.RayCastSingle sampleRayCast 1000 sampleBody sampleRayOutput ⟨0, 0, 0⟩
      ⟨1, 1, 1⟩).2 = ⟨0, 1, 3, 2, 1 / 4, sampleP3⟩ := by
  have hcount : 4 * sampleBody.m_mesh.tetrahedronCount < 4294967296 := by decide
  have htri : ∀ k, k < 4 * sampleBody.m_mesh.tetrahedronCount →
      (sampleBody.m_triangles k).tetrahedron < sampleBody.m_mesh.tetrahedronCount :=
    fun k hk => (initTriangles_tetrahedron sampleMesh (fun _ => sampleTriangle) k hk).2
  have hfrac : ∀ k, k < 4 * sampleBody.m_mesh.tetrahedronCount → ∀ o,
      b3SoftBody.triangleHit sampleRayCast sampleBody ⟨0, 0, 0⟩ ⟨1, 1, 1⟩ k = some o →
        o.fraction ≤ 1 :=
    fun k _ o ho => sampleRayCast_le_one _ _ _ _ o ho
  have hmax : (1 : ℚ) < 1000 := by norm_num
  have key := RayCastSingle_nearest sampleRayCast 1000 sampleBody sampleRayOutput ⟨0, 0, 0⟩
    ⟨1, 1, 1⟩ hcount htri hfrac hmax
  have hflag : (b3SoftBody.RayCastSingle sampleRayCast 1000 sampleBody sampleRayOutput ⟨0, 0, 0⟩
      ⟨1, 1, 1⟩).1 = true := by decide!
  exact ⟨⟨hcount, htri, hfrac, hmax⟩, hflag, key.2.1 hflag, by decide!⟩

/-! ## Kinetic energy -/

/-- A summing loop started at zero computes the sum. -/
theorem foldl_add_eq_sum (a : Nat → ℚ) (n : Nat) :
    (List.range n).foldl (fun E i => E + a i) 0 = ∑ i in Finset.range n, a i := by
  induction n with
  | zero => rfl
  | succ n ih =>
    rw [List.range_succ, List.foldl_append, ih, Finset.sum_range_succ]
    rfl

/-- The method `GetEnergy` as one half of a sum over the nodes. -/
theorem GetEnergy_eq_sum (self : Bounce.b3SoftBody b3World) :
    b3SoftBody.GetEnergy self =
      1 / 2 * ∑ i in Finset.range self.m_mesh.vertexCount,
        (self.m_nodes i).m_mass * b3Dot (self.m_nodes i).m_velocity (self.m_nodes i).m_velocity := by
  unfold b3SoftBody.GetEnergy
  exact congrArg (fun s => 1 / 2 * s)
    (foldl_add_eq_sum (fun i =>
      (self.m_nodes i).m_mass * b3Dot (self.m_nodes i).m_velocity (self.m_nodes i).m_velocity) _)

/-- The squared length of a vector is not negative. -/
theorem b3Dot_self_nonneg (v : b3Vec3) : 0 ≤ b3Dot v v := by
  unfold b3Dot
  nlinarith [mul_self_nonneg v.x, mul_self_nonneg v.y, mul_self_nonneg v.z]

/-- The squared length of a vector is zero only for the zero vector. -/
theorem b3Dot_self_eq_zero (v : b3Vec3) : b3Dot v v = 0 ↔ v = b3Vec3.zero := by
  constructor
  · intro h
    unfold b3Dot at h
    have hx : v.x = 0 := by nlinarith [mul_self_nonneg v.x, mul_self_nonneg v.y, mul_self_nonneg v.z]
    have hy : v.y = 0 := by nlinarith [mul_self_nonneg v.x, mul_self_nonneg v.y, mul_self_nonneg v.z]
    have hz : v.z = 0 := by nlinarith [mul_self_nonneg v.x, mul_self_nonneg v.y, mul_self_nonneg v.z]
    obtain ⟨x, y, z⟩ := v
    simp only at hx hy hz
    subst hx hy hz
    rfl
  · intro h
    rw [h]
    simp [b3Dot, b3Vec3.zero]

/-- For a body whose node masses are all positive, `GetEnergy` is not negative,
and it is zero exactly when the velocity of every node below `vertexCount` is
zero. -/
theorem GetEnergy_zero_iff_all_at_rest (self : Bounce.b3SoftBody b3World)
    (hmass : ∀ i, i < self.m_mesh.vertexCount → 0 < (self.m_nodes i).m_mass) :
    0 ≤ b3SoftBody.GetEnergy self ∧
    (b3SoftBody.GetEnergy self = 0 ↔
      ∀ i, i < self.m_mesh.vertexCount → (self.m_nodes i).m_velocity = b3Vec3.zero) := by
  have hterm : ∀ i, i ∈ Finset.range self.m_mesh.vertexCount →
      0 ≤ (self.m_nodes i).m_mass * b3Dot (self.m_nodes i).m_velocity (self.m_nodes i).m_velocity :=
    fun i hi => mul_nonneg (le_of_lt (hmass i (Finset.mem_range.mp hi))) (b3Dot_self_nonneg _)
  have hzero : b3SoftBody.GetEnergy self = 0 ↔
      ∀ i, i < self.m_mesh.vertexCount → (self.m_nodes i).m_velocity = b3Vec3.zero := by
    rw [GetEnergy_eq_sum]
    constructor
    · intro h i hi
      have hs : ∑ i in Finset.range self.m_mesh.vertexCount,
          (self.m_nodes i).m_mass * b3Dot (self.m_nodes i).m_velocity (self.m_nodes i).m_velocity
            = 0 := by linarith
      have hi0 := (Finset.sum_eq_zero_iff_of_nonneg hterm).mp hs i (Finset.mem_range.mpr hi)
      rcases mul_eq_zero.mp hi0 with hm | hd
      · exact absurd hm (ne_of_gt (hmass i hi))
      · exact (b3Dot_self_eq_zero _).mp hd
    · intro h
      rw [Finset.sum_eq_zero (fun i hi => by
        rw [h i (Finset.mem_range.mp hi)]; simp [b3Dot, b3Vec3.zero])]
      norm_num
  refine ⟨?_, hzero⟩
  rw [GetEnergy_eq_sum]
  exact mul_nonneg (by norm_num) (Finset.sum_nonneg hterm)

/-- C18. For a body state in which all node masses are positive, `GetEnergy`,
one half of the sum over the nodes of `m_mass * (m_velocity . m_velocity)`, is
not negative; and when the static nodes have zero velocity, as the node
invariant requires, it is zero if and only if all dynamic node velocities are
zero. -/
theorem GetEnergy_zero_iff_dynamic_at_rest (self : Bounce.b3SoftBody b3World)
    (hmass : ∀ i, i < self.m_mesh.vertexCount → 0 < (self.m_nodes i).m_mass) :
    b3SoftBody.GetEnergy self =
      1 / 2 * ∑ i in Finset.range self.m_mesh.vertexCount,
        (self.m_nodes i).m_mass * b3Dot (self.m_nodes i).m_velocity (self.m_nodes i).m_velocity ∧
    0 ≤ b3SoftBody.GetEnergy self ∧
    ((∀ i, i < self.m_mesh.vertexCount →
        (self.m_nodes i).m_type = b3SoftBodyNodeType.e_staticSoftBodyNode →
        (self.m_nodes i).m_velocity = b3Vec3.zero) →
      (b3SoftBody.GetEnergy self = 0 ↔
        ∀ i, i < self.m_mesh.vertexCount →
          (self.m_nodes i).m_type = b3SoftBodyNodeType.e_dynamicSoftBodyNode →
          (self.m_nodes i).m_velocity = b3Vec3.zero)) := by
  obtain ⟨hnn, hzero⟩ := GetEnergy_zero_iff_all_at_rest self hmass
  refine ⟨GetEnergy_eq_sum self, hnn, fun hstatic => ?_⟩
  rw [hzero]
  constructor
  · exact fun h i hi _ => h i hi
  · intro h i hi
    cases ht : (self.m_nodes i).m_type with
    | e_staticSoftBodyNode => exact hstatic i hi ht
    | e_dynamicSoftBodyNode => exact h i hi ht

/-- The node masses of the body `restBody` are positive. -/
theorem restBody_mass_pos :
    ∀ i, i < restBody.m_mesh.vertexCount → 0 < (restBody.m_nodes i).m_mass := by
  intro i _
  show 0 < (if i = 1 then _ else if i = 0 then _ else _ : b3SoftBodyNode).m_mass
  split
  · exact one_pos
  · split <;> exact one_pos

/-- The static nodes of the body `restBody` are at rest. -/
theorem restBody_static_at_rest :
    ∀ i, i < restBody.m_mesh.vertexCount →
      (restBody.m_nodes i).m_type = b3SoftBodyNodeType.e_staticSoftBodyNode →
      (restBody.m_nodes i).m_velocity = b3Vec3.zero := by
  intro i _
  show (if i = 1 then _ else if i = 0 then _ else _ : b3SoftBodyNode).m_type = _ →
    (if i = 1 then _ else if i = 0 then _ else _ : b3SoftBodyNode).m_velocity = _
  split
  · intro _; rfl
  · split
    · intro h; exact b3SoftBodyNodeType.noConfusion h
    · intro _; rfl

/-- C18 on the body `restBody`: its masses are positive and its static node 1
is at rest; its energy `1/2` is not negative, and it is not zero, the dynamic
node 0 having velocity `(1, 0, 0)`. -/
theorem GetEnergy_zero_iff_dynamic_at_rest_witness :
    (∀ i, i < restBody.m_mesh.vertexCount → 0 < (restBody.m_nodes i).m_mass) ∧
    (∀ i, i < restBody.m_mesh.vertexCount →
      (restBody.m_nodes i).m_type = b3SoftBodyNodeType.e_staticSoftBodyNode →
      (restBody.m_nodes i).m_velocity = b3Vec3.zero) ∧
    0 ≤ b3SoftBody.GetEnergy restBody ∧
    (b3SoftBody.GetEnergy restBody = 0 ↔
      ∀ i, i < restBody.m_mesh.vertexCount →
        (restBody.m_nodes i).m_type = b3SoftBodyNodeType.e_dynamicSoftBodyNode →
        (restBody.m_nodes i).m_velocity = b3Vec3.zero) ∧
    b3SoftBody.GetEnergy restBody = 1 / 2 ∧
    (restBody.m_nodes 0).m_type = b3SoftBodyNodeType.e_dynamicSoftBodyNode ∧
    (restBody.m_nodes 0).m_velocity = ⟨1, 0, 0⟩ :=
  have key := GetEnergy_zero_iff_dynamic_at_rest restBody restBody_mass_pos
  ⟨restBody_mass_pos, restBody_static_at_rest, key.2.1, key.2.2 restBody_static_at_rest,
    by decide!, rfl, rfl⟩

/-! ## Mass types of the spring cloth -/

/-- The method `SetType` written out by cases. -/
theorem SetType_unfold (self : b3SpringCloth) (i : Nat) (type : b3MassType) :
    self.SetType i type =
      if i < self.m_massCount then
        if self.m_types i = type then some self
        else if type = b3MassType.e_staticMass then
          some { self with
            m_types := Function.update self.m_types i type,
            m_f := Function.update self.m_f i b3Vec3.zero,
            m_v := Function.update self.m_v i b3Vec3.zero,
            m_y := Function.update self.m_y i b3Vec3.zero,
            m_contacts := Function.update self.m_contacts i
              { self.m_contacts i with lockOnSurface := false } }
        else
          some { self with
            m_types := Function.update self.m_types i type,
            m_f := Function.update self.m_f i b3Vec3.zero }
      else none := by
  by_cases h : i < self.m_massCount
  · by_cases ht : self.m_types i = type
    · simp [b3SpringCloth.SetType, B3_ASSERT, h, ht]
    · by_cases hs : type = b3MassType.e_staticMass
      · simp [b3SpringCloth.SetType, B3_ASSERT, h, ht, hs]
      · simp [b3SpringCloth.SetType, B3_ASSERT, h, ht, hs]
  · simp [b3SpringCloth.SetType, B3_ASSERT, h]

/-- The method `SetType` returns for every valid mass index, and it never
writes the mass arrays `m_m` and `m_inv_m`. -/
theorem SetType_keeps_mass (self : b3SpringCloth) (i : Nat) (type : b3MassType)
    (hi : i < self.m_massCount) :
    ∃ c, self.SetType i type = some c ∧ c.m_m = self.m_m ∧ c.m_inv_m = self.m_inv_m ∧
      c.m_types i = type := by
  rw [SetType_unfold, if_pos hi]
  by_cases ht : self.m_types i = type
  · rw [if_pos ht]; exact ⟨_, rfl, rfl, rfl, ht⟩
  · rw [if_neg ht]
    by_cases hs : type = b3MassType.e_staticMass
    · rw [if_pos hs]; exact ⟨_, rfl, rfl, rfl, Function.update_same _ _ _⟩
    · rw [if_neg hs]; exact ⟨_, rfl, rfl, rfl, Function.update_same _ _ _⟩

/-- Making a mass of another type static zeroes its velocity, its force and
its pending translation. -/
theorem SetType_static_zeroes_velocity (self : b3SpringCloth) (i : Nat)
    (hi : i < self.m_massCount) (ht : self.m_types i ≠ b3MassType.e_staticMass) :
    ∃ c, self.SetType i b3MassType.e_staticMass = some c ∧ c.m_v i = b3Vec3.zero ∧
      c.m_f i = b3Vec3.zero ∧ c.m_y i = b3Vec3.zero := by
  rw [SetType_unfold, if_pos hi, if_neg ht, if_pos rfl]
  exact ⟨_, rfl, Function.update_same _ _ _, Function.update_same _ _ _,
    Function.update_same _ _ _⟩

/-- C20 at the sample cloth.  Mass 0 is dynamic with `m_m = 2` and
`m_inv_m = 1/2`; after `SetType(0, e_staticMass)` it is static with zero
velocity, but its mass is still 2 and its inverse mass still 1/2, not zero. -/
theorem SetType_static_keeps_sample_mass :
    ∃ c, sampleCloth.SetType 0 b3MassType.e_staticMass = some c ∧
      c.m_types 0 = b3MassType.e_staticMass ∧ c.m_v 0 = b3Vec3.zero ∧
      c.m_m 0 = 2 ∧ c.m_inv_m 0 = 1 / 2 ∧ c.m_m 0 ≠ 0 ∧ c.m_inv_m 0 ≠ 0 := by
  rw [SetType_unfold, if_pos (by decide), if_neg (by decide), if_pos rfl]
  refine ⟨_, rfl, by simp, by simp, rfl, rfl, ?_, ?_⟩
  · show (2 : ℚ) ≠ 0
    norm_num
  · show (1 / 2 : ℚ) ≠ 0
    norm_num

/-! ## Cloth positions and kinetic energy -/

/-- The method `SetPosition` written out by cases. -/
theorem SetPosition_unfold (self : b3SpringCloth) (i : Nat) (position : b3Vec3) :
    self.SetPosition i position =
      if i < self.m_massCount then
        some { self with
          m_y := Function.update self.m_y i ((self.m_y i).add (position.sub (self.m_x i))) }
      else none := by
  by_cases h : i < self.m_massCount
  · simp [b3SpringCloth.SetPosition, B3_ASSERT, h]
  · simp [b3SpringCloth.SetPosition, B3_ASSERT, h]

/-- Adding `p - x` to `x` gives `p`. -/
theorem b3Vec3_add_zero_add_sub (x p : b3Vec3) : x.add (b3Vec3.zero.add (p.sub x)) = p := by
  obtain ⟨x1, x2, x3⟩ := x
  obtain ⟨p1, p2, p3⟩ := p
  simp [b3Vec3.add, b3Vec3.sub, b3Vec3.zero]

/-- C21. `SetPosition(i, p)` returns for every valid index and does not move
any mass: `GetPosition(j)` answers as before for every `j`, `i` included; only
`m_y[i]` changes, growing by `p - m_x[i]`, every other member and every other
slot of `m_y` staying as it was; and when `m_y[i]` was zero before the call,
`m_x[i] + m_y[i] = p` after it. -/
theorem SetPosition_pending (self : b3SpringCloth) (i : Nat) (p : b3Vec3)
    (hi : i < self.m_massCount) :
    ∃ c, self.SetPosition i p = some c ∧
      (∀ j, c.GetPosition j = self.GetPosition j) ∧
      c.m_y i = (self.m_y i).add (p.sub (self.m_x i)) ∧
      (∀ j, j ≠ i → c.m_y j = self.m_y j) ∧
      c = { self with m_y := c.m_y } ∧
      (self.m_y i = b3Vec3.zero → (c.m_x i).add (c.m_y i) = p) := by
  rw [SetPosition_unfold, if_pos hi]
  refine ⟨_, rfl, fun j => rfl, by simp, fun j hj => by simp [Function.update_noteq hj], rfl, ?_⟩
  intro h0
  simp only [Function.update_same, h0]
  exact b3Vec3_add_zero_add_sub _ _

/-- C21 on the shifted cloth: mass 0 sits at `(1, 2, 3)` with pending
translation `(1, 0, 0)`; after `SetPosition(0, (7, 7, 7))` it still reads
`(1, 2, 3)`, and the pending translation is `(7, 5, 4)`. -/
theorem SetPosition_pending_witness :
    0 < shiftedCloth.m_massCount ∧
    ∃ c, shiftedCloth.SetPosition 0 ⟨7, 7, 7⟩ = some c ∧
      (∀ j, c.GetPosition j = shiftedCloth.GetPosition j) ∧
      c.GetPosition 0 = some ⟨1, 2, 3⟩ ∧
      c.m_y 0 = ⟨7, 5, 4⟩ := by
  have h0 : 0 < shiftedCloth.m_massCount := by decide
  obtain ⟨c, hc, hget, hy, -, -, -⟩ := SetPosition_pending shiftedCloth 0 ⟨7, 7, 7⟩ h0
  refine ⟨h0, c, hc, hget, ?_, ?_⟩
  · rw [hget 0]; rfl
  · rw [hy]
    simp only [shiftedCloth, b3Vec3.add, b3Vec3.sub, if_true]
    norm_num

/-- The method `GetKineticEnergy` as a sum over the masses. -/
theorem GetKineticEnergy_eq_sum (self : b3SpringCloth) :
    self.GetKineticEnergy =
      ∑ i in Finset.range self.m_massCount, self.m_m i * b3Dot (self.m_v i) (self.m_v i) := by
  unfold b3SpringCloth.GetKineticEnergy
  rw [← foldl_add_eq_sum]
  congr 1
  funext E i
  simp only [b3Dot, b3Vec3.smul]
  ring

/-- C26. `GetKineticEnergy` is the sum over all masses of
`m_m[i] * (m_v[i] . m_v[i])`, with no factor one half: for a soft body with as
many nodes as the cloth has masses, and the same masses and velocities, it is
exactly twice what `GetEnergy` returns. -/
theorem GetKineticEnergy_twice_GetEnergy (c : b3SpringCloth)
    (self : Bounce.b3SoftBody b3World)
    (hcount : self.m_mesh.vertexCount = c.m_massCount)
    (hmass : ∀ i, i < c.m_massCount → (self.m_nodes i).m_mass = c.m_m i)
    (hvel : ∀ i, i < c.m_massCount → (self.m_nodes i).m_velocity = c.m_v i) :
    c.GetKineticEnergy =
      ∑ i in Finset.range c.m_massCount, c.m_m i * b3Dot (c.m_v i) (c.m_v i) ∧
    c.GetKineticEnergy = 2 * b3SoftBody.GetEnergy self := by
  refine ⟨GetKineticEnergy_eq_sum c, ?_⟩
  rw [GetKineticEnergy_eq_sum, GetEnergy_eq_sum, hcount]
  have hsum : ∑ i in Finset.range c.m_massCount,
      (self.m_nodes i).m_mass * b3Dot (self.m_nodes i).m_velocity (self.m_nodes i).m_velocity
        = ∑ i in Finset.range c.m_massCount, c.m_m i * b3Dot (c.m_v i) (c.m_v i) :=
    Finset.sum_congr rfl (fun i hi => by
      rw [hmass i (Finset.mem_range.mp hi), hvel i (Finset.mem_range.mp hi)])
  rw [hsum]
  ring

/-- C26 on the sample cloth and the body with its masses and velocities: the
cloth reports 28, the body 14. -/
theorem GetKineticEnergy_twice_GetEnergy_witness :
    ((clothBody sampleCloth).m_mesh.vertexCount = sampleCloth.m_massCount ∧
      (∀ i, i < sampleCloth.m_massCount →
        ((clothBody sampleCloth).m_nodes i).m_mass = sampleCloth.m_m i) ∧
      (∀ i, i < sampleCloth.m_massCount →
        ((clothBody sampleCloth).m_nodes i).m_velocity = sampleCloth.m_v i)) ∧
    sampleCloth.GetKineticEnergy = 2 * b3SoftBody.GetEnergy (clothBody sampleCloth) ∧
    sampleCloth.GetKineticEnergy = 28 ∧
    b3SoftBody.GetEnergy (clothBody sampleCloth) = 14 :=
  ⟨⟨rfl, fun _ _ => rfl, fun _ _ => rfl⟩,
    (GetKineticEnergy_twice_GetEnergy sampleCloth (clothBody sampleCloth) rfl
      (fun _ _ => rfl) (fun _ _ => rfl)).2,
    by decide!, by decide!⟩

/-! ## The derived surface -/

/-- Corner `j` of the `k`-th triangle of tetrahedron `i` is the vertex in slot
`triangleSlot k j`, for a body the constructor returns. -/
theorem ctor_triangle_corner (World : Type) (b3Volume : VolumeFn) (d : b3SoftBodyDef)
    (nodeMem : Nat → b3SoftBodyNode) (elementMem : Nat → b3SoftBodyElement)
    (triangleMem : Nat → b3SoftBodyTriangle) (body : Bounce.b3SoftBody World)
    (h : b3SoftBody.b3SoftBody World b3Volume d nodeMem elementMem triangleMem = some body)
    (i : Nat) (hi : i < body.m_mesh.tetrahedronCount) (k : Fin 4) (j : Fin 3) :
    (body.m_triangles (4 * i + k)).corner j
      = (body.m_mesh.tetrahedrons i).vertex (triangleSlot k j) := by
  have htri := (ctor_no_world World b3Volume d nodeMem elementMem triangleMem body h).2
  obtain ⟨h0, h1, h2, h3⟩ := initTriangles_apply body.m_mesh.tetrahedrons body.m_mesh.vertices
    body.m_mesh.vertexCount body.m_mesh.tetrahedronCount triangleMem i hi
  rw [htri]
  fin_cases k
  · show (b3SoftBody.initTriangles body.m_mesh triangleMem (4 * i + 0)).corner j = _
    rw [show b3SoftBody.initTriangles body.m_mesh triangleMem (4 * i + 0) = _ from h0]
    fin_cases j <;> rfl
  · show (b3SoftBody.initTriangles body.m_mesh triangleMem (4 * i + 1)).corner j = _
    rw [show b3SoftBody.initTriangles body.m_mesh triangleMem (4 * i + 1) = _ from h1]
    fin_cases j <;> rfl
  · show (b3SoftBody.initTriangles body.m_mesh triangleMem (4 * i + 2)).corner j = _
    rw [show b3SoftBody.initTriangles body.m_mesh triangleMem (4 * i + 2) = _ from h2]
    fin_cases j <;> rfl
  · show (b3SoftBody.initTriangles body.m_mesh triangleMem (4 * i + 3)).corner j = _
    rw [show b3SoftBody.initTriangles body.m_mesh triangleMem (4 * i + 3) = _ from h3]
    fin_cases j <;> rfl

/-- The slot table of the four triangles is a closed, consistently oriented
surface: every ordered pair of different slots is a side of exactly one
triangle, at exactly one place, and the triangles holding both slots are the
one running from `s` to `t` and the different one running from `t` to `s`. -/
theorem triangleSlot_edges : ∀ s t : Fin 4, s ≠ t →
    (∃! kj : Fin 4 × Fin 3, triangleSlot kj.1 kj.2 = s ∧ triangleSlot kj.1 (kj.2 + 1) = t) ∧
    (∃! k : Fin 4, ∃ j : Fin 3, triangleSlot k j = s ∧ triangleSlot k (j + 1) = t) ∧
    (∃ k1 k2 : Fin 4, k1 ≠ k2 ∧
      (∃ j : Fin 3, triangleSlot k1 j = s ∧ triangleSlot k1 (j + 1) = t) ∧
      (∃ j : Fin 3, triangleSlot k2 j = t ∧ triangleSlot k2 (j + 1) = s) ∧
      ∀ k : Fin 4, ((∃ j : Fin 3, triangleSlot k j = s) ∧ ∃ j : Fin 3, triangleSlot k j = t)
        ↔ k = k1 ∨ k = k2) := by
  unfold ExistsUnique
  decide

/-- C25. For a body the constructor returns and a tetrahedron `i` with four
distinct vertices, the four derived triangles are a consistently oriented
closed surface: for any two different vertices `a`, `b` of the tetrahedron the
directed edge `(a, b)` is a side, in cyclic order, of exactly one triangle and
at exactly one place in it; and the triangles having both `a` and `b` as
corners are exactly two, one running from `a` to `b` and the other from `b` to
`a`. -/
theorem ctor_surface_closed (World : Type) (b3Volume : VolumeFn) (d : b3SoftBodyDef)
    (nodeMem : Nat → b3SoftBodyNode) (elementMem : Nat → b3SoftBodyElement)
    (triangleMem : Nat → b3SoftBodyTriangle) (body : Bounce.b3SoftBody World)
    (h : b3SoftBody.b3SoftBody World b3Volume d nodeMem elementMem triangleMem = some body)
    (i : Nat) (hi : i < body.m_mesh.tetrahedronCount)
    (hinj : Function.Injective (body.m_mesh.tetrahedrons i).vertex)
    (s t : Fin 4) (hst : s ≠ t) :
    (∃! kj : Fin 4 × Fin 3,
      (body.m_triangles (4 * i + kj.1)).corner kj.2 = (body.m_mesh.tetrahedrons i).vertex s ∧
      (body.m_triangles (4 * i + kj.1)).corner (kj.2 + 1)
        = (body.m_mesh.tetrahedrons i).vertex t) ∧
    (∃! k : Fin 4, (body.m_triangles (4 * i + k)).HasEdge
      ((body.m_mesh.tetrahedrons i).vertex s) ((body.m_mesh.tetrahedrons i).vertex t)) ∧
    (∃ k1 k2 : Fin 4, k1 ≠ k2 ∧
      (body.m_triangles (4 * i + k1)).HasEdge
        ((body.m_mesh.tetrahedrons i).vertex s) ((body.m_mesh.tetrahedrons i).vertex t) ∧
      (body.m_triangles (4 * i + k2)).HasEdge
        ((body.m_mesh.tetrahedrons i).vertex t) ((body.m_mesh.tetrahedrons i).vertex s) ∧
      ∀ k : Fin 4, (body.m_triangles (4 * i + k)).HasCorners
          ((body.m_mesh.tetrahedrons i).vertex s) ((body.m_mesh.tetrahedrons i).vertex t)
        ↔ k = k1 ∨ k = k2) := by
  have hc : ∀ (k : Fin 4) (j : Fin 3) (x : Fin 4),
      (body.m_triangles (4 * i + k)).corner j = (body.m_mesh.tetrahedrons i).vertex x
        ↔ triangleSlot k j = x := by
    intro k j x
    rw [ctor_triangle_corner World b3Volume d nodeMem elementMem triangleMem body h i hi k j]
    exact hinj.eq_iff
  have key := triangleSlot_edges s t hst
  simp only [b3SoftBodyTriangle.HasEdge, b3SoftBodyTriangle.HasCorners, hc]
  exact key

/-- C25 on tetrahedron 1 of the body the constructor returns for the sample
parameters, whose vertices are `(1, 2, 3, 4)`: the directed edge from vertex 2
to vertex 4 is a side of triangle 7 only, and the edge from 4 to 2 of triangle
6 only. -/
theorem ctor_surface_closed_witness :
    ∃ body : Bounce.b3SoftBody b3World,
      b3SoftBody.b3SoftBody b3World signedVolume sampleDef (fun _ => sampleNode)
        (fun _ => sampleElement) (fun _ => sampleTriangle) = some body ∧
      1 < body.m_mesh.tetrahedronCount ∧
      Function.Injective (body.m_mesh.tetrahedrons 1).vertex ∧
      (body.m_mesh.tetrahedrons 1).vertex 1 = 2 ∧ (body.m_mesh.tetrahedrons 1).vertex 3 = 4 ∧
      (∃! k : Fin 4, (body.m_triangles (4 * 1 + k)).HasEdge
        ((body.m_mesh.tetrahedrons 1).vertex 1) ((body.m_mesh.tetrahedrons 1).vertex 3)) ∧
      (body.m_triangles 7).HasEdge 2 4 ∧ (body.m_triangles 6).HasEdge 4 2 := by
  obtain ⟨body, h⟩ := sampleDef_ctor b3World (fun _ => sampleNode) (fun _ => sampleElement)
    (fun _ => sampleTriangle)
  have hm := (ctor_some b3World signedVolume sampleDef _ _ _ body h).1
  have hm2 : body.m_mesh = sampleMesh := (Option.some.inj hm).symm
  have hlt : 1 < body.m_mesh.tetrahedronCount := by rw [hm2]; decide
  have hinj : Function.Injective (body.m_mesh.tetrahedrons 1).vertex := by
    rw [hm2]; decide
  have key := ctor_surface_closed b3World signedVolume sampleDef _ _ _ body h 1 hlt hinj 1 3
    (by decide)
  have htri := (ctor_no_world b3World signedVolume sampleDef _ _ _ body h).2
  refine ⟨body, h, hlt, hinj, by rw [hm2]; rfl, by rw [hm2]; rfl, key.2.1, ?_, ?_⟩
  · rw [htri, hm2]; exact ⟨0, by decide, by decide⟩
  · rw [htri, hm2]; exact ⟨1, by decide, by decide⟩

/-! ## Singular rest configurations -/

/-- The matrix `B` built from an all-zero `invP` is zero. -/
theorem b3CreateB_zero (out invP : Nat → ℚ) (h : ∀ x, x < 16 → invP x = 0) (x : Nat)
    (hx : x < 72) : b3CreateB out invP x = 0 := by
  rw [b3CreateB_entry, if_pos hx]
  simp only [h 0 (by norm_num), h 1 (by norm_num), h 2 (by norm_num), h 3 (by norm_num),
    h 4 (by norm_num), h 5 (by norm_num), h 6 (by norm_num), h 7 (by norm_num),
    h 8 (by norm_num), h 9 (by norm_num), h 10 (by norm_num), h 11 (by norm_num)]
  interval_cases x <;> rfl

/-- The matrix `Ke` assembled from an all-zero `invP` is zero. -/
theorem Ke_zero (b3Volume : VolumeFn) (m_E m_nu : ℚ) (invP : Nat → ℚ) (p1 p2 p3 p4 : b3Vec3)
    (h : ∀ x, x < 16 → invP x = 0) :
    ∃ Ke, b3SoftBody.Ke b3Volume m_E m_nu invP p1 p2 p3 p4 = some Ke ∧
      ∀ a b, a < 12 → b < 12 → Ke (a + 12 * b) = 0 := by
  obtain ⟨Ke, hKe, hv⟩ := Ke_entry b3Volume m_E m_nu invP p1 p2 p3 p4
  refine ⟨Ke, hKe, fun a b ha hb => ?_⟩
  rw [hv a b ha hb]
  apply mul_eq_zero_of_right
  refine Finset.sum_eq_zero (fun k hk => Finset.sum_eq_zero (fun l _ => ?_))
  rw [b3CreateB_zero uninit invP h (k + 6 * a) (by have := Finset.mem_range.mp hk; omega)]
  ring

/-- The blocks packed from an all-zero `Ke` are zero. -/
theorem b3SetK_zero (K : Nat → b3Mat33) (Ke : Nat → ℚ)
    (h : ∀ a b, a < 12 → b < 12 → Ke (a + 12 * b) = 0) (i j : Fin 4) :
    b3SetK K Ke (i + 4 * j) = b3Mat33.zero := by
  apply b3Mat33_ext_entry
  intro r c
  rw [b3SetK_entry, h _ _ (by omega) (by omega)]
  fin_cases r <;> fin_cases c <;> rfl

/-- C24, as amended.  The function `b3Inverse4` is total, and for a matrix
whose determinant is exactly zero all 16 entries it writes are 0 (the
reciprocal is taken only of a non-zero determinant); so the matrix `B` that
`b3CreateB` builds from that output is zero; and for `nu` other than `-1` and
`1/2`, where `b3Lame` does not divide by zero, the matrix `Ke` assembled from it
is zero, and an element whose `P` is that matrix gets an all-zero `invP` and
all-zero stiffness blocks. -/
theorem b3Inverse4_singular (m : Nat → ℚ) (h : (rowMajor4 m).det = 0) :
    (∀ out x, x < 16 → b3Inverse4 out m x = 0) ∧
    (∀ out out2 x, x < 72 → b3CreateB out2 (b3Inverse4 out m) x = 0) ∧
    (∀ out (b3Volume : VolumeFn) (m_E m_nu : ℚ) (p1 p2 p3 p4 : b3Vec3),
      m_nu ≠ -1 → m_nu ≠ 1 / 2 →
      b3Lame.checked m_E m_nu = some (b3Lame m_E m_nu) ∧
      ∃ Ke, b3SoftBody.Ke b3Volume m_E m_nu (b3Inverse4 out m) p1 p2 p3 p4 = some Ke ∧
        ∀ a b, a < 12 → b < 12 → Ke (a + 12 * b) = 0) ∧
    (∀ (b3Volume : VolumeFn) (m_E m_nu : ℚ) (mesh : b3SoftBodyMesh)
        (mt : b3SoftBodyMeshTetrahedron) (e : b3SoftBodyElement),
      m_nu ≠ -1 → m_nu ≠ 1 / 2 →
      b3SoftBody.P (mesh.vertices mt.v1) (mesh.vertices mt.v2) (mesh.vertices mt.v3)
        (mesh.vertices mt.v4) = m →
      ∃ e2, b3SoftBody.initElement.checked b3Volume m_E m_nu mesh mt e = some e2 ∧
        b3SoftBody.initElement b3Volume m_E m_nu mesh mt e = some e2 ∧
        (∀ x, x < 16 → e2.invP x = 0) ∧
        ∀ i j : Fin 4, e2.K (i + 4 * j) = b3Mat33.zero) := by
  have hdet : b3Inverse4.det m = 0 := by rw [← rowMajor4_det]; exact h
  have hinv : ∀ out x, x < 16 → b3Inverse4 out m x = 0 := by
    intro out x hx
    rw [b3Inverse4_entry, if_pos hx, if_neg (by rw [hdet]; exact fun hne => hne rfl), hdet,
      zero_mul]
  refine ⟨hinv, fun out out2 x hx => b3CreateB_zero out2 _ (hinv out) x hx,
    fun out b3Volume m_E m_nu p1 p2 p3 p4 h1 h2 =>
      ⟨b3Lame_checked_eq m_E m_nu h1 h2,
        Ke_zero b3Volume m_E m_nu _ p1 p2 p3 p4 (hinv out)⟩,
    ?_⟩
  intro b3Volume m_E m_nu mesh mt e h1 h2 hP
  obtain ⟨Ke, hKe, hz⟩ := Ke_zero b3Volume m_E m_nu (b3Inverse4 e.invP m)
    (mesh.vertices mt.v1) (mesh.vertices mt.v2) (mesh.vertices mt.v3) (mesh.vertices mt.v4)
    (hinv e.invP)
  have hinit : b3SoftBody.initElement b3Volume m_E m_nu mesh mt e
      = some { invP := b3Inverse4 e.invP m, K := b3SetK e.K Ke } := by
    rw [initElement_unfold, hP, hKe]
    rfl
  exact ⟨{ invP := b3Inverse4 e.invP m, K := b3SetK e.K Ke },
    by rw [initElement_checked_eq _ _ _ _ _ _ h1 h2]; exact hinit, hinit, hinv e.invP,
    fun i j => b3SetK_zero e.K Ke hz i j⟩

/-- The matrix `P` of the flat tetrahedron has determinant zero. -/
theorem flatMesh_det : (rowMajor4 (flatMesh.tetP 0)).det = 0 := by
  rw [rowMajor4_det]
  norm_num [b3Inverse4.det, b3Inverse4.inv, b3SoftBodyMesh.tetP, b3SoftBody.P, flatMesh,
    sampleP1, sampleP2, sampleP3]

/-- C24 as amended, on the flat tetrahedron, whose `P` has determinant zero,
with `E = 10` and `nu = 1/4`: the element loop body returns an element with
all-zero `invP` and all-zero blocks. -/
theorem b3Inverse4_singular_witness :
    (rowMajor4 (flatMesh.tetP 0)).det = 0 ∧
    (∀ x, x < 16 → b3Inverse4 sampleElement.invP (flatMesh.tetP 0) x = 0) ∧
    ∃ e2, b3SoftBody.initElement.checked signedVolume 10 (1 / 4) flatMesh
        (flatMesh.tetrahedrons 0) sampleElement = some e2 ∧
      b3SoftBody.initElement signedVolume 10 (1 / 4) flatMesh (flatMesh.tetrahedrons 0)
        sampleElement = some e2 ∧
      (∀ x, x < 16 → e2.invP x = 0) ∧
      ∀ i j : Fin 4, e2.K (i + 4 * j) = b3Mat33.zero := by
  have key := b3Inverse4_singular (flatMesh.tetP 0) flatMesh_det
  exact ⟨flatMesh_det, key.1 _, key.2.2.2 signedVolume 10 (1 / 4) flatMesh
    (flatMesh.tetrahedrons 0) sampleElement (by norm_num) (by norm_num) rfl⟩

/-- C24 as stated, for any material, fails at `nu = 1/2`: on the flat
tetrahedron, whose `P` has determinant zero, `b3Inverse4` writes sixteen zeros
and `B` is zero, but with `E = 10` the call of `b3Lame` divides `nu * E = 5` by
zero, and the element loop body yields no element with numeric stiffness, so
its stiffness blocks are not the zero matrix. -/
theorem b3Inverse4_singular_counterexample :
    (rowMajor4 (flatMesh.tetP 0)).det = 0 ∧
    (∀ x, x < 16 → b3Inverse4 sampleElement.invP (flatMesh.tetP 0) x = 0) ∧
    (1 / 2 : ℚ) * 10 = 5 ∧ (1 + (1 / 2 : ℚ)) * (1 - 2 * (1 / 2)) = 0 ∧
    b3Lame.checked 10 (1 / 2) = none ∧
    b3SoftBody.initElement.checked signedVolume 10 (1 / 2) flatMesh
      (flatMesh.tetrahedrons 0) sampleElement = none ∧
    ¬ ∃ e2 : b3SoftBodyElement,
      b3SoftBody.initElement.checked signedVolume 10 (1 / 2) flatMesh
        (flatMesh.tetrahedrons 0) sampleElement = some e2 ∧
      ∀ i j : Fin 4, e2.K (i + 4 * j) = b3Mat33.zero := by
  have hdet : b3Inverse4.det (flatMesh.tetP 0) = 0 := by
    rw [← rowMajor4_det]; exact flatMesh_det
  have hinv : ∀ x, x < 16 → b3Inverse4 sampleElement.invP (flatMesh.tetP 0) x = 0 := by
    intro x hx
    rw [b3Inverse4_entry, if_pos hx, if_neg (by rw [hdet]; exact fun hne => hne rfl), hdet,
      zero_mul]
  have hnone := initElement_checked_none signedVolume 10 (1 / 2) flatMesh
    (flatMesh.tetrahedrons 0) sampleElement (Or.inr rfl)
  refine ⟨flatMesh_det, hinv, by norm_num, by norm_num,
    b3Lame_checked_none 10 (1 / 2) (Or.inr rfl), hnone, ?_⟩
  rintro ⟨e2, h, -⟩
  rw [hnone] at h
  exact Option.noConfusion h

/-! ## Rigid translations -/

/-- Each of the first three rows of the inverse of `P` sums to zero, because
the last column of `P` is all ones. -/
theorem invP_row_sum (out : Nat → ℚ) (p1 p2 p3 p4 : b3Vec3)
    (h : b3Inverse4.det (b3SoftBody.P p1 p2 p3 p4) ≠ 0) (r : Nat) (hr : r < 3) :
    b3Inverse4 out (b3SoftBody.P p1 p2 p3 p4) (4 * r + 0)
    + b3Inverse4 out (b3SoftBody.P p1 p2 p3 p4) (4 * r + 1)
    + b3Inverse4 out (b3SoftBody.P p1 p2 p3 p4) (4 * r + 2)
    + b3Inverse4 out (b3SoftBody.P p1 p2 p3 p4) (4 * r + 3) = 0 := by
  have key := invP_dot out p1 p2 p3 p4 h r 3 (by omega) (by norm_num)
  rw [if_neg (by omega)] at key
  have e0 : b3SoftBody.P p1 p2 p3 p4 (4 * 0 + 3) = 1 := rfl
  have e1 : b3SoftBody.P p1 p2 p3 p4 (4 * 1 + 3) = 1 := rfl
  have e2 : b3SoftBody.P p1 p2 p3 p4 (4 * 2 + 3) = 1 := rfl
  have e3 : b3SoftBody.P p1 p2 p3 p4 (4 * 3 + 3) = 1 := rfl
  rw [e0, e1, e2, e3] at key
  linarith

/-- When the first three rows of `invP` sum to zero, every row of `B` sums to
zero over the four nodes, coordinate by coordinate. -/
theorem b3CreateB_node_sum (out invP : Nat → ℚ)
    (h0 : invP 0 + invP 1 + invP 2 + invP 3 = 0)
    (h1 : invP 4 + invP 5 + invP 6 + invP 7 = 0)
    (h2 : invP 8 + invP 9 + invP 10 + invP 11 = 0)
    (l c : Nat) (hl : l < 6) (hc : c < 3) :
    b3CreateB out invP (l + 6 * (3 * 0 + c)) + b3CreateB out invP (l + 6 * (3 * 1 + c))
    + b3CreateB out invP (l + 6 * (3 * 2 + c)) + b3CreateB out invP (l + 6 * (3 * 3 + c))
      = 0 := by
  rw [b3CreateB_entry, b3CreateB_entry, b3CreateB_entry, b3CreateB_entry,
    if_pos (by omega), if_pos (by omega), if_pos (by omega), if_pos (by omega)]
  interval_cases l <;> interval_cases c <;>
    simp only [List.getD_cons_succ, List.getD_cons_zero, Nat.reduceAdd, Nat.reduceMul,
      add_zero] <;>
    first | exact h0 | exact h1 | exact h2

/-- When every row of `B` sums to zero over the four nodes, so does every row
of the assembled `Ke`. -/
theorem Ke_node_sum (b3Volume : VolumeFn) (m_E m_nu : ℚ) (invP : Nat → ℚ) (p1 p2 p3 p4 : b3Vec3)
    (hB : ∀ l c, l < 6 → c < 3 →
      b3CreateB uninit invP (l + 6 * (3 * 0 + c)) + b3CreateB uninit invP (l + 6 * (3 * 1 + c))
      + b3CreateB uninit invP (l + 6 * (3 * 2 + c)) + b3CreateB uninit invP (l + 6 * (3 * 3 + c))
        = 0) :
    ∃ Ke, b3SoftBody.Ke b3Volume m_E m_nu invP p1 p2 p3 p4 = some Ke ∧
      ∀ a c, a < 12 → c < 3 →
        Ke (a + 12 * (3 * 0 + c)) + Ke (a + 12 * (3 * 1 + c)) + Ke (a + 12 * (3 * 2 + c))
          + Ke (a + 12 * (3 * 3 + c)) = 0 := by
  obtain ⟨Ke, hKe, hv⟩ := Ke_entry b3Volume m_E m_nu invP p1 p2 p3 p4
  refine ⟨Ke, hKe, fun a c ha hc => ?_⟩
  rw [hv a _ ha (by omega), hv a _ ha (by omega), hv a _ ha (by omega), hv a _ ha (by omega),
    ← mul_add, ← mul_add, ← mul_add]
  apply mul_eq_zero_of_right
  rw [← Finset.sum_add_distrib, ← Finset.sum_add_distrib, ← Finset.sum_add_distrib]
  refine Finset.sum_eq_zero (fun k _ => ?_)
  rw [← Finset.sum_add_distrib, ← Finset.sum_add_distrib, ← Finset.sum_add_distrib]
  refine Finset.sum_eq_zero (fun l hl => ?_)
  have hs := hB l c (Finset.mem_range.mp hl) hc
  linear_combination
    (b3CreateB uninit invP (k + 6 * a)
      * b3CreateE uninit (b3Lame m_E m_nu).1 (b3Lame m_E m_nu).2 (k + 6 * l)) * hs

/-- The vector `(t, t, t, t)` against one row of a 12 x 12 array. -/
theorem sum_nodal12_translation (Ke : Nat → ℚ) (t : b3Vec3) (a : Nat) :
    ∑ b in Finset.range 12, Ke (a + 12 * b) * nodal12 t t t t b =
      (Ke (a + 12 * (3 * 0 + 0)) + Ke (a + 12 * (3 * 1 + 0)) + Ke (a + 12 * (3 * 2 + 0))
        + Ke (a + 12 * (3 * 3 + 0))) * t.x
      + (Ke (a + 12 * (3 * 0 + 1)) + Ke (a + 12 * (3 * 1 + 1)) + Ke (a + 12 * (3 * 2 + 1))
        + Ke (a + 12 * (3 * 3 + 1))) * t.y
      + (Ke (a + 12 * (3 * 0 + 2)) + Ke (a + 12 * (3 * 1 + 2)) + Ke (a + 12 * (3 * 2 + 2))
        + Ke (a + 12 * (3 * 3 + 2))) * t.z := by
  simp only [Finset.sum_range_succ, Finset.sum_range_zero, nodal12, List.getD_cons_succ,
    List.getD_cons_zero]
  ring

/-- C22, as amended.  Rigid translations produce no elastic force: for a
tetrahedron whose `P` has non-zero determinant, any `E` and volume, and any
`nu` other than `-1` and `1/2` (the two values at which `b3Lame` divides by
zero), the element loop body returns an element, with every division defined,
in which each block row of the stored stiffness sums to the zero matrix, `K[i + 4*0] + K[i + 4*1] + K[i + 4*2] + K[i + 4*3] = 0`;
equivalently `Ke * (t, t, t, t) = 0` for every vector `t`, and the four blocks
of a row applied to the same `t` add up to the zero vector. -/
theorem element_K_translation (b3Volume : VolumeFn) (m_E m_nu : ℚ) (m : b3SoftBodyMesh)
    (mt : b3SoftBodyMeshTetrahedron) (e : b3SoftBodyElement)
    (hdet : (rowMajor4 (b3SoftBody.P (m.vertices mt.v1) (m.vertices mt.v2) (m.vertices mt.v3)
      (m.vertices mt.v4))).det ≠ 0)
    (hnu1 : m_nu ≠ -1) (hnu2 : m_nu ≠ 1 / 2) :
    ∃ (e2 : b3SoftBodyElement) (Ke : Nat → ℚ),
      b3SoftBody.initElement.checked b3Volume m_E m_nu m mt e = some e2 ∧
      b3SoftBody.initElement b3Volume m_E m_nu m mt e = some e2 ∧
      b3SoftBody.Ke b3Volume m_E m_nu e2.invP
        (m.vertices mt.v1) (m.vertices mt.v2) (m.vertices mt.v3) (m.vertices mt.v4) = some Ke ∧
      e2.K = b3SetK e.K Ke ∧
      (∀ i : Fin 4,
        (((e2.K (i + 4 * 0)).add (e2.K (i + 4 * 1))).add (e2.K (i + 4 * 2))).add
          (e2.K (i + 4 * 3)) = b3Mat33.zero) ∧
      (∀ (t : b3Vec3) (a : Nat), a < 12 →
        ∑ b in Finset.range 12, Ke (a + 12 * b) * nodal12 t t t t b = 0) ∧
      (∀ (i : Fin 4) (t : b3Vec3),
        ((((e2.K (i + 4 * 0)).mulVec t).add ((e2.K (i + 4 * 1)).mulVec t)).add
          ((e2.K (i + 4 * 2)).mulVec t)).add ((e2.K (i + 4 * 3)).mulVec t) = b3Vec3.zero) := by
  have hd : b3Inverse4.det (b3SoftBody.P (m.vertices mt.v1) (m.vertices mt.v2)
      (m.vertices mt.v3) (m.vertices mt.v4)) ≠ 0 := by rw [← rowMajor4_det]; exact hdet
  have hB := b3CreateB_node_sum uninit
    (b3Inverse4 e.invP (b3SoftBody.P (m.vertices mt.v1) (m.vertices mt.v2)
      (m.vertices mt.v3) (m.vertices mt.v4)))
    (invP_row_sum e.invP _ _ _ _ hd 0 (by norm_num))
    (invP_row_sum e.invP _ _ _ _ hd 1 (by norm_num))
    (invP_row_sum e.invP _ _ _ _ hd 2 (by norm_num))
  obtain ⟨Ke, hKe, hsum⟩ := Ke_node_sum b3Volume m_E m_nu _ (m.vertices mt.v1)
    (m.vertices mt.v2) (m.vertices mt.v3) (m.vertices mt.v4) hB
  have hentry : ∀ (i : Fin 4) (r c : Fin 3),
      (b3SetK e.K Ke (i + 4 * 0)).entry r c + (b3SetK e.K Ke (i + 4 * 1)).entry r c
        + (b3SetK e.K Ke (i + 4 * 2)).entry r c + (b3SetK e.K Ke (i + 4 * 3)).entry r c = 0 := by
    intro i r c
    have e0 := b3SetK_entry e.K Ke i 0 r c
    have e1 := b3SetK_entry e.K Ke i 1 r c
    have e2 := b3SetK_entry e.K Ke i 2 r c
    have e3 := b3SetK_entry e.K Ke i 3 r c
    simp only [Fin.val_zero, Fin.val_one, Fin.val_two, show ((3 : Fin 4) : Nat) = 3 from rfl]
      at e0 e1 e2 e3
    rw [e0, e1, e2, e3]
    exact hsum (3 * i + r) c (by omega) (by omega)
  refine ⟨{ invP := b3Inverse4 e.invP (b3SoftBody.P (m.vertices mt.v1) (m.vertices mt.v2)
      (m.vertices mt.v3) (m.vertices mt.v4)), K := b3SetK e.K Ke }, Ke, ?_, ?_, hKe, rfl, ?_, ?_,
    ?_⟩
  · rw [initElement_checked_eq _ _ _ _ _ _ hnu1 hnu2, initElement_unfold, hKe]; rfl
  · rw [initElement_unfold, hKe]; rfl
  · intro i
    apply b3Mat33_ext_entry
    intro r c
    have := hentry i r c
    fin_cases r <;> fin_cases c <;> exact this
  · intro t a ha
    rw [sum_nodal12_translation, hsum a 0 ha (by norm_num), hsum a 1 ha (by norm_num),
      hsum a 2 ha (by norm_num)]
    ring
  · intro i t
    have h00 := hentry i 0 0
    have h01 := hentry i 0 1
    have h02 := hentry i 0 2
    have h10 := hentry i 1 0
    have h11 := hentry i 1 1
    have h12 := hentry i 1 2
    have h20 := hentry i 2 0
    have h21 := hentry i 2 1
    have h22 := hentry i 2 2
    simp only [b3Mat33.entry, b3Mat33.col, b3Vec3.comp] at h00 h01 h02 h10 h11 h12 h20 h21 h22
    simp only [b3Mat33.mulVec, b3Vec3.add, b3Vec3.zero, b3Vec3.mk.injEq]
    refine ⟨?_, ?_, ?_⟩
    · linear_combination t.x * h00 + t.y * h01 + t.z * h02
    · linear_combination t.x * h10 + t.y * h11 + t.z * h12
    · linear_combination t.x * h20 + t.y * h21 + t.z * h22

/-- C22 as amended, on tetrahedron 0 of the sample mesh, whose `P` has
determinant `-1`, with `E = 10` and `nu = 1/4`: the element loop body returns
an element whose block rows sum to zero. -/
theorem element_K_translation_witness :
    (rowMajor4 (b3SoftBody.P (sampleMesh.vertices (sampleMesh.tetrahedrons 0).v1)
      (sampleMesh.vertices (sampleMesh.tetrahedrons 0).v2)
      (sampleMesh.vertices (sampleMesh.tetrahedrons 0).v3)
      (sampleMesh.vertices (sampleMesh.tetrahedrons 0).v4))).det ≠ 0 ∧
    ((1 / 4 : ℚ) ≠ -1 ∧ (1 / 4 : ℚ) ≠ 1 / 2) ∧
    ∃ e2 : b3SoftBodyElement,
      b3SoftBody.initElement.checked signedVolume 10 (1 / 4) sampleMesh
        (sampleMesh.tetrahedrons 0) sampleElement = some e2 ∧
      ∀ i : Fin 4,
        (((e2.K (i + 4 * 0)).add (e2.K (i + 4 * 1))).add (e2.K (i + 4 * 2))).add
          (e2.K (i + 4 * 3)) = b3Mat33.zero := by
  have hdet : (rowMajor4 (b3SoftBody.P (sampleMesh.vertices (sampleMesh.tetrahedrons 0).v1)
      (sampleMesh.vertices (sampleMesh.tetrahedrons 0).v2)
      (sampleMesh.vertices (sampleMesh.tetrahedrons 0).v3)
      (sampleMesh.vertices (sampleMesh.tetrahedrons 0).v4))).det ≠ 0 := by
    rw [rowMajor4_det]
    show b3Inverse4.det sampleP ≠ 0
    rw [sampleP_det]
    norm_num
  have hn1 : (1 / 4 : ℚ) ≠ -1 := by norm_num
  have hn2 : (1 / 4 : ℚ) ≠ 1 / 2 := by norm_num
  obtain ⟨e2, Ke, h1, -, -, -, h4, -, -⟩ := element_K_translation signedVolume 10 (1 / 4)
    sampleMesh (sampleMesh.tetrahedrons 0) sampleElement hdet hn1 hn2
  exact ⟨hdet, ⟨hn1, hn2⟩, e2, h1, h4⟩

/-- C22 as stated, for every `nu`, fails at `nu = -1`: on tetrahedron 0 of the
sample mesh, whose `P` has determinant `-1`, with `E = 10`, `b3Lame` divides
`nu * E = -10` by `(1 + nu) * (1 - 2 * nu) = 0` and `E` by `2 * (1 + nu) = 0`,
so the element loop body yields no element with numeric stiffness, and its
block rows do not sum to the zero matrix. -/
theorem element_K_translation_counterexample :
    (rowMajor4 (b3SoftBody.P (sampleMesh.vertices (sampleMesh.tetrahedrons 0).v1)
      (sampleMesh.vertices (sampleMesh.tetrahedrons 0).v2)
      (sampleMesh.vertices (sampleMesh.tetrahedrons 0).v3)
      (sampleMesh.vertices (sampleMesh.tetrahedrons 0).v4))).det ≠ 0 ∧
    (-1 : ℚ) * 10 = -10 ∧ (1 + (-1 : ℚ)) * (1 - 2 * (-1)) = 0 ∧ 2 * (1 + (-1 : ℚ)) = 0 ∧
    b3Lame.checked 10 (-1) = none ∧
    b3SoftBody.initElement.checked signedVolume 10 (-1) sampleMesh
      (sampleMesh.tetrahedrons 0) sampleElement = none ∧
    ¬ ∃ e2 : b3SoftBodyElement,
      b3SoftBody.initElement.checked signedVolume 10 (-1) sampleMesh
        (sampleMesh.tetrahedrons 0) sampleElement = some e2 ∧
      ∀ i : Fin 4,
        (((e2.K (i + 4 * 0)).add (e2.K (i + 4 * 1))).add (e2.K (i + 4 * 2))).add
          (e2.K (i + 4 * 3)) = b3Mat33.zero := by
  have hdet : (rowMajor4 (b3SoftBody.P (sampleMesh.vertices (sampleMesh.tetrahedrons 0).v1)
      (sampleMesh.vertices (sampleMesh.tetrahedrons 0).v2)
      (sampleMesh.vertices (sampleMesh.tetrahedrons 0).v3)
      (sampleMesh.vertices (sampleMesh.tetrahedrons 0).v4))).det ≠ 0 := by
    rw [rowMajor4_det]
    show b3Inverse4.det sampleP ≠ 0
    rw [sampleP_det]
    norm_num
  have hnone := initElement_checked_none signedVolume 10 (-1) sampleMesh
    (sampleMesh.tetrahedrons 0) sampleElement (Or.inl rfl)
  refine ⟨hdet, by norm_num, by norm_num, by norm_num,
    b3Lame_checked_none 10 (-1) (Or.inl rfl), hnone, ?_⟩
  rintro ⟨e2, h, -⟩
  rw [hnone] at h
  exact Option.noConfusion h

/-! ## Positive semidefiniteness -/

/-- The quadratic form of `V * Bᵀ E B` is `V` times the quadratic form of `E`
at `B u`. -/
theorem quadratic_congruence (n m : Nat) (V : ℚ) (B E : Nat → Nat → ℚ) (u : Nat → ℚ) :
    ∑ a in Finset.range n, ∑ b in Finset.range n,
      u a * (V * ∑ k in Finset.range m, ∑ l in Finset.range m, B k a * E k l * B l b) * u b
    = V * ∑ k in Finset.range m, ∑ l in Finset.range m,
        (∑ a in Finset.range n, B k a * u a) * E k l * (∑ b in Finset.range n, B l b * u b) := by
  have hL : ∑ a in Finset.range n, ∑ b in Finset.range n,
      u a * (V * ∑ k in Finset.range m, ∑ l in Finset.range m, B k a * E k l * B l b) * u b
      = ∑ a in Finset.range n, ∑ b in Finset.range n, ∑ k in Finset.range m,
          ∑ l in Finset.range m, V * (B k a * u a * E k l * (B l b * u b)) := by
    refine Finset.sum_congr rfl (fun a _ => Finset.sum_congr rfl (fun b _ => ?_))
    rw [Finset.mul_sum, Finset.mul_sum, Finset.sum_mul]
    refine Finset.sum_congr rfl (fun k _ => ?_)
    rw [Finset.mul_sum, Finset.mul_sum, Finset.sum_mul]
    refine Finset.sum_congr rfl (fun l _ => ?_)
    ring
  have hR : V * ∑ k in Finset.range m, ∑ l in Finset.range m,
        (∑ a in Finset.range n, B k a * u a) * E k l * (∑ b in Finset.range n, B l b * u b)
      = ∑ k in Finset.range m, ∑ l in Finset.range m, ∑ a in Finset.range n,
          ∑ b in Finset.range n, V * (B k a * u a * E k l * (B l b * u b)) := by
    rw [Finset.mul_sum]
    refine Finset.sum_congr rfl (fun k _ => ?_)
    rw [Finset.mul_sum]
    refine Finset.sum_congr rfl (fun l _ => ?_)
    rw [Finset.sum_mul, Finset.sum_mul, Finset.mul_sum]
    refine Finset.sum_congr rfl (fun a _ => ?_)
    rw [Finset.mul_sum, Finset.mul_sum]
  rw [hL, hR]
  rw [Finset.sum_congr rfl (fun a _ => Finset.sum_comm), Finset.sum_comm]
  refine Finset.sum_congr rfl (fun k _ => ?_)
  rw [Finset.sum_congr rfl (fun a _ => Finset.sum_comm), Finset.sum_comm]

/-- The quadratic form of the isotropic matrix `E` is a sum of squares with
coefficients `lambda` and `mu`. -/
theorem b3CreateE_quadratic (out : Nat → ℚ) (lambda mu : ℚ) (s : Nat → ℚ) :
    ∑ k in Finset.range 6, ∑ l in Finset.range 6, s k * b3CreateE out lambda mu (k + 6 * l) * s l
      = lambda * (s 0 + s 1 + s 2) ^ 2 + 2 * mu * (s 0 ^ 2 + s 1 ^ 2 + s 2 ^ 2)
        + mu * (s 3 ^ 2 + s 4 ^ 2 + s 5 ^ 2) := by
  simp only [Finset.sum_range_succ, Finset.sum_range_zero, b3CreateE_entry]
  norm_num
  ring

/-- The quadratic form of the assembled `Ke` is not negative when the volume
and both Lamé parameters are not negative. -/
theorem Ke_quadratic_nonneg (b3Volume : VolumeFn) (m_E m_nu : ℚ) (invP : Nat → ℚ)
    (p1 p2 p3 p4 : b3Vec3) (hV : 0 ≤ b3Volume p1 p2 p3 p4)
    (hl : 0 ≤ (b3Lame m_E m_nu).1) (hm : 0 ≤ (b3Lame m_E m_nu).2) :
    ∃ Ke, b3SoftBody.Ke b3Volume m_E m_nu invP p1 p2 p3 p4 = some Ke ∧
      ∀ u : Nat → ℚ, 0 ≤ quadraticForm12 Ke u := by
  obtain ⟨Ke, hKe, hv⟩ := Ke_entry b3Volume m_E m_nu invP p1 p2 p3 p4
  refine ⟨Ke, hKe, fun u => ?_⟩
  have h1 : quadraticForm12 Ke u =
      ∑ a in Finset.range 12, ∑ b in Finset.range 12,
        u a * (b3Volume p1 p2 p3 p4 * ∑ k in Finset.range 6, ∑ l in Finset.range 6,
          (fun k a => b3CreateB uninit invP (k + 6 * a)) k a
            * (fun k l => b3CreateE uninit (b3Lame m_E m_nu).1 (b3Lame m_E m_nu).2 (k + 6 * l)) k l
            * (fun k a => b3CreateB uninit invP (k + 6 * a)) l b) * u b := by
    unfold quadraticForm12
    refine Finset.sum_congr rfl (fun a ha => Finset.sum_congr rfl (fun b hb => ?_))
    rw [hv a b (Finset.mem_range.mp ha) (Finset.mem_range.mp hb)]
  rw [h1, quadratic_congruence]
  refine mul_nonneg hV ?_
  have h2 := b3CreateE_quadratic uninit (b3Lame m_E m_nu).1 (b3Lame m_E m_nu).2
    (fun k => ∑ a in Finset.range 12, b3CreateB uninit invP (k + 6 * a) * u a)
  beta_reduce at h2 ⊢
  rw [h2]
  positivity

/-- For `E > 0` and `0 ≤ nu < 1/2` the Lamé parameters computed by `b3Lame`
are not negative, the second one positive. -/
theorem b3Lame_nonneg (E nu : ℚ) (hE : 0 < E) (hnu : 0 ≤ nu) (hnu2 : nu < 1 / 2) :
    0 ≤ (b3Lame E nu).1 ∧ 0 < (b3Lame E nu).2 := by
  constructor
  · show 0 ≤ (nu * E) / ((1 + nu) * (1 - 2 * nu))
    exact div_nonneg (mul_nonneg hnu (le_of_lt hE))
      (le_of_lt (mul_pos (by linarith) (by linarith)))
  · show 0 < E / (2 * (1 + nu))
    exact div_pos hE (by linarith)

/-- C23. The assembled element stiffness is positive semidefinite for physical
materials: for every tetrahedron whose `b3Volume` is not negative and every
`nu` at which `b3Lame` has values (`nu ≠ -1`, `nu ≠ 1/2`), the element loop body
succeeds, with every division defined, with a `Ke` such that `uᵀ Ke u ≥ 0` for
every 12-vector `u` whenever the Lamé parameters that `b3Lame` computes are not
negative, which is the case for `E > 0` and `0 ≤ nu < 1/2`. -/
theorem element_Ke_psd (b3Volume : VolumeFn) (m_E m_nu : ℚ) (m : b3SoftBodyMesh)
    (mt : b3SoftBodyMeshTetrahedron) (e : b3SoftBodyElement)
    (hV : 0 ≤ b3Volume (m.vertices mt.v1) (m.vertices mt.v2) (m.vertices mt.v3)
      (m.vertices mt.v4))
    (hnu1 : m_nu ≠ -1) (hnu2 : m_nu ≠ 1 / 2) :
    ∃ Ke : Nat → ℚ,
      b3Lame.checked m_E m_nu = some (b3Lame m_E m_nu) ∧
      b3SoftBody.Ke b3Volume m_E m_nu
        (b3Inverse4 e.invP (b3SoftBody.P (m.vertices mt.v1) (m.vertices mt.v2)
          (m.vertices mt.v3) (m.vertices mt.v4)))
        (m.vertices mt.v1) (m.vertices mt.v2) (m.vertices mt.v3) (m.vertices mt.v4) = some Ke ∧
      b3SoftBody.initElement b3Volume m_E m_nu m mt e = some
        { invP := b3Inverse4 e.invP (b3SoftBody.P (m.vertices mt.v1) (m.vertices mt.v2)
            (m.vertices mt.v3) (m.vertices mt.v4)),
          K := b3SetK e.K Ke } ∧
      b3SoftBody.initElement.checked b3Volume m_E m_nu m mt e = some
        { invP := b3Inverse4 e.invP (b3SoftBody.P (m.vertices mt.v1) (m.vertices mt.v2)
            (m.vertices mt.v3) (m.vertices mt.v4)),
          K := b3SetK e.K Ke } ∧
      (0 ≤ (b3Lame m_E m_nu).1 → 0 ≤ (b3Lame m_E m_nu).2 →
        ∀ u : Nat → ℚ, 0 ≤ quadraticForm12 Ke u) ∧
      (0 < m_E → 0 ≤ m_nu → m_nu < 1 / 2 →
        0 ≤ (b3Lame m_E m_nu).1 ∧ 0 ≤ (b3Lame m_E m_nu).2 ∧
        ∀ u : Nat → ℚ, 0 ≤ quadraticForm12 Ke u) := by
  obtain ⟨Ke, hKe, hv⟩ := Ke_entry b3Volume m_E m_nu
    (b3Inverse4 e.invP (b3SoftBody.P (m.vertices mt.v1) (m.vertices mt.v2)
      (m.vertices mt.v3) (m.vertices mt.v4)))
    (m.vertices mt.v1) (m.vertices mt.v2) (m.vertices mt.v3) (m.vertices mt.v4)
  have hpsd : 0 ≤ (b3Lame m_E m_nu).1 → 0 ≤ (b3Lame m_E m_nu).2 →
      ∀ u : Nat → ℚ, 0 ≤ quadraticForm12 Ke u := by
    intro hl hm
    obtain ⟨Ke2, hKe2, h2⟩ := Ke_quadratic_nonneg b3Volume m_E m_nu
      (b3Inverse4 e.invP (b3SoftBody.P (m.vertices mt.v1) (m.vertices mt.v2)
        (m.vertices mt.v3) (m.vertices mt.v4)))
      (m.vertices mt.v1) (m.vertices mt.v2) (m.vertices mt.v3) (m.vertices mt.v4) hV hl hm
    rw [hKe] at hKe2
    obtain rfl := Option.some.inj hKe2
    exact h2
  refine ⟨Ke, b3Lame_checked_eq m_E m_nu hnu1 hnu2, hKe, ?_, ?_, hpsd, fun hE hnu hnu3 => ?_⟩
  · rw [initElement_unfold, hKe]; rfl
  · rw [initElement_checked_eq _ _ _ _ _ _ hnu1 hnu2, initElement_unfold, hKe]; rfl
  · have hL := b3Lame_nonneg m_E m_nu hE hnu hnu3
    exact ⟨hL.1, le_of_lt hL.2, hpsd hL.1 (le_of_lt hL.2)⟩

/-- C23 on tetrahedron 0 of the sample mesh with `E = 10`, `nu = 1/4`, whose
volume is `1/6`: the element loop body succeeds and `uᵀ Ke u ≥ 0` for every
`u`. -/
theorem element_Ke_psd_witness :
    0 ≤ signedVolume (sampleMesh.vertices (sampleMesh.tetrahedrons 0).v1)
      (sampleMesh.vertices (sampleMesh.tetrahedrons 0).v2)
      (sampleMesh.vertices (sampleMesh.tetrahedrons 0).v3)
      (sampleMesh.vertices (sampleMesh.tetrahedrons 0).v4) ∧
    ((1 / 4 : ℚ) ≠ -1 ∧ (1 / 4 : ℚ) ≠ 1 / 2) ∧
    ∃ e2 : b3SoftBodyElement,
      b3SoftBody.initElement.checked signedVolume 10 (1 / 4) sampleMesh
        (sampleMesh.tetrahedrons 0) sampleElement = some e2 ∧
    ∃ Ke : Nat → ℚ, e2.K = b3SetK sampleElement.K Ke ∧
      ∀ u : Nat → ℚ, 0 ≤ quadraticForm12 Ke u := by
  have hV : 0 ≤ signedVolume (sampleMesh.vertices (sampleMesh.tetrahedrons 0).v1)
      (sampleMesh.vertices (sampleMesh.tetrahedrons 0).v2)
      (sampleMesh.vertices (sampleMesh.tetrahedrons 0).v3)
      (sampleMesh.vertices (sampleMesh.tetrahedrons 0).v4) := by
    have h := sampleMesh_tetVolume.1
    unfold b3SoftBodyMesh.tetVolume at h
    rw [h]
    norm_num
  have hn1 : (1 / 4 : ℚ) ≠ -1 := by norm_num
  have hn2 : (1 / 4 : ℚ) ≠ 1 / 2 := by norm_num
  obtain ⟨Ke, -, -, -, h3, -, h4⟩ := element_Ke_psd signedVolume 10 (1 / 4) sampleMesh
    (sampleMesh.tetrahedrons 0) sampleElement hV hn1 hn2
  exact ⟨hV, ⟨hn1, hn2⟩, _, h3, Ke, rfl, (h4 (by norm_num) (by norm_num) (by norm_num)).2.2⟩

end Bounce
